import Mathlib

/-!
# PDF backend (`backend/main.go`): shallow embedding and verified properties

Go strings are modelled as lists of Unicode code points (`List Char`); the
library routines the handlers call (`strings.TrimSpace`, `filepath.Clean`,
`filepath.Base`, `filepath.Ext`, `filepath.Join`, `strconv.Atoi`, ...) are
transcribed from the Go standard library for the Unix target, where the path
separator is the slash and there is no volume name.
-/

set_option autoImplicit false

namespace PdfBackend

/-- A Go string, as its sequence of code points. -/
abbrev GoString := List Char

/-- The reverse solidus, written by its code point. -/
def backslash : Char := Char.ofNat 92

/-! ## package strings -/

/-- Go `unicode.IsSpace`: the White_Space code points. -/
def isSpace (c : Char) : Bool :=
  let n := c.toNat
  (9 ≤ n && n ≤ 13) || n == 32 || n == 0x85 || n == 0xA0 || n == 0x1680 ||
  (0x2000 ≤ n && n ≤ 0x200a) || n == 0x2028 || n == 0x2029 || n == 0x202f ||
  n == 0x205f || n == 0x3000

/-- Go `strings.TrimSpace`: drop leading and trailing white space. -/
def TrimSpace (s : GoString) : GoString :=
  (s.dropWhile isSpace).rdropWhile isSpace

/-- Go `strings.HasPrefix`. -/
def HasPrefix (s pre : GoString) : Bool := pre.isPrefixOf s

/-- Go `strings.HasSuffix`. -/
def HasSuffix (s suf : GoString) : Bool := suf.isSuffixOf s

/-- Go `strings.TrimPrefix`: `s` without the leading `pre`, or `s` itself. -/
def TrimPrefix (s pre : GoString) : GoString :=
  if HasPrefix s pre then s.drop pre.length else s

/-- Go `strings.TrimSuffix`: `s` without the trailing `suf`, or `s` itself. -/
def TrimSuffix (s suf : GoString) : GoString :=
  if HasSuffix s suf then s.take (s.length - suf.length) else s

/-- Go `strings.Contains`: `sub` occurs in `s` as a contiguous substring. -/
def Contains : GoString → GoString → Bool
  | [], sub => sub.isEmpty
  | c :: t, sub => sub.isPrefixOf (c :: t) || Contains t sub

/-- Go `strings.ReplaceAll(s, old, new)` for a one-character `old`. -/
def ReplaceAll (s : GoString) (old : Char) (new : GoString) : GoString :=
  s.flatMap (fun c => if c = old then new else [c])

/-! ## package path/filepath (Unix) -/

/-- The path separator. -/
def Separator : Char := '/'

/-- Go `filepath.Ext`, scanning from the end: `rev` is the part of the path
not yet visited (reversed), `acc` what lies after the current index. -/
def extLoop : List Char → GoString → GoString
  | [], _ => []
  | c :: rest, acc =>
    if c = Separator then []
    else if c = '.' then '.' :: acc
    else extLoop rest (c :: acc)

/-- Go `filepath.Ext`: the suffix beginning at the final dot of the final
element of the path, empty if there is no dot. -/
def Ext (path : GoString) : GoString := extLoop path.reverse []

/-- Go `filepath.Base`: the last element of the path. -/
def Base (path : GoString) : GoString :=
  if path = [] then ['.']
  else
    -- strip trailing slashes
    let p := path.rdropWhile (fun c => c == Separator)
    -- find the last element
    let p := (p.reverse.takeWhile (fun c => c != Separator)).reverse
    -- if empty now, it had only slashes
    if p = [] then [Separator] else p

/-- The inner loop of the `..` case of `filepath.Clean`: starting from write
index `w`, step back while `w > dotdot` and `buf[w]` is not a separator. -/
def backtrackLoop (buf : List Char) (dotdot : Nat) : Nat → Nat
  | 0 => 0
  | w + 1 =>
    if dotdot < w + 1 ∧ buf.getD (w + 1) Separator ≠ Separator then
      backtrackLoop buf dotdot w
    else w + 1

/-- The `..` backtracking of `filepath.Clean`: `out.w--`, then the loop. -/
def backtrack (out : List Char) (dotdot : Nat) : List Char :=
  out.take (backtrackLoop out dotdot (out.length - 1))

/-- The main loop of `filepath.Clean`. `rest` is `path[r:]`, `out` the
written prefix `buf[:w]`, and `dotdot` the index where `..` must stop. Every
iteration consumes at least one character, so `fuel = len(path)` suffices. -/
def cleanLoop (rooted : Bool) : Nat → List Char → List Char → Nat → List Char
  | 0, _, out, _ => out
  | fuel + 1, rest, out, dotdot =>
    match rest with
    | [] => out
    | c :: t =>
      if c = Separator then
        -- empty path element
        cleanLoop rooted fuel t out dotdot
      else if c = '.' ∧ (t = [] ∨ t.head? = some Separator) then
        -- . element
        cleanLoop rooted fuel t out dotdot
      else if c = '.' ∧ t.head? = some '.' ∧
          (t.tail = [] ∨ t.tail.head? = some Separator) then
        -- .. element: remove to last separator
        if dotdot < out.length then
          cleanLoop rooted fuel t.tail (backtrack out dotdot) dotdot
        else if rooted = false then
          let out1 := if 0 < out.length then out ++ [Separator] else out
          let out2 := out1 ++ ['.', '.']
          cleanLoop rooted fuel t.tail out2 out2.length
        else
          cleanLoop rooted fuel t.tail out dotdot
      else
        -- real path element: add slash if needed, then copy the element
        let out1 :=
          if (rooted = true ∧ out.length ≠ 1) ∨ (rooted = false ∧ out.length ≠ 0)
          then out ++ [Separator] else out
        cleanLoop rooted fuel ((c :: t).dropWhile (fun x => x != Separator))
          (out1 ++ (c :: t).takeWhile (fun x => x != Separator)) dotdot

/-- Go `filepath.Clean`. -/
def Clean (path : GoString) : GoString :=
  if path = [] then ['.']
  else
    let rooted : Bool := path.head? = some Separator
    let out :=
      if rooted then cleanLoop true path.length path.tail [Separator] 1
      else cleanLoop false path.length path [] 0
    -- turn empty string into "."
    if out = [] then ['.'] else out

/-- Go `strings.Join(elems, "/")`. -/
def joinSep : List GoString → GoString
  | [] => []
  | [e] => e
  | e :: es => e ++ Separator :: joinSep es

/-- Go `filepath.Join`: the elements from the first non-empty one on, joined
by the separator and cleaned; the empty string if all are empty. -/
def Join (elem : List GoString) : GoString :=
  match elem.dropWhile (fun e => e.isEmpty) with
  | [] => []
  | es => Clean (joinSep es)

/-- Go `strings.Split(s, sep)` for a one-character `sep`. -/
def Split (s : GoString) (sep : Char) : List GoString := s.splitOn sep

/-- Lower-casing of an ASCII letter, as `strings.ToLower` does on ASCII text;
other code points are returned unchanged. -/
def lowerASCII (c : Char) : Char :=
  if 'A' ≤ c ∧ c ≤ 'Z' then Char.ofNat (c.toNat + 32) else c

/-- Go `unicode.ToLower` on the code points whose lower case is an ASCII
letter: the ASCII capitals, the dotted capital I (U+0130) and the Kelvin sign
(U+212A). Other code points are returned unchanged; their lower case is not
ASCII, so a comparison of the result with ASCII text is not affected. -/
def toLowerRune (c : Char) : Char :=
  if c.toNat = 0x130 then 'i'
  else if c.toNat = 0x212A then 'k'
  else lowerASCII c

/-- Go `strings.ToLower`, exact wherever the result is compared with ASCII
text (see `toLowerRune`). -/
def ToLower (s : GoString) : GoString := s.map toLowerRune

/-- The line feed. -/
def newline : Char := Char.ofNat 10

/-- The loop of Go `strings.Fields`: `cur` is the field being read. -/
def fieldsAux : List Char → GoString → List GoString
  | [], cur => if cur = [] then [] else [cur]
  | c :: t, cur =>
    if isSpace c then
      if cur = [] then fieldsAux t [] else cur :: fieldsAux t []
    else fieldsAux t (cur ++ [c])

/-- Go `strings.Fields`: the maximal runs of characters that are not white
space. -/
def Fields (s : GoString) : List GoString := fieldsAux s []

/-! ## package strconv -/

/-- The value of a decimal digit. -/
def digitVal (c : Char) : Option Nat :=
  if '0' ≤ c ∧ c ≤ '9' then some (c.toNat - 48) else none

/-- The digit loop of `strconv.Atoi`: `n = n*10 + digit`, failing on the first
character that is not a decimal digit. -/
def parseDigits : List Char → Nat → Option Nat
  | [], acc => some acc
  | c :: t, acc =>
    match digitVal c with
    | some d => parseDigits t (acc * 10 + d)
    | none => none

/-- Go `strconv.Atoi` for the 64-bit `int`: an optional sign, then one or more
decimal digits; `none` is the syntax or range error. -/
def Atoi (s : GoString) : Option Int :=
  let neg : Bool := s.head? = some '-'
  let ds := if s.head? = some '-' ∨ s.head? = some '+' then s.tail else s
  if ds = [] then none
  else
    match parseDigits ds 0 with
    | none => none
    | some n =>
      let v : Int := if neg then -(n : Int) else (n : Int)
      if -(2 : Int) ^ 63 ≤ v ∧ v ≤ 2 ^ 63 - 1 then some v else none

/-- Decimal digits of a natural number, most significant first. -/
def natDigitsLoop : Nat → Nat → List Char → List Char
  | 0, _, acc => acc
  | fuel + 1, n, acc =>
    let acc1 := Char.ofNat (48 + n % 10) :: acc
    if n / 10 = 0 then acc1 else natDigitsLoop fuel (n / 10) acc1

/-- Decimal form of a natural number. -/
def natItoa (n : Nat) : GoString := natDigitsLoop (n + 1) n []

/-- Go `strconv.Itoa`, also the verb `%d` of `fmt.Sprintf`. -/
def Itoa (n : Int) : GoString :=
  if n < 0 then '-' :: natItoa n.natAbs else natItoa n.natAbs

/-- A `float64` value: not-a-number, an infinity, or a finite value given by
its sign bit, a mantissa and a binary exponent, standing for
`± mant * 2 ^ exp`. Every finite `float64` has this form. The program only
compares such values with `0` and `1`, assigns these constants and prints the
result, and all of that is exact here. -/
inductive F64
  | nan
  | inf (neg : Bool)
  | fin (neg : Bool) (mant : Nat) (exp : Int)
  deriving DecidableEq

/-- The finite value `± mant * 2 ^ exp` as a multiple of `2 ^ e0`, for an
exponent `e0` not above `exp`. -/
def F64.scaled (neg : Bool) (mant : Nat) (exp e0 : Int) : Int :=
  (if neg then -1 else 1) * (mant : Int) * 2 ^ (exp - e0).toNat

/-- The constant `0`. -/
def F64.zero : F64 := F64.fin false 0 0

/-- The constant `1`. -/
def F64.one : F64 := F64.fin false 1 0

/-- The constant `0.25`. -/
def F64.quarter : F64 := F64.fin false 1 (-2)

/-- The comparison `<` of IEEE 754: false as soon as one side is NaN. -/
def F64.lt : F64 → F64 → Bool
  | F64.nan, _ => false
  | _, F64.nan => false
  | F64.inf n1, F64.inf n2 => n1 && !n2
  | F64.inf n, F64.fin _ _ _ => n
  | F64.fin _ _ _, F64.inf n => !n
  | F64.fin n1 m1 e1, F64.fin n2 m2 e2 =>
    decide (F64.scaled n1 m1 e1 (min e1 e2) < F64.scaled n2 m2 e2 (min e1 e2))

/-- The comparison `<=` of IEEE 754: false as soon as one side is NaN. -/
def F64.le : F64 → F64 → Bool
  | F64.nan, _ => false
  | _, F64.nan => false
  | F64.inf n1, F64.inf n2 => n1 || !n2
  | F64.inf n, F64.fin _ _ _ => n
  | F64.fin _ _ _, F64.inf n => !n
  | F64.fin n1 m1 e1, F64.fin n2 m2 e2 =>
    decide (F64.scaled n1 m1 e1 (min e1 e2) ≤ F64.scaled n2 m2 e2 (min e1 e2))

/-- The value lies in the closed interval from 0 to 1. -/
def F64.inUnit (f : F64) : Bool := F64.le F64.zero f && F64.le f F64.one

/-- Helper `commonPrefixLenIgnoreCase` of `strconv`. -/
def commonPrefixLenIgnoreCase : GoString → GoString → Nat
  | c :: s, p :: pre =>
    if lowerASCII c = p then commonPrefixLenIgnoreCase s pre + 1 else 0
  | _, _ => 0

/-- The `infinity` branch of `strconv.special`. -/
def specialInf (neg : Bool) (nsign : Nat) (s : GoString) : Option (F64 × Nat) :=
  let n := commonPrefixLenIgnoreCase s "infinity".toList
  -- anything longer than "inf" is ok, but only "infinity" consumes more
  let n := if 3 < n ∧ n < 8 then 3 else n
  if n = 3 ∨ n = 8 then some (F64.inf neg, nsign + n) else none

/-- Helper `special` of `strconv`: the special value a string starts with, if
any, and the number of characters it takes. -/
def special (s : GoString) : Option (F64 × Nat) :=
  match s with
  | [] => none
  | c :: t =>
    if c = '+' ∨ c = '-' then specialInf (c == '-') 1 t
    else if c = 'i' ∨ c = 'I' then specialInf false 0 (c :: t)
    else if c = 'n' ∨ c = 'N' then
      if commonPrefixLenIgnoreCase (c :: t) "nan".toList = 3 then some (F64.nan, 3) else none
    else none

/-- Go `strconv.ParseFloat(s, 64)`: a special value must take the whole string;
any other text goes to the numeral conversion `readFloat` (decimal and
hexadecimal numerals, rounded to nearest even), which is a parameter and yields
`none` on a syntax or range error. -/
def ParseFloat (readFloat : GoString → Option F64) (s : GoString) : Option F64 :=
  match special s with
  | some (f, n) => if n = s.length then some f else none
  | none => readFloat s

/-! ## Constants and small helpers of `main.go` -/

/-- Constant `baseWorkDir`. -/
def baseWorkDir : GoString := "/app/work".toList

/-- Constant `defaultFilename`. -/
def defaultFilename : GoString := "output.pdf".toList

/-- Function `sanitizeFilename` of `main.go`. -/
def sanitizeFilename (name : GoString) : GoString :=
  let name := Base (TrimSpace name)
  -- Replace path separators just in case.
  let name := ReplaceAll name '/' ['_']
  let name := ReplaceAll name backslash ['_']
  let name := TrimSpace name
  if name = [] then "file".toList else name

/-- Function `baseNameWithoutExt` of `main.go`. -/
def baseNameWithoutExt (filename : GoString) : GoString :=
  let filename := sanitizeFilename filename
  TrimSuffix filename (Ext filename)

/-- Function `parseIntDefault` of `main.go`. -/
def parseIntDefault (s : GoString) (d : Int) : Int :=
  let s := TrimSpace s
  if s = [] then d
  else
    match Atoi s with
    | none => d
    | some n => n

/-- Function `parseFloatDefault` of `main.go`. -/
def parseFloatDefault (readFloat : GoString → Option F64) (s : GoString) (d : F64) : F64 :=
  let s := TrimSpace s
  if s = [] then d
  else
    match ParseFloat readFloat s with
    | none => d
    | some f => f

/-! ## The world the handlers act on

A handler is a function of the request and of an environment that answers its
system calls. Each answer may depend on everything done so far, so the
environment covers a file system that changes under the handler. A handler
returns its response together with the sequence of system calls it made. -/

/-- A multipart file part, `multipart.FileHeader`: the file name sent by the
client and a handle on the content. -/
structure FileHeader where
  Filename : GoString
  content : Nat
  deriving DecidableEq

/-- The part of `os.FileInfo` that the program reads. -/
structure FileInfo where
  Name : GoString
  IsDir : Bool
  ModTime : Int
  deriving DecidableEq

/-- A system call made by a handler. -/
inductive Event
  /-- Call `uuid.NewString()` with its result. -/
  | newUUID (id : GoString)
  /-- Call `os.MkdirAll(path, perm)`. -/
  | mkdirAll (path : GoString) (perm : Nat)
  /-- Call `saveUploadedFile(header, dst)`: create `dst`, copy the part. -/
  | saveUpload (header : FileHeader) (dst : GoString)
  /-- Call `os.Stat(path)`. -/
  | stat (path : GoString)
  /-- Call `http.ServeFile(w, r, path)`. -/
  | serveFile (path : GoString)
  /-- Calls `runCommand` and `runCommandOutput`: the program `name` run with
  working directory `dir` and arguments `args`. -/
  | run (dir name : GoString) (args : List GoString)
  /-- Call `zipDirectory(srcDir, zipPath)`. -/
  | zipDir (srcDir zipPath : GoString)
  /-- Call `os.ReadFile(path)`. -/
  | readFile (path : GoString)
  /-- Call `os.WriteFile(path, content, perm)`. -/
  | writeFile (path content : GoString) (perm : Nat)
  /-- Call `os.ReadDir(path)`. -/
  | readDir (path : GoString)
  /-- Call `os.RemoveAll(path)`. -/
  | removeAll (path : GoString)
  /-- Call `os.Remove(path)`. -/
  | remove (path : GoString)
  /-- Call `os.Rename(oldpath, newpath)`. -/
  | rename (oldpath newpath : GoString)
  /-- Call `filepath.Glob(pattern)`. -/
  | glob (pattern : GoString)
  /-- Call `time.Now()`. -/
  | now
  /-- Call `os.Create(path)`. -/
  | create (path : GoString)
  /-- Call `io.Copy` of an uploaded part into the file created at `dst`. -/
  | copyUpload (key dst : GoString)
  /-- Call `exec.Command(name, args...).Output()` with working directory `dir`. -/
  | execOutput (dir name : GoString) (args : List GoString)
  /-- Call `exec.Command(name, args...).CombinedOutput()` with working
  directory `dir`. -/
  | execCombined (dir name : GoString) (args : List GoString)
  /-- Call `os.MkdirAll(path, perm)` made by a detached goroutine. -/
  | goMkdirAll (path : GoString) (perm : Nat)
  /-- Call `runCommandOutput` made by a detached goroutine; nobody reads its
  result. -/
  | goRun (dir name : GoString) (args : List GoString)
  deriving DecidableEq

/-- An entry of a directory listing, `os.DirEntry`. -/
structure DirEntry where
  Name : GoString
  IsDir : Bool
  deriving DecidableEq

/-- Type `organizeRotation`: one entry of the `rotations` parameter. -/
structure OrganizeRotation where
  PageNumber : Int
  Degrees : Int
  deriving DecidableEq

/-- Type `redactionArea` of `handleRedactPDF`. -/
structure RedactionArea where
  Page : Int
  X : F64
  Y : F64
  Width : F64
  Height : F64
  deriving DecidableEq

/-- The answers of the system, each given the calls made so far, and the
library routines that the model takes as parameters. -/
structure Env where
  /-- Result of `uuid.NewString()`. -/
  NewString : List Event → GoString
  /-- Whether `os.MkdirAll` returns without error. -/
  MkdirAll : List Event → GoString → Bool
  /-- Whether `saveUploadedFile` returns without error. -/
  saveUpload : List Event → FileHeader → GoString → Bool
  /-- Result of `os.Stat`, `none` for an error. -/
  Stat : List Event → GoString → Option FileInfo
  /-- Result of running a program: its combined output when it started and
  exited with status zero, `none` otherwise. -/
  Run : List Event → GoString → GoString → List GoString → Option GoString
  /-- Whether `zipDirectory` returns without error. -/
  zipDir : List Event → GoString → GoString → Bool
  /-- The numeral conversion of `strconv.ParseFloat`. -/
  readFloat : GoString → Option F64
  /-- Result of `os.ReadFile`, `none` for an error. -/
  ReadFile : List Event → GoString → Option GoString
  /-- Whether `os.WriteFile` returns without error. -/
  WriteFile : List Event → GoString → GoString → Bool
  /-- Result of `os.ReadDir`, `none` for an error. -/
  ReadDir : List Event → GoString → Option (List DirEntry)
  /-- Whether the error of a failed `os.Stat` satisfies `os.IsNotExist`. -/
  IsNotExist : List Event → GoString → Bool
  /-- Whether `os.Rename` returns without error. -/
  Rename : List Event → GoString → GoString → Bool
  /-- Result of `filepath.Glob`, `none` for an error. -/
  Glob : List Event → GoString → Option (List GoString)
  /-- Result of `time.Now()`, as a number of nanoseconds. -/
  Now : List Event → Int
  /-- Whether `os.Create` returns without error. -/
  Create : List Event → GoString → Bool
  /-- Whether `io.Copy` of the uploaded part returns without error. -/
  Copy : List Event → GoString → GoString → Bool
  /-- Result of `cmd.Output()`: whether the program started and exited with
  status zero, and what it wrote to standard output in either case. -/
  Output : List Event → GoString → GoString → List GoString → Bool × GoString
  /-- Result of `cmd.CombinedOutput()`: whether the program started and exited
  with status zero, and its combined output in either case. -/
  CombinedOutput : List Event → GoString → GoString → List GoString → Bool × GoString
  /-- The order in which a `range` over a Go map with the given keys visits
  them; the language leaves it unspecified. -/
  mapOrder : List Event → List Int → List Int
  /-- Library `json.Unmarshal` into a slice of `organizeRotation`. -/
  unmarshalRotations : GoString → Option (List OrganizeRotation)
  /-- Library `json.Unmarshal` into a slice of `redactionArea`. -/
  unmarshalRedactions : GoString → Option (List RedactionArea)
  /-- Library `fmt.Sscanf(s, "page-%d.png", &pn)`: the number read, `none`
  for an error. -/
  scanPage : GoString → Option Int
  /-- Library `fmt.Sscanf(s, "%d %d", &w, &h)`: the numbers read, `none` for
  an error. -/
  scanDims : GoString → Option (Int × Int)
  /-- The expression `int(x * float64(n))` on `float64`. -/
  pixel : F64 → Int → Int
  /-- Addition of `float64`. -/
  fadd : F64 → F64 → F64
  /-- Subtraction of `float64`. -/
  fsub : F64 → F64 → F64
  /-- Division of `float64`. -/
  fdiv : F64 → F64 → F64

/-- The part of `http.Request` that the handlers read. `multipartOk` tells
whether `ParseMultipartForm` succeeds, `FormValue` is `r.FormValue`, and `File`
is `r.MultipartForm.File`. -/
structure Request where
  Method : GoString
  Host : GoString
  TLS : Bool
  XForwardedProto : GoString
  URLPath : GoString
  multipartOk : Bool
  FormValue : GoString → GoString
  File : GoString → List FileHeader
  /-- The query parameters, `r.URL.Query().Get`. -/
  Query : GoString → GoString := fun _ => []

/-- Method `r.FormFile(key)`: the first file part under `key`, if any. -/
def Request.FormFile (r : Request) (key : GoString) : Option FileHeader :=
  (r.File key).head?

/-- What a handler writes as the body of its response. -/
inductive Body
  /-- The JSON object with the single key `error`. -/
  | error (msg : GoString)
  /-- The JSON object with the single key `downloadUrl`. -/
  | downloadUrl (url : GoString)
  /-- The JSON object with the key `pages`: page numbers and image URLs. -/
  | pages (ps : List (Int × GoString))
  /-- The plain text written by `http.Error`. -/
  | plain (msg : GoString)
  /-- The content written by `http.ServeFile` for the file at `path`; with
  `attachment = some name` the header `Content-Disposition` is set to
  `attachment; filename=` followed by the quoted `name`. -/
  | file (path : GoString) (attachment : Option GoString)
  /-- No response at all: the handler panicked, and `net/http` recovers the
  panic and closes the connection. -/
  | noResponse
  deriving DecidableEq

/-- A response: status code and body. -/
structure Response where
  status : Nat
  body : Body
  deriving DecidableEq

/-- Function `errorJSON`. -/
def errorJSON (status : Nat) (msg : GoString) : Response := ⟨status, Body.error msg⟩

/-- Library `http.Error`. -/
def httpError (msg : GoString) (status : Nat) : Response := ⟨status, Body.plain msg⟩

/-- Function `inferBaseURL`. -/
def inferBaseURL (r : Request) : GoString :=
  let scheme : GoString :=
    if r.XForwardedProto = "https".toList ∨ r.TLS = true then "https".toList
    else "http".toList
  scheme ++ "://".toList ++ r.Host

/-- Function `buildDownloadURL`. -/
def buildDownloadURL (r : Request) (jobID filename : GoString) : GoString :=
  inferBaseURL r ++ "/downloads/".toList ++ jobID ++ "/".toList ++ filename

/-- Function `buildPreviewURL`. -/
def buildPreviewURL (r : Request) (jobID filename : GoString) : GoString :=
  inferBaseURL r ++ "/previews/".toList ++ jobID ++ "/".toList ++ filename

/-- Function `newJobDir`: the job identifier and directory, or `none` when the
directory cannot be created; with the calls made. -/
def newJobDir (env : Env) (tr : List Event) : Option (GoString × GoString) × List Event :=
  let jobID := env.NewString tr
  let tr := tr ++ [Event.newUUID jobID]
  let dir := Join [baseWorkDir, jobID]
  if env.MkdirAll tr dir then (some (jobID, dir), tr ++ [Event.mkdirAll dir 0o755])
  else (none, tr ++ [Event.mkdirAll dir 0o755])

/-- Function `saveUploadedFile`. -/
def saveUploadedFile (env : Env) (tr : List Event) (h : FileHeader) (dst : GoString) :
    Bool × List Event :=
  (env.saveUpload tr h dst, tr ++ [Event.saveUpload h dst])

/-- Function `runCommand`: whether the program ran and exited with status 0. -/
def runCommand (env : Env) (tr : List Event) (dir name : GoString) (args : List GoString) :
    Bool × List Event :=
  ((env.Run tr dir name args).isSome, tr ++ [Event.run dir name args])

/-- Function `runCommandOutput`. -/
def runCommandOutput (env : Env) (tr : List Event) (dir name : GoString)
    (args : List GoString) : Option GoString × List Event :=
  (env.Run tr dir name args, tr ++ [Event.run dir name args])

/-- Library `os.Stat`, recorded. -/
def osStat (env : Env) (tr : List Event) (path : GoString) : Option FileInfo × List Event :=
  (env.Stat tr path, tr ++ [Event.stat path])

/-- The test `err != nil || fi.IsDir()` on the result of `os.Stat`. -/
def missingOrDir : Option FileInfo → Bool
  | none => true
  | some fi => fi.IsDir

/-- Library `os.MkdirAll(path, 0o755)`, recorded. -/
def osMkdirAll (env : Env) (tr : List Event) (path : GoString) : Bool × List Event :=
  (env.MkdirAll tr path, tr ++ [Event.mkdirAll path 0o755])

/-- Function `zipDirectory`: whether it returned without error. -/
def zipDirectory (env : Env) (tr : List Event) (srcDir zipPath : GoString) :
    Bool × List Event :=
  (env.zipDir tr srcDir zipPath, tr ++ [Event.zipDir srcDir zipPath])

/-- Library `os.WriteFile`, recorded. -/
def osWriteFile (env : Env) (tr : List Event) (path content : GoString) (perm : Nat) :
    Bool × List Event :=
  (env.WriteFile tr path content, tr ++ [Event.writeFile path content perm])

/-- Library `os.ReadFile`, recorded. -/
def osReadFile (env : Env) (tr : List Event) (path : GoString) :
    Option GoString × List Event :=
  (env.ReadFile tr path, tr ++ [Event.readFile path])

/-- Library `os.ReadDir`, recorded. -/
def osReadDir (env : Env) (tr : List Event) (path : GoString) :
    Option (List DirEntry) × List Event :=
  (env.ReadDir tr path, tr ++ [Event.readDir path])

/-- Library `os.Rename`, recorded. -/
def osRename (env : Env) (tr : List Event) (oldpath newpath : GoString) :
    Bool × List Event :=
  (env.Rename tr oldpath newpath, tr ++ [Event.rename oldpath newpath])

/-- Library `filepath.Glob`, recorded. -/
def filepathGlob (env : Env) (tr : List Event) (pattern : GoString) :
    Option (List GoString) × List Event :=
  (env.Glob tr pattern, tr ++ [Event.glob pattern])

/-- The text of a Go error value, `err.Error()`, which the model does not
track: a message built as `"...: " + err.Error()` is modelled by its fixed
part. -/
def errText : GoString := []

/-! ## Page counts -/

/-- The result of a page-count query: the count, the error `... failed`
wrapping the failure of the tool, or the error `could not parse page count`. -/
inductive PageCount
  | ok (n : Int)
  | toolFailed
  | couldNotParse
  deriving DecidableEq

/-- The loop of `pageCountPoppler` over the lines of the output. -/
def popplerLines : List GoString → PageCount
  | [] => PageCount.couldNotParse
  | line :: rest =>
    let trim := TrimSpace line
    if HasPrefix trim "Pages:".toList then
      let parts := Fields trim
      if 2 ≤ parts.length then
        match Atoi (parts.getLastD []) with
        | some n => if 0 < n then PageCount.ok n else popplerLines rest
        | none => popplerLines rest
      else popplerLines rest
    else popplerLines rest

/-- Function `pageCountPoppler`. -/
def pageCountPoppler (env : Env) (tr : List Event) (dir inPath : GoString) :
    PageCount × List Event :=
  match runCommandOutput env tr dir "pdfinfo".toList [inPath] with
  | (none, tr) => (PageCount.toolFailed, tr)
  | (some out, tr) => (popplerLines (Split out newline), tr)

/-- The loop of `pageCountPDF` over the lines of the output. -/
def pdfcpuLines : List GoString → PageCount
  | [] => PageCount.couldNotParse
  | line :: rest =>
    if HasPrefix (TrimSpace line) "Pages:".toList then
      let parts := Fields line
      if 2 ≤ parts.length then
        match Atoi (parts.getLastD []) with
        | some n => PageCount.ok n
        | none => pdfcpuLines rest
      else pdfcpuLines rest
    else pdfcpuLines rest

/-- Function `pageCountPDF`. -/
def pageCountPDF (env : Env) (tr : List Event) (dir inPath : GoString) :
    PageCount × List Event :=
  match runCommandOutput env tr dir "pdfcpu".toList ["info".toList, inPath] with
  | (none, tr) => (PageCount.toolFailed, tr)
  | (some out, tr) => (pdfcpuLines (Split out newline), tr)

/-! ## The artifact server -/

/-- Function `serveDownload`. -/
def serveDownload (env : Env) (r : Request) : Response × List Event :=
  let rel := TrimPrefix r.URLPath "/downloads/".toList
  let clean := Clean rel
  if Contains clean "..".toList then (httpError "forbidden".toList 403, [])
  else
    let full := Join [baseWorkDir, clean]
    match osStat env [] full with
    | (none, tr) => (httpError "file not found".toList 404, tr)
    | (some fi, tr) =>
      if fi.IsDir then (httpError "file not found".toList 404, tr)
      else (⟨200, Body.file full (some fi.Name)⟩, tr ++ [Event.serveFile full])

/-- The test of `servePreview` for a request of a page thumbnail, expected as
`<jobId>/previews/page-<n>.png`: the job identifier and the page number. -/
def lazyPage (clean : GoString) : Option (GoString × Int) :=
  let parts := Split clean Separator
  if 3 ≤ parts.length ∧ parts.get? 1 = some "previews".toList then
    let jobID := parts.headD []
    let filename := parts.getLastD []
    if HasPrefix filename "page-".toList ∧ HasSuffix (ToLower filename) ".png".toList then
      let numStr := TrimSuffix (TrimPrefix filename "page-".toList) ".png".toList
      match Atoi numStr with
      | some n => if 0 < n then some (jobID, n) else none
      | none => none
    else none
  else none

/-- Function `servePreview`. -/
def servePreview (env : Env) (r : Request) : Response × List Event :=
  let rel := TrimPrefix r.URLPath "/previews/".toList
  let clean := Clean rel
  if Contains clean "..".toList then (httpError "forbidden".toList 403, [])
  else
    let full := Join [baseWorkDir, clean]
    match osStat env [] full with
    | (st, tr) =>
      if missingOrDir st then
        -- Lazy-generate page thumbnails if this looks like a preview page request.
        match lazyPage clean with
        | some (jobID, n) =>
          let jobDir := Join [baseWorkDir, jobID]
          let srcPDF := Join [jobDir, "input.pdf".toList]
          let previewsDir := Join [jobDir, "previews".toList]
          let tr := tr ++ [Event.mkdirAll previewsDir 0o755]
          let pfx := Join [previewsDir, "page".toList]
          -- Render just this page.
          match runCommandOutput env tr jobDir "pdftoppm".toList
              ["-png".toList, "-r".toList, "110".toList, "-f".toList, Itoa n,
                "-l".toList, Itoa n, srcPDF, pfx] with
          | (none, tr) => (httpError "failed to render preview".toList 500, tr)
          | (some _, tr) =>
            -- Retry stat after generation.
            match osStat env tr full with
            | (st2, tr) =>
              if missingOrDir st2 then (httpError "file not found".toList 404, tr)
              else (⟨200, Body.file full none⟩, tr ++ [Event.serveFile full])
        | none => (httpError "file not found".toList 404, tr)
      else (⟨200, Body.file full none⟩, tr ++ [Event.serveFile full])

/-! ## Operation handlers -/

/-- Function `handleRotate`. -/
def handleRotate (env : Env) (r : Request) : Response × List Event :=
  if r.Method ≠ "POST".toList then (errorJSON 405 "method not allowed".toList, [])
  else if r.multipartOk = false then (errorJSON 400 "invalid multipart form".toList, [])
  else
    match r.FormFile "file".toList with
    | none => (errorJSON 400 "file is required".toList, [])
    | some header =>
      let degrees := parseIntDefault (r.FormValue "degrees".toList) 90
      if degrees ≠ 90 ∧ degrees ≠ 180 ∧ degrees ≠ 270 then
        (errorJSON 400 "degrees must be 90, 180, or 270".toList, [])
      else
        match newJobDir env [] with
        | (none, tr) => (errorJSON 500 "failed to create job".toList, tr)
        | (some (jobID, dir), tr) =>
          let inPath := Join [dir, "input.pdf".toList]
          match saveUploadedFile env tr header inPath with
          | (false, tr) => (errorJSON 500 "failed to save file".toList, tr)
          | (true, tr) =>
            let outName := defaultFilename
            let outPath := Join [dir, outName]
            match runCommand env tr dir "pdfcpu".toList
                ["rotate".toList, inPath, Itoa degrees, outPath] with
            | (false, tr) => (errorJSON 500 "failed to rotate PDF".toList, tr)
            | (true, tr) => (⟨200, Body.downloadUrl (buildDownloadURL r jobID outName)⟩, tr)

/-- The loops of `handleMerge` and `handleImageToPDF` that save the `i`-th
upload under `name i fh` in the job directory: the saved paths in order, or
`none` at the first failure. -/
def saveInputs (env : Env) (dir : GoString) (name : Nat → FileHeader → GoString) :
    List FileHeader → Nat → List Event → List GoString → Option (List GoString) × List Event
  | [], _, tr, acc => (some acc, tr)
  | fh :: rest, i, tr, acc =>
    let inPath := Join [dir, name i fh]
    match saveUploadedFile env tr fh inPath with
    | (false, tr) => (none, tr)
    | (true, tr) => saveInputs env dir name rest (i + 1) tr (acc ++ [inPath])

/-- Function `handleMerge`. -/
def handleMerge (env : Env) (r : Request) : Response × List Event :=
  if r.Method ≠ "POST".toList then (errorJSON 405 "method not allowed".toList, [])
  else if r.multipartOk = false then (errorJSON 400 "invalid multipart form".toList, [])
  else
    let files := r.File "files".toList
    if files.length = 0 then (errorJSON 400 "no files provided".toList, [])
    else
      match newJobDir env [] with
      | (none, tr) => (errorJSON 500 "failed to create job".toList, tr)
      | (some (jobID, dir), tr) =>
        match saveInputs env dir
            (fun i _ => "input_".toList ++ natItoa i ++ ".pdf".toList) files 0 tr [] with
        | (none, tr) => (errorJSON 500 "failed to save input file".toList, tr)
        | (some inputPaths, tr) =>
          let outName := r.FormValue "outputFilename".toList
          let outName := if outName = [] then defaultFilename else outName
          let outPath := Join [dir, outName]
          let args := ["merge".toList, outPath] ++ inputPaths
          match runCommand env tr dir "pdfcpu".toList args with
          | (false, tr) => (errorJSON 500 "failed to merge PDFs".toList, tr)
          | (true, tr) => (⟨200, Body.downloadUrl (buildDownloadURL r jobID outName)⟩, tr)

/-- Function `handleImageToPDF`. -/
def handleImageToPDF (env : Env) (r : Request) : Response × List Event :=
  if r.Method ≠ "POST".toList then (errorJSON 405 "method not allowed".toList, [])
  else if r.multipartOk = false then (errorJSON 400 "invalid multipart form".toList, [])
  else
    let files := r.File "files".toList
    if files.length = 0 then (errorJSON 400 "no files provided".toList, [])
    else
      match newJobDir env [] with
      | (none, tr) => (errorJSON 500 "failed to create job".toList, tr)
      | (some (jobID, dir), tr) =>
        match saveInputs env dir
            (fun i fh => "image_".toList ++ natItoa i ++ Ext fh.Filename) files 0 tr [] with
        | (none, tr) => (errorJSON 500 "failed to save image".toList, tr)
        | (some imagePaths, tr) =>
          let outName := r.FormValue "outputFilename".toList
          let outName := if outName = [] then defaultFilename else outName
          let outPath := Join [dir, outName]
          let args := imagePaths ++ [outPath]
          match runCommand env tr dir "convert".toList args with
          | (false, tr) => (errorJSON 500 "failed to convert images".toList, tr)
          | (true, tr) => (⟨200, Body.downloadUrl (buildDownloadURL r jobID outName)⟩, tr)

/-- Function `handleSplit`. -/
def handleSplit (env : Env) (r : Request) : Response × List Event :=
  if r.Method ≠ "POST".toList then (errorJSON 405 "method not allowed".toList, [])
  else if r.multipartOk = false then (errorJSON 400 "invalid multipart form".toList, [])
  else
    match r.FormFile "file".toList with
    | none => (errorJSON 400 "file is required".toList, [])
    | some header =>
      match newJobDir env [] with
      | (none, tr) => (errorJSON 500 "failed to create job".toList, tr)
      | (some (jobID, dir), tr) =>
        let origBase := baseNameWithoutExt header.Filename
        -- Use a stable filename for processing to avoid odd characters/spaces.
        let inPath := Join [dir, "input.pdf".toList]
        match saveUploadedFile env tr header inPath with
        | (false, tr) => (errorJSON 500 "failed to save file".toList, tr)
        | (true, tr) =>
          let mode := r.FormValue "mode".toList
          let ranges := r.FormValue "ranges".toList
          let pagesDir := Join [dir, "pages".toList]
          if env.MkdirAll tr pagesDir = false then
            (errorJSON 500 "failed to create pages dir".toList,
              tr ++ [Event.mkdirAll pagesDir 0o755])
          else
            let tr := tr ++ [Event.mkdirAll pagesDir 0o755]
            let args : List GoString :=
              if mode = "ranges".toList ∧ ranges ≠ [] then
                ["extract".toList, "-mode".toList, "page".toList, "-pages".toList, ranges,
                  inPath, pagesDir]
              else ["extract".toList, "-mode".toList, "page".toList, inPath, pagesDir]
            match runCommand env tr dir "pdfcpu".toList args with
            | (false, tr) => (errorJSON 500 "failed to split PDF".toList, tr)
            | (true, tr) =>
              let zipName := origBase ++ "_split_pages.zip".toList
              let zipPath := Join [dir, zipName]
              if env.zipDir tr pagesDir zipPath = false then
                (errorJSON 500 "failed to zip pages".toList,
                  tr ++ [Event.zipDir pagesDir zipPath])
              else
                (⟨200, Body.downloadUrl (buildDownloadURL r jobID zipName)⟩,
                  tr ++ [Event.zipDir pagesDir zipPath])

/-- Function `handleRemovePages`. -/
def handleRemovePages (env : Env) (r : Request) : Response × List Event :=
  if r.Method ≠ "POST".toList then (errorJSON 405 "method not allowed".toList, [])
  else if r.multipartOk = false then (errorJSON 400 "invalid multipart form".toList, [])
  else
    match r.FormFile "file".toList with
    | none => (errorJSON 400 "file is required".toList, [])
    | some header =>
      match newJobDir env [] with
      | (none, tr) => (errorJSON 500 "failed to create job".toList, tr)
      | (some (jobID, dir), tr) =>
        let inPath := Join [dir, header.Filename]
        match saveUploadedFile env tr header inPath with
        | (false, tr) => (errorJSON 500 "failed to save file".toList, tr)
        | (true, tr) =>
          let pages := r.FormValue "pages".toList
          if pages = [] then (errorJSON 400 "pages is required".toList, tr)
          else
            let outName := defaultFilename
            let outPath := Join [dir, outName]
            let args := ["pages".toList, "remove".toList, "-pages".toList, pages, inPath, outPath]
            match runCommand env tr dir "pdfcpu".toList args with
            | (false, tr) => (errorJSON 500 "failed to remove pages".toList, tr)
            | (true, tr) => (⟨200, Body.downloadUrl (buildDownloadURL r jobID outName)⟩, tr)

/-- Function `handleWordToPDF`. -/
def handleWordToPDF (env : Env) (r : Request) : Response × List Event :=
  if r.Method ≠ "POST".toList then (errorJSON 405 "method not allowed".toList, [])
  else if r.multipartOk = false then (errorJSON 400 "invalid multipart form".toList, [])
  else
    match r.FormFile "file".toList with
    | none => (errorJSON 400 "file is required".toList, [])
    | some header =>
      match newJobDir env [] with
      | (none, tr) => (errorJSON 500 "failed to create job".toList, tr)
      | (some (jobID, dir), tr) =>
        let inPath := Join [dir, header.Filename]
        match saveUploadedFile env tr header inPath with
        | (false, tr) => (errorJSON 500 "failed to save file".toList, tr)
        | (true, tr) =>
          -- LibreOffice will write the PDF into the same directory.
          match runCommand env tr dir "libreoffice".toList
              ["--headless".toList, "--nologo".toList, "--convert-to".toList, "pdf".toList,
                inPath] with
          | (false, tr) => (errorJSON 500 "failed to convert document".toList, tr)
          | (true, tr) =>
            let outName := TrimSuffix header.Filename (Ext header.Filename) ++ ".pdf".toList
            let outPath := Join [dir, outName]
            match osStat env tr outPath with
            | (none, tr) => (errorJSON 500 "converted PDF not found".toList, tr)
            | (some _, tr) => (⟨200, Body.downloadUrl (buildDownloadURL r jobID outName)⟩, tr)

/-- Rounding of the fraction `num / den` to the nearest integer, ties to even. -/
def roundHalfEven (num den : Nat) : Nat :=
  let f := num / den
  let rem := num % den
  if 2 * rem < den then f
  else if den < 2 * rem then f + 1
  else if f % 2 = 0 then f else f + 1

/-- The verb `%.2f` of `fmt.Sprintf`: two decimals, correctly rounded. -/
def fmtF2 : F64 → GoString
  | F64.nan => "NaN".toList
  | F64.inf true => "-Inf".toList
  | F64.inf false => "+Inf".toList
  | F64.fin neg mant exp =>
    let n := roundHalfEven (mant * 100 * 2 ^ exp.toNat) (2 ^ (-exp).toNat)
    let frac := n % 100
    (if neg then ['-'] else []) ++ natItoa (n / 100) ++
      '.' :: (if frac < 10 then '0' :: natItoa frac else natItoa frac)

/-- The two clamping statements `if opacity < 0 { opacity = 0 }` and
`if opacity > 1 { opacity = 1 }` of `handleWatermark` and `handlePageNumbers`. -/
def clampOpacity (opacity : F64) : F64 :=
  let opacity := if F64.lt opacity F64.zero then F64.zero else opacity
  if F64.lt F64.one opacity then F64.one else opacity

/-- Function `handleWatermark`. -/
def handleWatermark (env : Env) (r : Request) : Response × List Event :=
  if r.Method ≠ "POST".toList then (errorJSON 405 "method not allowed".toList, [])
  else if r.multipartOk = false then (errorJSON 400 "invalid multipart form".toList, [])
  else
    match r.FormFile "file".toList with
    | none => (errorJSON 400 "file is required".toList, [])
    | some header =>
      let text := TrimSpace (r.FormValue "text".toList)
      if text = [] then (errorJSON 400 "text is required".toList, [])
      else
        let pos := TrimSpace (r.FormValue "position".toList)
        let pos := if pos = [] then "c".toList else pos
        let rot := parseIntDefault (r.FormValue "rotation".toList) 45
        let fontSize := parseIntDefault (r.FormValue "fontSize".toList) 48
        let fontSize := if fontSize < 8 then 8 else fontSize
        let fontSize := if 200 < fontSize then 200 else fontSize
        let opacity := clampOpacity
          (parseFloatDefault env.readFloat (r.FormValue "opacity".toList) F64.quarter)
        match newJobDir env [] with
        | (none, tr) => (errorJSON 500 "failed to create job".toList, tr)
        | (some (jobID, dir), tr) =>
          let inPath := Join [dir, "input.pdf".toList]
          match saveUploadedFile env tr header inPath with
          | (false, tr) => (errorJSON 500 "failed to save file".toList, tr)
          | (true, tr) =>
            let outName := defaultFilename
            let outPath := Join [dir, outName]
            -- Use stamp (foreground) for reliability on scanned PDFs.
            let desc := "pos:".toList ++ pos ++ ", rot:".toList ++ Itoa rot ++
              ", points:".toList ++ Itoa fontSize ++ ", op:".toList ++ fmtF2 opacity ++
              ", c:.9 .9 .9".toList
            match runCommand env tr dir "pdfcpu".toList
                ["stamp".toList, "add".toList, "-mode".toList, "text".toList, "--".toList,
                  text, desc, inPath, outPath] with
            | (false, tr) => (errorJSON 500 "failed to add watermark".toList, tr)
            | (true, tr) => (⟨200, Body.downloadUrl (buildDownloadURL r jobID outName)⟩, tr)

/-- Function `handleCrop`. -/
def handleCrop (env : Env) (r : Request) : Response × List Event :=
  if r.Method ≠ "POST".toList then (errorJSON 405 "method not allowed".toList, [])
  else if r.multipartOk = false then (errorJSON 400 "invalid multipart form".toList, [])
  else
    match r.FormFile "file".toList with
    | none => (errorJSON 400 "file is required".toList, [])
    | some header =>
      let desc := TrimSpace (r.FormValue "description".toList)
      if desc = [] then (errorJSON 400 "description is required".toList, [])
      else
        let unit := TrimSpace (r.FormValue "unit".toList)
        let unit := if unit = [] then "po".toList else unit
        match newJobDir env [] with
        | (none, tr) => (errorJSON 500 "failed to create job".toList, tr)
        | (some (jobID, dir), tr) =>
          let inPath := Join [dir, "input.pdf".toList]
          match saveUploadedFile env tr header inPath with
          | (false, tr) => (errorJSON 500 "failed to save file".toList, tr)
          | (true, tr) =>
            let outName := defaultFilename
            let outPath := Join [dir, outName]
            let args := ["crop".toList, "-u".toList, unit, "--".toList, desc, inPath, outPath]
            match runCommand env tr dir "pdfcpu".toList args with
            | (false, tr) => (errorJSON 500 "failed to crop PDF".toList, tr)
            | (true, tr) => (⟨200, Body.downloadUrl (buildDownloadURL r jobID outName)⟩, tr)

/-- Function `handleExtractPages`. -/
def handleExtractPages (env : Env) (r : Request) : Response × List Event :=
  if r.Method ≠ "POST".toList then (errorJSON 405 "method not allowed".toList, [])
  else if r.multipartOk = false then (errorJSON 400 "invalid multipart form".toList, [])
  else
    match r.FormFile "file".toList with
    | none => (errorJSON 400 "file is required".toList, [])
    | some header =>
      match newJobDir env [] with
      | (none, tr) => (errorJSON 500 "failed to create job".toList, tr)
      | (some (jobID, dir), tr) =>
        let inPath := Join [dir, header.Filename]
        match saveUploadedFile env tr header inPath with
        | (false, tr) => (errorJSON 500 "failed to save file".toList, tr)
        | (true, tr) =>
          let mode := r.FormValue "mode".toList
          let ranges := r.FormValue "ranges".toList
          if mode = "ranges".toList ∧ ranges ≠ [] then
            let outName := defaultFilename
            let outPath := Join [dir, outName]
            let args := ["collect".toList, "-pages".toList, ranges, inPath, outPath]
            match runCommand env tr dir "pdfcpu".toList args with
            | (false, tr) => (errorJSON 500 "failed to extract pages".toList, tr)
            | (true, tr) => (⟨200, Body.downloadUrl (buildDownloadURL r jobID outName)⟩, tr)
          else
            -- mode == all -> ZIP with each page
            let pagesDir := Join [dir, "pages".toList]
            match osMkdirAll env tr pagesDir with
            | (false, tr) => (errorJSON 500 "failed to create pages dir".toList, tr)
            | (true, tr) =>
              let args := ["extract".toList, "-mode".toList, "page".toList, inPath, pagesDir]
              match runCommand env tr dir "pdfcpu".toList args with
              | (false, tr) => (errorJSON 500 "failed to extract pages".toList, tr)
              | (true, tr) =>
                let zipPath := Join [dir, "extracted_pages.zip".toList]
                match zipDirectory env tr pagesDir zipPath with
                | (false, tr) => (errorJSON 500 "failed to zip pages".toList, tr)
                | (true, tr) =>
                  (⟨200, Body.downloadUrl
                    (buildDownloadURL r jobID "extracted_pages.zip".toList)⟩, tr)

/-- Function `handleScanToPDF`. -/
def handleScanToPDF (env : Env) (r : Request) : Response × List Event :=
  if r.Method ≠ "POST".toList then (errorJSON 405 "method not allowed".toList, [])
  else if r.multipartOk = false then (errorJSON 400 "invalid multipart form".toList, [])
  else
    let files := r.File "files".toList
    if files.length = 0 then (errorJSON 400 "no files provided".toList, [])
    else
      match newJobDir env [] with
      | (none, tr) => (errorJSON 500 "failed to create job".toList, tr)
      | (some (jobID, dir), tr) =>
        match saveInputs env dir
            (fun i fh => "scan_".toList ++ natItoa i ++ Ext fh.Filename) files 0 tr [] with
        | (none, tr) => (errorJSON 500 "failed to save image".toList, tr)
        | (some imagePaths, tr) =>
          -- First, convert images to a single PDF using ImageMagick.
          let rawPDF := Join [dir, "scans_raw.pdf".toList]
          let args := imagePaths ++ [rawPDF]
          match runCommand env tr dir "convert".toList args with
          | (false, tr) => (errorJSON 500 "failed to convert scans".toList, tr)
          | (true, tr) =>
            -- Then run OCR to produce a searchable PDF.
            let outName := defaultFilename
            let outPath := Join [dir, outName]
            match runCommand env tr dir "ocrmypdf".toList
                ["--skip-text".toList, rawPDF, outPath] with
            | (false, tr) => (errorJSON 500 "failed to OCR scans".toList, tr)
            | (true, tr) => (⟨200, Body.downloadUrl (buildDownloadURL r jobID outName)⟩, tr)

/-- Function `handleCompress`. -/
def handleCompress (env : Env) (r : Request) : Response × List Event :=
  if r.Method ≠ "POST".toList then (errorJSON 405 "method not allowed".toList, [])
  else if r.multipartOk = false then (errorJSON 400 "invalid multipart form".toList, [])
  else
    match r.FormFile "file".toList with
    | none => (errorJSON 400 "file is required".toList, [])
    | some header =>
      match newJobDir env [] with
      | (none, tr) => (errorJSON 500 "failed to create job".toList, tr)
      | (some (jobID, dir), tr) =>
        let inPath := Join [dir, header.Filename]
        match saveUploadedFile env tr header inPath with
        | (false, tr) => (errorJSON 500 "failed to save file".toList, tr)
        | (true, tr) =>
          let level := ToLower (r.FormValue "level".toList)
          let level := if level = [] then "medium".toList else level
          -- Map logical levels to Ghostscript PDFSETTINGS.
          let setting : GoString :=
            if level = "low".toList then "/screen".toList
            else if level = "medium".toList then "/ebook".toList
            else if level = "high".toList then "/printer".toList
            else "/screen".toList
          let outName := defaultFilename
          let outPath := Join [dir, outName]
          let args := ["-sDEVICE=pdfwrite".toList, "-dCompatibilityLevel=1.4".toList,
            "-dPDFSETTINGS=".toList ++ setting, "-dNOPAUSE".toList, "-dQUIET".toList,
            "-dBATCH".toList, "-sOutputFile=".toList ++ outPath, inPath]
          match runCommand env tr dir "gs".toList args with
          | (false, tr) => (errorJSON 500 "failed to compress PDF".toList, tr)
          | (true, tr) => (⟨200, Body.downloadUrl (buildDownloadURL r jobID outName)⟩, tr)

/-- Function `handleRepair`. -/
def handleRepair (env : Env) (r : Request) : Response × List Event :=
  if r.Method ≠ "POST".toList then (errorJSON 405 "method not allowed".toList, [])
  else if r.multipartOk = false then (errorJSON 400 "invalid multipart form".toList, [])
  else
    match r.FormFile "file".toList with
    | none => (errorJSON 400 "file is required".toList, [])
    | some header =>
      match newJobDir env [] with
      | (none, tr) => (errorJSON 500 "failed to create job".toList, tr)
      | (some (jobID, dir), tr) =>
        let inPath := Join [dir, header.Filename]
        match saveUploadedFile env tr header inPath with
        | (false, tr) => (errorJSON 500 "failed to save file".toList, tr)
        | (true, tr) =>
          let outName := defaultFilename
          let outPath := Join [dir, outName]
          -- pdfcpu optimize also repairs many structural issues.
          let args := ["optimize".toList, inPath, outPath]
          match runCommand env tr dir "pdfcpu".toList args with
          | (false, tr) => (errorJSON 500 "failed to repair PDF".toList, tr)
          | (true, tr) => (⟨200, Body.downloadUrl (buildDownloadURL r jobID outName)⟩, tr)

/-- Function `handleOCR`. -/
def handleOCR (env : Env) (r : Request) : Response × List Event :=
  if r.Method ≠ "POST".toList then (errorJSON 405 "method not allowed".toList, [])
  else if r.multipartOk = false then (errorJSON 400 "invalid multipart form".toList, [])
  else
    match r.FormFile "file".toList with
    | none => (errorJSON 400 "file is required".toList, [])
    | some header =>
      match newJobDir env [] with
      | (none, tr) => (errorJSON 500 "failed to create job".toList, tr)
      | (some (jobID, dir), tr) =>
        let inPath := Join [dir, header.Filename]
        match saveUploadedFile env tr header inPath with
        | (false, tr) => (errorJSON 500 "failed to save file".toList, tr)
        | (true, tr) =>
          let outName := defaultFilename
          let outPath := Join [dir, outName]
          let lang := r.FormValue "lang".toList
          let args : List GoString := ["--skip-text".toList]
          let args := if lang ≠ [] then args ++ ["-l".toList, lang] else args
          let args := args ++ [inPath, outPath]
          match runCommand env tr dir "ocrmypdf".toList args with
          | (false, tr) => (errorJSON 500 "failed to OCR PDF".toList, tr)
          | (true, tr) => (⟨200, Body.downloadUrl (buildDownloadURL r jobID outName)⟩, tr)

/-- Addition of the 64-bit `int`: the sum modulo `2 ^ 64`, in the range from
`-2 ^ 63` to `2 ^ 63 - 1`. -/
def wrapInt (n : Int) : Int := (n + 2 ^ 63) % 2 ^ 64 - 2 ^ 63

/-- The verb `%04d` of `fmt.Sprintf`: at least four characters, padded with
zeros after the sign. -/
def fmt04d (n : Int) : GoString :=
  let digits := natItoa n.natAbs
  if n < 0 then '-' :: (List.replicate (3 - digits.length) '0' ++ digits)
  else List.replicate (4 - digits.length) '0' ++ digits

/-- The constant `0.95`, the `float64` nearest to it. -/
def F64.c095 : F64 := F64.fin false 8556839292003942 (-53)

/-- The constant `maxAlloc` of the Go runtime on 64-bit Linux, where the heap
addresses have 48 bits: the largest size of one allocation, in bytes. -/
def maxAlloc : Int := 2 ^ 48

/-- The check of the runtime function `makeslice` for `make([]T, 0, n)` with
elements of `size` bytes: the expression panics when the capacity `n` is
negative or `size * n` bytes are more than `maxAlloc`. An allocation that
passes the check is taken to be granted. -/
def makeslicePanics (size n : Int) : Bool :=
  decide (n < 0) || decide (maxAlloc < size * n)

/-- The choice of the page file in the loop of `handlePageNumbers`:
`page_<i>.pdf`, or `page-<i>.pdf` when the first cannot be stat'ed and the
second can. -/
def choosePagePath (env : Env) (tr : List Event) (pagesDir : GoString) (i : Int) :
    GoString × List Event :=
  let pagePath := Join [pagesDir, "page_".toList ++ Itoa i ++ ".pdf".toList]
  match osStat env tr pagePath with
  | (some _, tr) => (pagePath, tr)
  | (none, tr) =>
    -- Fallback for different naming conventions.
    let alt := Join [pagesDir, "page-".toList ++ Itoa i ++ ".pdf".toList]
    match osStat env tr alt with
    | (some _, tr) => (alt, tr)
    | (none, tr) => (pagePath, tr)

/-- The loop `for i := 1; i <= total; i++` of `handlePageNumbers`, with `k`
iterations left and the counter at `i`: the stamped files in order, or `none`
when a stamp failed. The loop is reached with `total` at most
`maxAlloc / 16`, so the counter stays far below the largest `int`. -/
def stampPages (env : Env) (dir pagesDir desc : GoString) (startAt : Int) :
    Nat → Int → List Event → List GoString → Option (List GoString) × List Event
  | 0, _, tr, stamped => (some stamped, tr)
  | k + 1, i, tr, stamped =>
    match choosePagePath env tr pagesDir i with
    | (pagePath, tr) =>
      let label := Itoa (wrapInt (startAt + (i - 1)))
      let outPage := Join [dir, "stamped-".toList ++ fmt04d i ++ ".pdf".toList]
      match runCommand env tr dir "pdfcpu".toList
          ["stamp".toList, "add".toList, "-mode".toList, "text".toList, "--".toList,
            label, desc, pagePath, outPage] with
      | (false, tr) => (none, tr)
      | (true, tr) => stampPages env dir pagesDir desc startAt k (i + 1) tr (stamped ++ [outPage])

/-- Function `handlePageNumbers`. -/
def handlePageNumbers (env : Env) (r : Request) : Response × List Event :=
  if r.Method ≠ "POST".toList then (errorJSON 405 "method not allowed".toList, [])
  else if r.multipartOk = false then (errorJSON 400 "invalid multipart form".toList, [])
  else
    match r.FormFile "file".toList with
    | none => (errorJSON 400 "file is required".toList, [])
    | some header =>
      let pos := TrimSpace (r.FormValue "position".toList)
      let pos := if pos = [] then "bc".toList else pos
      let fontSize := parseIntDefault (r.FormValue "fontSize".toList) 10
      let fontSize := if fontSize < 6 then 6 else fontSize
      let fontSize := if 72 < fontSize then 72 else fontSize
      let opacity := clampOpacity
        (parseFloatDefault env.readFloat (r.FormValue "opacity".toList) F64.c095)
      let startAt := parseIntDefault (r.FormValue "startAt".toList) 1
      let startAt := if startAt < 1 then 1 else startAt
      match newJobDir env [] with
      | (none, tr) => (errorJSON 500 "failed to create job".toList, tr)
      | (some (jobID, dir), tr) =>
        let inPath := Join [dir, "input.pdf".toList]
        match saveUploadedFile env tr header inPath with
        | (false, tr) => (errorJSON 500 "failed to save file".toList, tr)
        | (true, tr) =>
          match pageCountPDF env tr dir inPath with
          | (PageCount.toolFailed, tr) =>
            (errorJSON 500 "failed to read page count".toList, tr)
          | (PageCount.couldNotParse, tr) =>
            (errorJSON 500 "failed to read page count".toList, tr)
          | (PageCount.ok total, tr) =>
            let pagesDir := Join [dir, "pages".toList]
            match osMkdirAll env tr pagesDir with
            | (false, tr) => (errorJSON 500 "failed to create pages dir".toList, tr)
            | (true, tr) =>
              match runCommand env tr dir "pdfcpu".toList
                  ["extract".toList, "-mode".toList, "page".toList, inPath, pagesDir] with
              | (false, tr) => (errorJSON 500 "failed to prepare pages".toList, tr)
              | (true, tr) =>
                -- Make stamping deterministic (no default relative scale / diagonal).
                let desc := "pos:".toList ++ pos ++ ", points:".toList ++ Itoa fontSize ++
                  ", scale:1 abs, rot:0, op:".toList ++ fmtF2 opacity ++
                  ", fillc:.2 .2 .2".toList
                -- `make([]string, 0, total)`: a string header has 16 bytes
                if makeslicePanics 16 total then (⟨0, Body.noResponse⟩, tr)
                else
                  match stampPages env dir pagesDir desc startAt total.toNat 1 tr [] with
                  | (none, tr) => (errorJSON 500 "failed to add page numbers".toList, tr)
                  | (some stamped, tr) =>
                    let outName := defaultFilename
                    let outPath := Join [dir, outName]
                    let args := ["merge".toList, outPath] ++ stamped
                    match runCommand env tr dir "pdfcpu".toList args with
                    | (false, tr) => (errorJSON 500 "failed to write output".toList, tr)
                    | (true, tr) =>
                      (⟨200, Body.downloadUrl (buildDownloadURL r jobID outName)⟩, tr)

/-- The three lists `buckets[90]`, `buckets[180]`, `buckets[270]` of
`handleOrganize`. -/
structure Buckets where
  b90 : List Int
  b180 : List Int
  b270 : List Int
  deriving DecidableEq

/-- The list of the bucket `buckets[deg]`. -/
def Buckets.get (b : Buckets) (deg : Int) : List Int :=
  if deg = 90 then b.b90 else if deg = 180 then b.b180 else if deg = 270 then b.b270 else []

/-- The expression `((rot.Degrees % 360) + 360) % 360`; the operator `%` of
Go truncates towards zero. -/
def normDeg (d : Int) : Int := Int.tmod (Int.tmod d 360 + 360) 360

/-- The body of the loop of `handleOrganize` that groups pages by degrees. -/
def addRotation (b : Buckets) (rot : OrganizeRotation) : Buckets :=
  let deg := normDeg rot.Degrees
  if deg = 0 then b
  else if deg ≠ 90 ∧ deg ≠ 180 ∧ deg ≠ 270 then b
  else if rot.PageNumber ≤ 0 then b
  else if deg = 90 then { b with b90 := b.b90 ++ [rot.PageNumber] }
  else if deg = 180 then { b with b180 := b.b180 ++ [rot.PageNumber] }
  else { b with b270 := b.b270 ++ [rot.PageNumber] }

/-- The loop of `handleOrganize` that groups pages by degrees. -/
def groupRotations (rotations : List OrganizeRotation) : Buckets :=
  rotations.foldl addRotation ⟨[], [], []⟩

/-- Library `sort.Ints`: the list in ascending order. -/
def sortInts (l : List Int) : List Int := l.insertionSort (fun a b => a ≤ b)

/-- The argument list of the bulk rotation of `handleOrganize` for one bucket. -/
def rotateArgs (workPath : GoString) (pages : List Int) (deg : Int) : List GoString :=
  ["rotate".toList, "-pages".toList, ",".toList.intercalate ((sortInts pages).map Itoa),
    workPath, '-' :: Itoa deg]

/-- The loop `for _, deg := range []int{90, 180, 270}` of `handleOrganize`:
whether every rotation succeeded. -/
def rotateBuckets (env : Env) (dir workPath : GoString) (b : Buckets) :
    List Int → List Event → Bool × List Event
  | [], tr => (true, tr)
  | deg :: rest, tr =>
    if (b.get deg).length = 0 then rotateBuckets env dir workPath b rest tr
    else
      -- pdfcpu rotate rotates in-place.
      match runCommand env tr dir "pdfcpu".toList (rotateArgs workPath (b.get deg) deg) with
      | (false, tr) => (false, tr)
      | (true, tr) => rotateBuckets env dir workPath b rest tr

/-- The final step of `handleOrganize`: reorder and delete by collecting pages
in the specified order. -/
def organizeCollect (env : Env) (r : Request) (jobID dir workPath order : GoString)
    (tr : List Event) : Response × List Event :=
  let outName := defaultFilename
  let outPath := Join [dir, outName]
  match runCommand env tr dir "pdfcpu".toList
      ["collect".toList, "-pages".toList, order, workPath, outPath] with
  | (false, tr) => (errorJSON 500 "failed to organize PDF".toList, tr)
  | (true, tr) => (⟨200, Body.downloadUrl (buildDownloadURL r jobID outName)⟩, tr)

/-- Function `handleOrganize`. -/
def handleOrganize (env : Env) (r : Request) : Response × List Event :=
  if r.Method ≠ "POST".toList then (errorJSON 405 "method not allowed".toList, [])
  else if r.multipartOk = false then (errorJSON 400 "invalid multipart form".toList, [])
  else
    match r.FormFile "file".toList with
    | none => (errorJSON 400 "file is required".toList, [])
    | some header =>
      let order := TrimSpace (r.FormValue "order".toList)
      if order = [] then (errorJSON 400 "order is required".toList, [])
      else
        match newJobDir env [] with
        | (none, tr) => (errorJSON 500 "failed to create job".toList, tr)
        | (some (jobID, dir), tr) =>
          let inPath := Join [dir, "input.pdf".toList]
          match saveUploadedFile env tr header inPath with
          | (false, tr) => (errorJSON 500 "failed to save file".toList, tr)
          | (true, tr) =>
            let workPath := Join [dir, "work.pdf".toList]
            match osReadFile env tr inPath with
            | (none, tr) => (errorJSON 500 "failed to prepare work file".toList, tr)
            | (some b, tr) =>
              let tr := (osWriteFile env tr workPath b 0o644).2
              -- Optional per-page rotations.
              let rotationsRaw := TrimSpace (r.FormValue "rotations".toList)
              if rotationsRaw ≠ [] then
                match env.unmarshalRotations rotationsRaw with
                | none => (errorJSON 400 "invalid rotations".toList, tr)
                | some rotations =>
                  match rotateBuckets env dir workPath (groupRotations rotations)
                      [90, 180, 270] tr with
                  | (false, tr) => (errorJSON 500 "failed to rotate pages".toList, tr)
                  | (true, tr) => organizeCollect env r jobID dir workPath order tr
              else organizeCollect env r jobID dir workPath order tr

/-- The loop of `handlePreview` that builds the page references for the pages
`i`, `i + 1`, ... (`k` of them). -/
def previewPages (r : Request) (jobID : GoString) : Nat → Int → List (Int × GoString)
  | 0, _ => []
  | k + 1, i =>
    (i, buildPreviewURL r jobID
      (Join ["previews".toList, "page-".toList ++ Itoa i ++ ".png".toList])) ::
      previewPages r jobID k (i + 1)

/-- The end of `handlePreview`, once the page count is known: the page
references, the detached rendering of all pages, and the answer. The
expression `make([]previewPage, 0, total)` panics when `makeslice` refuses the
capacity; a `previewPage` is an `int` and a string header, 24 bytes. -/
def previewAnswer (r : Request) (jobID dir inPath : GoString) (total : Int)
    (tr : List Event) : Response × List Event :=
  if makeslicePanics 24 total then (⟨0, Body.noResponse⟩, tr)
  else
    let pages := previewPages r jobID total.toNat 1
    -- Kick off background rendering for ALL pages (non-blocking).
    let previewsDir := Join [dir, "previews".toList]
    let pfx := Join [previewsDir, "page".toList]
    (⟨200, Body.pages pages⟩,
      tr ++ [Event.goMkdirAll previewsDir 0o755,
        Event.goRun dir "pdftoppm".toList
          ["-png".toList, "-r".toList, "110".toList, inPath, pfx]])

/-- Function `handlePreview`. -/
def handlePreview (env : Env) (r : Request) : Response × List Event :=
  if r.Method ≠ "POST".toList then (errorJSON 405 "method not allowed".toList, [])
  else if r.multipartOk = false then (errorJSON 400 "invalid multipart form".toList, [])
  else
    match r.FormFile "file".toList with
    | none => (errorJSON 400 "file is required".toList, [])
    | some header =>
      match newJobDir env [] with
      | (none, tr) => (errorJSON 500 "failed to create job".toList, tr)
      | (some (jobID, dir), tr) =>
        -- Use a stable filename so the previews handler can locate the source PDF.
        let inPath := Join [dir, "input.pdf".toList]
        match saveUploadedFile env tr header inPath with
        | (false, tr) => (errorJSON 500 "failed to save file".toList, tr)
        | (true, tr) =>
          let previewsDir := Join [dir, "previews".toList]
          match osMkdirAll env tr previewsDir with
          | (false, tr) => (errorJSON 500 "failed to create previews dir".toList, tr)
          | (true, tr) =>
            -- Count pages using poppler; fall back to pdfcpu info if pdfinfo fails.
            match pageCountPoppler env tr dir inPath with
            | (PageCount.ok total, tr) => previewAnswer r jobID dir inPath total tr
            | (_, tr) =>
              match pageCountPDF env tr dir inPath with
              | (PageCount.ok total, tr) => previewAnswer r jobID dir inPath total tr
              | (_, tr) => (errorJSON 500 "failed to read page count".toList, tr)

/-! ### Security tools -/

/-- Function `handleProtectPDF`. -/
def handleProtectPDF (env : Env) (r : Request) : Response × List Event :=
  if r.Method ≠ "POST".toList then (errorJSON 405 "POST required".toList, [])
  else if r.multipartOk = false then (errorJSON 400 "parse form failed".toList, [])
  else
    let password := TrimSpace (r.FormValue "password".toList)
    if password = [] then (errorJSON 400 "password is required".toList, [])
    else
      match r.FormFile "file".toList with
      | none => (errorJSON 400 "file required".toList, [])
      | some hdr =>
        match newJobDir env [] with
        | (none, tr) => (errorJSON 500 "failed to create job".toList, tr)
        | (some (jobID, dir), tr) =>
          let inputPath := Join [dir, "input.pdf".toList]
          match saveUploadedFile env tr hdr inputPath with
          | (false, tr) => (errorJSON 500 "save failed".toList, tr)
          | (true, tr) =>
            let baseName := baseNameWithoutExt hdr.Filename
            let outputName := baseName ++ "_protected.pdf".toList
            let outputPath := Join [dir, outputName]
            -- qpdf --encrypt <user-pw> <owner-pw> 256 -- input.pdf output.pdf
            match runCommand env tr dir "qpdf".toList
                ["--warning-exit-0".toList, "--encrypt".toList, password, password,
                  "256".toList, "--".toList, inputPath, outputPath] with
            | (false, tr) => (errorJSON 500 "qpdf encrypt failed: ".toList, tr)
            | (true, tr) =>
              (⟨200, Body.downloadUrl (buildDownloadURL r jobID outputName)⟩, tr)

/-- Function `handleUnlockPDF`. -/
def handleUnlockPDF (env : Env) (r : Request) : Response × List Event :=
  if r.Method ≠ "POST".toList then (errorJSON 405 "POST required".toList, [])
  else if r.multipartOk = false then (errorJSON 400 "parse form failed".toList, [])
  else
    let password := TrimSpace (r.FormValue "password".toList)
    match r.FormFile "file".toList with
    | none => (errorJSON 400 "file required".toList, [])
    | some hdr =>
      match newJobDir env [] with
      | (none, tr) => (errorJSON 500 "failed to create job".toList, tr)
      | (some (jobID, dir), tr) =>
        let inputPath := Join [dir, "input.pdf".toList]
        match saveUploadedFile env tr hdr inputPath with
        | (false, tr) => (errorJSON 500 "save failed".toList, tr)
        | (true, tr) =>
          let baseName := baseNameWithoutExt hdr.Filename
          let outputName := baseName ++ "_unlocked.pdf".toList
          let outputPath := Join [dir, outputName]
          -- qpdf --password=<pw> --decrypt input.pdf output.pdf
          let args : List GoString :=
            if password ≠ [] then
              ["--warning-exit-0".toList, "--password=".toList ++ password,
                "--decrypt".toList, inputPath, outputPath]
            else ["--warning-exit-0".toList, "--decrypt".toList, inputPath, outputPath]
          match runCommand env tr dir "qpdf".toList args with
          | (false, tr) => (errorJSON 500 "qpdf decrypt failed: ".toList, tr)
          | (true, tr) =>
            (⟨200, Body.downloadUrl (buildDownloadURL r jobID outputName)⟩, tr)

/-- The order of Go strings: byte-wise, which on UTF-8 text is the order of
the code points. -/
def strLe : GoString → GoString → Bool
  | [], _ => true
  | _ :: _, [] => false
  | a :: s, b :: t =>
    if a.toNat < b.toNat then true
    else if b.toNat < a.toNat then false
    else strLe s t

/-- Library `sort.Strings`. -/
def sortStrings (l : List GoString) : List GoString :=
  l.insertionSort (fun a b => strLe a b = true)

/-- The search of `handleRedactPDF` for the image of page `pageNum`: the first
file whose base name scans as `page-<pageNum>.png`. -/
def findPagePNG (env : Env) (pngFiles : List GoString) (pageNum : Int) : Option GoString :=
  pngFiles.find? (fun p => env.scanPage (Base p) == some pageNum)

/-- The draw command of one redaction area on an image of the given size. -/
def drawCommand (env : Env) (imgWidth imgHeight : Int) (area : RedactionArea) : GoString :=
  -- Convert percentage coordinates to pixel coordinates
  let x1 := env.pixel area.X imgWidth
  let y1 := env.pixel area.Y imgHeight
  let x2 := env.pixel (env.fadd area.X area.Width) imgWidth
  let y2 := env.pixel (env.fadd area.Y area.Height) imgHeight
  "rectangle ".toList ++ Itoa x1 ++ ",".toList ++ Itoa y1 ++ " ".toList ++ Itoa x2 ++
    ",".toList ++ Itoa y2

/-- The loop `for pageNum, areas := range pageRedactions` of
`handleRedactPDF` over the pages still to visit: `none` when every page was
handled or skipped, otherwise the error answered. -/
def redactPages (env : Env) (dir : GoString) (redactions : List RedactionArea)
    (pngFiles : List GoString) : List Int → List Event → Option Response × List Event
  | [], tr => (none, tr)
  | pageNum :: rest, tr =>
    let areas := redactions.filter (fun rd => rd.Page = pageNum)
    match findPagePNG env pngFiles pageNum with
    | none =>
      -- page not found, skipping
      redactPages env dir redactions pngFiles rest tr
    | some pngPath =>
      -- Get image dimensions using ImageMagick identify
      match runCommandOutput env tr dir "identify".toList
          ["-format".toList, "%w %h".toList, pngPath] with
      | (none, tr) => (some (errorJSON 500 "identify failed: ".toList), tr)
      | (some dimOutput, tr) =>
        match env.scanDims (TrimSpace dimOutput) with
        | none => (some (errorJSON 500 "parse dimensions failed".toList), tr)
        | some (imgWidth, imgHeight) =>
          -- Build draw commands for all redaction areas on this page
          let drawCmds := areas.map (drawCommand env imgWidth imgHeight)
          -- Draw black rectangles using ImageMagick convert
          let tempPath := pngPath ++ ".tmp.png".toList
          let convertArgs := [pngPath, "-fill".toList, "black".toList] ++
            drawCmds.flatMap (fun cmd => ["-draw".toList, cmd]) ++ [tempPath]
          match runCommand env tr dir "convert".toList convertArgs with
          | (false, tr) => (some (errorJSON 500 "convert failed: ".toList), tr)
          | (true, tr) =>
            -- Atomically replace original with redacted version
            match osRename env tr tempPath pngPath with
            | (false, tr) => (some (errorJSON 500 "rename failed: ".toList), tr)
            | (true, tr) => redactPages env dir redactions pngFiles rest tr

/-- Function `handleRedactPDF`. The keys of the map `pageRedactions` are the
page numbers of the areas; `env.mapOrder` gives the order in which the loop
visits them, a permutation of the keys. -/
def handleRedactPDF (env : Env) (r : Request) : Response × List Event :=
  if r.Method ≠ "POST".toList then (errorJSON 405 "POST required".toList, [])
  else if r.multipartOk = false then (errorJSON 400 "parse form failed".toList, [])
  else
    -- Parse redactions JSON
    let redactionsJSON := TrimSpace (r.FormValue "redactions".toList)
    if redactionsJSON = [] then (errorJSON 400 "redactions JSON required".toList, [])
    else
      match env.unmarshalRedactions redactionsJSON with
      | none => (errorJSON 400 "invalid redactions JSON: ".toList, [])
      | some redactions =>
        if redactions.length = 0 then
          (errorJSON 400 "at least one redaction area required".toList, [])
        else
          match r.FormFile "file".toList with
          | none => (errorJSON 400 "file required".toList, [])
          | some hdr =>
            match newJobDir env [] with
            | (none, tr) => (errorJSON 500 "failed to create job".toList, tr)
            | (some (jobID, dir), tr) =>
              let inputPath := Join [dir, "input.pdf".toList]
              match saveUploadedFile env tr hdr inputPath with
              | (false, tr) => (errorJSON 500 "save failed".toList, tr)
              | (true, tr) =>
                -- Step 1: Render all pages to PNG at 300 DPI using pdftoppm
                let pngPrefix := Join [dir, "page".toList]
                match runCommand env tr dir "pdftoppm".toList
                    ["-png".toList, "-r".toList, "300".toList, inputPath, pngPrefix] with
                | (false, tr) => (errorJSON 500 "pdftoppm failed: ".toList, tr)
                | (true, tr) =>
                  -- Find all generated PNG files
                  match filepathGlob env tr (Join [dir, "page-*.png".toList]) with
                  | (none, tr) => (errorJSON 500 "no pages generated".toList, tr)
                  | (some found, tr) =>
                    if found.length = 0 then (errorJSON 500 "no pages generated".toList, tr)
                    else
                      let pngFiles := sortStrings found
                      -- Step 2: For each page with redactions, draw black rectangles
                      let keys := (redactions.map (fun rd => rd.Page)).eraseDups
                      match redactPages env dir redactions pngFiles
                          (env.mapOrder tr keys) tr with
                      | (some resp, tr) => (resp, tr)
                      | (none, tr) =>
                        -- Step 3: Rebuild PDF from images
                        let tempPdfPath := Join [dir, "temp_redacted.pdf".toList]
                        match runCommand env tr dir "convert".toList
                            (pngFiles ++ [tempPdfPath]) with
                        | (false, tr) =>
                          (errorJSON 500 "convert to pdf failed: ".toList, tr)
                        | (true, tr) =>
                          -- Step 4: Strip metadata and optimize with qpdf
                          let baseName := baseNameWithoutExt hdr.Filename
                          let outputName := baseName ++ "_redacted.pdf".toList
                          let outputPath := Join [dir, outputName]
                          match runCommand env tr dir "qpdf".toList
                              ["--warning-exit-0".toList, "--linearize".toList,
                                "--compress-streams=y".toList,
                                "--object-streams=disable".toList, tempPdfPath,
                                outputPath] with
                          | (false, tr) =>
                            (errorJSON 500 "qpdf optimize failed: ".toList, tr)
                          | (true, tr) =>
                            -- Clean up temporary files
                            (⟨200, Body.downloadUrl
                              (buildDownloadURL r jobID outputName)⟩,
                              tr ++ Event.remove tempPdfPath ::
                                pngFiles.map Event.remove)

/-- Function `handleFlattenPDF`. -/
def handleFlattenPDF (env : Env) (r : Request) : Response × List Event :=
  if r.Method ≠ "POST".toList then (errorJSON 405 "POST required".toList, [])
  else if r.multipartOk = false then (errorJSON 400 "parse form failed".toList, [])
  else
    match r.FormFile "file".toList with
    | none => (errorJSON 400 "file required".toList, [])
    | some hdr =>
      match newJobDir env [] with
      | (none, tr) => (errorJSON 500 "failed to create job".toList, tr)
      | (some (jobID, dir), tr) =>
        let inputPath := Join [dir, "input.pdf".toList]
        match saveUploadedFile env tr hdr inputPath with
        | (false, tr) => (errorJSON 500 "save failed".toList, tr)
        | (true, tr) =>
          let baseName := baseNameWithoutExt hdr.Filename
          let outputName := baseName ++ "_flattened.pdf".toList
          let outputPath := Join [dir, outputName]
          match runCommand env tr dir "qpdf".toList
              ["--warning-exit-0".toList, "--flatten-annotations=all".toList,
                "--flatten-rotation".toList, inputPath, outputPath] with
          | (false, tr) => (errorJSON 500 "qpdf flatten failed: ".toList, tr)
          | (true, tr) =>
            (⟨200, Body.downloadUrl (buildDownloadURL r jobID outputName)⟩, tr)

/-! ### Conversion tools -/

/-- The Python script that `handlePDFToWord` writes to `convert.py`. -/
def pdf2docxScript : GoString :=
  ("#!/usr/bin/env python3\n" ++
    "import sys\n" ++
    "from pdf2docx import Converter\n" ++
    "\n" ++
    "pdf_file = sys.argv[1]\n" ++
    "docx_file = sys.argv[2]\n" ++
    "\n" ++
    "try:\n" ++
    "    cv = Converter(pdf_file)\n" ++
    "    cv.convert(docx_file, start=0, end=None)\n" ++
    "    cv.close()\n" ++
    "    print(\x22Conversion successful\x22)\n" ++
    "except Exception as e:\n" ++
    "    print(f\x22Error: \x7be\x7d\x22, file=sys.stderr)\n" ++
    "    sys.exit(1)\n").toList

/-- The Python script that `handlePDFToExcel` writes to `convert_excel.py`. -/
def tabulaScript : GoString :=
  ("#!/usr/bin/env python3\n" ++
    "import sys\n" ++
    "import tabula\n" ++
    "import pandas as pd\n" ++
    "\n" ++
    "pdf_file = sys.argv[1]\n" ++
    "excel_file = sys.argv[2]\n" ++
    "\n" ++
    "try:\n" ++
    "    tables = tabula.read_pdf(pdf_file, pages=\x27all\x27, multiple_tables=True)\n" ++
    "    if not tables:\n" ++
    "        # No tables found, create empty Excel file\n" ++
    "        pd.DataFrame().to_excel(excel_file, index=False)\n" ++
    "    else:\n" ++
    "        with pd.ExcelWriter(excel_file, engine=\x27openpyxl\x27) as writer:\n" ++
    "            for i, table in enumerate(tables):\n" ++
    "                table.to_excel(writer, sheet_name=f\x27Sheet\x7bi+1\x7d\x27, index=False)\n" ++
    "    print(\x22Conversion successful\x22)\n" ++
    "except Exception as e:\n" ++
    "    print(f\x22Error: \x7be\x7d\x22, file=sys.stderr)\n" ++
    "    sys.exit(1)\n").toList

/-- The Python script that `handlePDFToPowerPoint` writes to `convert_pptx.py`. -/
def pptxScript : GoString :=
  ("#!/usr/bin/env python3\n" ++
    "import sys\n" ++
    "import os\n" ++
    "from pdf2image import convert_from_path\n" ++
    "from pptx import Presentation\n" ++
    "from pptx.util import Inches\n" ++
    "\n" ++
    "pdf_file = sys.argv[1]\n" ++
    "pptx_file = sys.argv[2]\n" ++
    "work_dir = os.path.dirname(pdf_file)\n" ++
    "\n" ++
    "try:\n" ++
    "    images = convert_from_path(pdf_file, dpi=150)\n" ++
    "    prs = Presentation()\n" ++
    "    prs.slide_width = Inches(10)\n" ++
    "    prs.slide_height = Inches(7.5)\n" ++
    "    \n" ++
    "    for i, img in enumerate(images):\n" ++
    "        slide = prs.slides.add_slide(prs.slide_layouts[6])  # Blank layout\n" ++
    "        img_path = os.path.join(work_dir, f\x22slide_\x7bi+1\x7d.png\x22)\n" ++
    "        img.save(img_path, \x27PNG\x27)\n" ++
    "        slide.shapes.add_picture(img_path, Inches(0), Inches(0), width=prs.slide_width, height=prs.slide_height)\n" ++
    "    \n" ++
    "    prs.save(pptx_file)\n" ++
    "    print(\x22Conversion successful\x22)\n" ++
    "except Exception as e:\n" ++
    "    print(f\x22Error: \x7be\x7d\x22, file=sys.stderr)\n" ++
    "    sys.exit(1)\n").toList

/-- Function `handlePDFToWord`. -/
def handlePDFToWord (env : Env) (r : Request) : Response × List Event :=
  if r.Method ≠ "POST".toList then (errorJSON 405 "POST required".toList, [])
  else if r.multipartOk = false then (errorJSON 400 "parse form failed".toList, [])
  else
    match r.FormFile "file".toList with
    | none => (errorJSON 400 "file required".toList, [])
    | some hdr =>
      match newJobDir env [] with
      | (none, tr) => (errorJSON 500 "failed to create job".toList, tr)
      | (some (jobID, dir), tr) =>
        let inputPath := Join [dir, "input.pdf".toList]
        match saveUploadedFile env tr hdr inputPath with
        | (false, tr) => (errorJSON 500 "save failed".toList, tr)
        | (true, tr) =>
          let baseName := baseNameWithoutExt hdr.Filename
          let outputName := baseName ++ ".docx".toList
          let outputPath := Join [dir, outputName]
          let scriptPath := Join [dir, "convert.py".toList]
          match osWriteFile env tr scriptPath pdf2docxScript 0o755 with
          | (false, tr) =>
            (errorJSON 500 "failed to create conversion script".toList, tr)
          | (true, tr) =>
            -- Execute the Python script
            match runCommand env tr dir "python3".toList
                [scriptPath, inputPath, outputPath] with
            | (false, tr) => (errorJSON 500 "pdf2docx convert failed: ".toList, tr)
            | (true, tr) =>
              -- Verify output file was created
              match osStat env tr outputPath with
              | (none, tr) => (errorJSON 500 "converted file not found".toList, tr)
              | (some _, tr) =>
                (⟨200, Body.downloadUrl (buildDownloadURL r jobID outputName)⟩, tr)

/-- Function `handlePDFToExcel`. -/
def handlePDFToExcel (env : Env) (r : Request) : Response × List Event :=
  if r.Method ≠ "POST".toList then (errorJSON 405 "POST required".toList, [])
  else if r.multipartOk = false then (errorJSON 400 "parse form failed".toList, [])
  else
    match r.FormFile "file".toList with
    | none => (errorJSON 400 "file required".toList, [])
    | some hdr =>
      match newJobDir env [] with
      | (none, tr) => (errorJSON 500 "failed to create job".toList, tr)
      | (some (jobID, dir), tr) =>
        let inputPath := Join [dir, "input.pdf".toList]
        match saveUploadedFile env tr hdr inputPath with
        | (false, tr) => (errorJSON 500 "save failed".toList, tr)
        | (true, tr) =>
          let baseName := baseNameWithoutExt hdr.Filename
          let outputName := baseName ++ ".xlsx".toList
          let outputPath := Join [dir, outputName]
          let scriptPath := Join [dir, "convert_excel.py".toList]
          match osWriteFile env tr scriptPath tabulaScript 0o755 with
          | (false, tr) =>
            (errorJSON 500 "failed to create conversion script".toList, tr)
          | (true, tr) =>
            -- Execute the Python script
            match runCommand env tr dir "python3".toList
                [scriptPath, inputPath, outputPath] with
            | (false, tr) => (errorJSON 500 "tabula convert failed: ".toList, tr)
            | (true, tr) =>
              -- Verify output file was created
              match osStat env tr outputPath with
              | (none, tr) => (errorJSON 500 "converted file not found".toList, tr)
              | (some _, tr) =>
                (⟨200, Body.downloadUrl (buildDownloadURL r jobID outputName)⟩, tr)

/-- Function `handlePDFToPowerPoint`. -/
def handlePDFToPowerPoint (env : Env) (r : Request) : Response × List Event :=
  if r.Method ≠ "POST".toList then (errorJSON 405 "POST required".toList, [])
  else if r.multipartOk = false then (errorJSON 400 "parse form failed".toList, [])
  else
    match r.FormFile "file".toList with
    | none => (errorJSON 400 "file required".toList, [])
    | some hdr =>
      match newJobDir env [] with
      | (none, tr) => (errorJSON 500 "failed to create job".toList, tr)
      | (some (jobID, dir), tr) =>
        let inputPath := Join [dir, "input.pdf".toList]
        match saveUploadedFile env tr hdr inputPath with
        | (false, tr) => (errorJSON 500 "save failed".toList, tr)
        | (true, tr) =>
          let baseName := baseNameWithoutExt hdr.Filename
          let outputName := baseName ++ ".pptx".toList
          let outputPath := Join [dir, outputName]
          let scriptPath := Join [dir, "convert_pptx.py".toList]
          match osWriteFile env tr scriptPath pptxScript 0o755 with
          | (false, tr) =>
            (errorJSON 500 "failed to create conversion script".toList, tr)
          | (true, tr) =>
            -- Execute the Python script
            match runCommand env tr dir "python3".toList
                [scriptPath, inputPath, outputPath] with
            | (false, tr) => (errorJSON 500 "pptx convert failed: ".toList, tr)
            | (true, tr) =>
              -- Verify output file was created
              match osStat env tr outputPath with
              | (none, tr) => (errorJSON 500 "converted file not found".toList, tr)
              | (some _, tr) =>
                (⟨200, Body.downloadUrl (buildDownloadURL r jobID outputName)⟩, tr)

/-- Function `handleExcelToPDF`. -/
def handleExcelToPDF (env : Env) (r : Request) : Response × List Event :=
  if r.Method ≠ "POST".toList then (errorJSON 405 "POST required".toList, [])
  else if r.multipartOk = false then (errorJSON 400 "parse form failed".toList, [])
  else
    match r.FormFile "file".toList with
    | none => (errorJSON 400 "file required".toList, [])
    | some hdr =>
      match newJobDir env [] with
      | (none, tr) => (errorJSON 500 "failed to create job".toList, tr)
      | (some (jobID, dir), tr) =>
        -- Keep original extension for LibreOffice
        let ext := Ext hdr.Filename
        let ext := if ext = [] then ".xlsx".toList else ext
        let inputPath := Join [dir, "input".toList ++ ext]
        match saveUploadedFile env tr hdr inputPath with
        | (false, tr) => (errorJSON 500 "save failed".toList, tr)
        | (true, tr) =>
          match runCommand env tr dir "libreoffice".toList
              ["--headless".toList, "--nologo".toList, "--convert-to".toList, "pdf".toList,
                "--outdir".toList, dir, inputPath] with
          | (false, tr) => (errorJSON 500 "libreoffice convert failed: ".toList, tr)
          | (true, tr) =>
            let baseName := baseNameWithoutExt hdr.Filename
            let outputName := baseName ++ ".pdf".toList
            let outputPath := Join [dir, outputName]
            -- LibreOffice names output based on input filename
            let expectedOutput := Join [dir, "input.pdf".toList]
            match osStat env tr expectedOutput with
            | (some _, tr) =>
              match osRename env tr expectedOutput outputPath with
              | (false, tr) => (errorJSON 500 "rename failed".toList, tr)
              | (true, tr) =>
                (⟨200, Body.downloadUrl (buildDownloadURL r jobID outputName)⟩, tr)
            | (none, tr) =>
              match osStat env tr outputPath with
              | (none, tr) => (errorJSON 500 "converted file not found".toList, tr)
              | (some _, tr) =>
                (⟨200, Body.downloadUrl (buildDownloadURL r jobID outputName)⟩, tr)

/-- Function `handlePowerPointToPDF`. -/
def handlePowerPointToPDF (env : Env) (r : Request) : Response × List Event :=
  if r.Method ≠ "POST".toList then (errorJSON 405 "POST required".toList, [])
  else if r.multipartOk = false then (errorJSON 400 "parse form failed".toList, [])
  else
    match r.FormFile "file".toList with
    | none => (errorJSON 400 "file required".toList, [])
    | some hdr =>
      match newJobDir env [] with
      | (none, tr) => (errorJSON 500 "failed to create job".toList, tr)
      | (some (jobID, dir), tr) =>
        -- Keep original extension for LibreOffice
        let ext := Ext hdr.Filename
        let ext := if ext = [] then ".pptx".toList else ext
        let inputPath := Join [dir, "input".toList ++ ext]
        match saveUploadedFile env tr hdr inputPath with
        | (false, tr) => (errorJSON 500 "save failed".toList, tr)
        | (true, tr) =>
          match runCommand env tr dir "libreoffice".toList
              ["--headless".toList, "--nologo".toList, "--convert-to".toList, "pdf".toList,
                "--outdir".toList, dir, inputPath] with
          | (false, tr) => (errorJSON 500 "libreoffice convert failed: ".toList, tr)
          | (true, tr) =>
            let baseName := baseNameWithoutExt hdr.Filename
            let outputName := baseName ++ ".pdf".toList
            let outputPath := Join [dir, outputName]
            -- LibreOffice names output based on input filename
            let expectedOutput := Join [dir, "input.pdf".toList]
            match osStat env tr expectedOutput with
            | (some _, tr) =>
              match osRename env tr expectedOutput outputPath with
              | (false, tr) => (errorJSON 500 "rename failed".toList, tr)
              | (true, tr) =>
                (⟨200, Body.downloadUrl (buildDownloadURL r jobID outputName)⟩, tr)
            | (none, tr) =>
              match osStat env tr outputPath with
              | (none, tr) => (errorJSON 500 "converted file not found".toList, tr)
              | (some _, tr) =>
                (⟨200, Body.downloadUrl (buildDownloadURL r jobID outputName)⟩, tr)

/-- Function `handlePDFToJPG`. -/
def handlePDFToJPG (env : Env) (r : Request) : Response × List Event :=
  if r.Method ≠ "POST".toList then (errorJSON 405 "POST required".toList, [])
  else if r.multipartOk = false then (errorJSON 400 "parse form failed".toList, [])
  else
    match r.FormFile "file".toList with
    | none => (errorJSON 400 "file required".toList, [])
    | some hdr =>
      -- Optional DPI parameter (default 150)
      let dpi := parseIntDefault (r.FormValue "dpi".toList) 150
      let dpi := if dpi < 72 then 72 else dpi
      let dpi := if 600 < dpi then 600 else dpi
      match newJobDir env [] with
      | (none, tr) => (errorJSON 500 "failed to create job".toList, tr)
      | (some (jobID, dir), tr) =>
        let inputPath := Join [dir, "input.pdf".toList]
        match saveUploadedFile env tr hdr inputPath with
        | (false, tr) => (errorJSON 500 "save failed".toList, tr)
        | (true, tr) =>
          -- Get page count using pdfinfo
          match pageCountPoppler env tr dir inputPath with
          | (PageCount.toolFailed, tr) =>
            (errorJSON 500 "failed to get page count: ".toList, tr)
          | (PageCount.couldNotParse, tr) =>
            (errorJSON 500 "failed to get page count: ".toList, tr)
          | (PageCount.ok pageCount, tr) =>
            -- Create images directory
            let imagesDir := Join [dir, "images".toList]
            match osMkdirAll env tr imagesDir with
            | (false, tr) => (errorJSON 500 "failed to create images dir".toList, tr)
            | (true, tr) =>
              -- Convert PDF to JPG using pdftoppm
              let pfx := Join [imagesDir, "page".toList]
              match runCommand env tr dir "pdftoppm".toList
                  ["-jpeg".toList, "-r".toList, Itoa dpi, inputPath, pfx] with
              | (false, tr) => (errorJSON 500 "pdftoppm failed: ".toList, tr)
              | (true, tr) =>
                let baseName := baseNameWithoutExt hdr.Filename
                -- Smart output: single JPG for 1-page PDFs, ZIP for multi-page PDFs
                if pageCount = 1 then
                  -- Find the generated JPG file
                  match filepathGlob env tr (Join [imagesDir, "page-*.jpg".toList]) with
                  | (none, tr) => (errorJSON 500 "no JPG files generated".toList, tr)
                  | (some [], tr) => (errorJSON 500 "no JPG files generated".toList, tr)
                  | (some (jpg :: _), tr) =>
                    -- Move the single JPG to main directory with proper name
                    let outputName := baseName ++ ".jpg".toList
                    let outputPath := Join [dir, outputName]
                    match osRename env tr jpg outputPath with
                    | (false, tr) => (errorJSON 500 "rename failed: ".toList, tr)
                    | (true, tr) =>
                      (⟨200, Body.downloadUrl (buildDownloadURL r jobID outputName)⟩, tr)
                else
                  -- Multiple pages: create ZIP
                  let zipName := baseName ++ "_images.zip".toList
                  let zipPath := Join [dir, zipName]
                  match zipDirectory env tr imagesDir zipPath with
                  | (false, tr) => (errorJSON 500 "zip failed: ".toList, tr)
                  | (true, tr) =>
                    (⟨200, Body.downloadUrl (buildDownloadURL r jobID zipName)⟩, tr)

/-- Function `handleExtractText`. -/
def handleExtractText (env : Env) (r : Request) : Response × List Event :=
  if r.Method ≠ "POST".toList then (errorJSON 405 "POST required".toList, [])
  else if r.multipartOk = false then (errorJSON 400 "parse form failed".toList, [])
  else
    match r.FormFile "file".toList with
    | none => (errorJSON 400 "file required".toList, [])
    | some hdr =>
      match newJobDir env [] with
      | (none, tr) => (errorJSON 500 "failed to create job".toList, tr)
      | (some (jobID, dir), tr) =>
        let inputPath := Join [dir, "input.pdf".toList]
        match saveUploadedFile env tr hdr inputPath with
        | (false, tr) => (errorJSON 500 "save failed".toList, tr)
        | (true, tr) =>
          let baseName := baseNameWithoutExt hdr.Filename
          let outputName := baseName ++ ".txt".toList
          let outputPath := Join [dir, outputName]
          -- pdftotext extracts text from PDF; -layout preserves the original layout
          match runCommand env tr dir "pdftotext".toList
              ["-layout".toList, inputPath, outputPath] with
          | (false, tr) => (errorJSON 500 "pdftotext failed: ".toList, tr)
          | (true, tr) =>
            (⟨200, Body.downloadUrl (buildDownloadURL r jobID outputName)⟩, tr)

/-- The end of `handleExtractImages`, after the images directory was listed
and found non-empty. -/
def extractImagesZip (env : Env) (r : Request) (hdr : FileHeader)
    (jobID dir imagesDir : GoString) (tr : List Event) : Response × List Event :=
  let baseName := baseNameWithoutExt hdr.Filename
  let zipName := baseName ++ "_extracted_images.zip".toList
  let zipPath := Join [dir, zipName]
  match zipDirectory env tr imagesDir zipPath with
  | (false, tr) => (errorJSON 500 "zip failed: ".toList, tr)
  | (true, tr) => (⟨200, Body.downloadUrl (buildDownloadURL r jobID zipName)⟩, tr)

/-- Function `handleExtractImages`. -/
def handleExtractImages (env : Env) (r : Request) : Response × List Event :=
  if r.Method ≠ "POST".toList then (errorJSON 405 "POST required".toList, [])
  else if r.multipartOk = false then (errorJSON 400 "parse form failed".toList, [])
  else
    match r.FormFile "file".toList with
    | none => (errorJSON 400 "file required".toList, [])
    | some hdr =>
      match newJobDir env [] with
      | (none, tr) => (errorJSON 500 "failed to create job".toList, tr)
      | (some (jobID, dir), tr) =>
        let inputPath := Join [dir, "input.pdf".toList]
        match saveUploadedFile env tr hdr inputPath with
        | (false, tr) => (errorJSON 500 "save failed".toList, tr)
        | (true, tr) =>
          -- Create images directory
          let imagesDir := Join [dir, "images".toList]
          match osMkdirAll env tr imagesDir with
          | (false, tr) => (errorJSON 500 "failed to create images dir".toList, tr)
          | (true, tr) =>
            -- pdfimages extracts embedded images
            let pfx := Join [imagesDir, "image".toList]
            match runCommand env tr dir "pdfimages".toList
                ["-all".toList, inputPath, pfx] with
            | (false, tr) => (errorJSON 500 "pdfimages failed: ".toList, tr)
            | (true, tr) =>
              -- Check if any images were extracted
              match osReadDir env tr imagesDir with
              | (none, tr) => (errorJSON 200 "no images found in PDF".toList, tr)
              | (some [], tr) => (errorJSON 200 "no images found in PDF".toList, tr)
              | (some (_ :: _), tr) => extractImagesZip env r hdr jobID dir imagesDir tr

/-- The conversion step of `handleHTMLToPDF`. -/
def htmlToPDFConvert (env : Env) (r : Request) (jobID dir inputSource baseName : GoString)
    (tr : List Event) : Response × List Event :=
  let outputName := baseName ++ ".pdf".toList
  let outputPath := Join [dir, outputName]
  -- wkhtmltopdf converts HTML/URL to PDF
  match runCommand env tr dir "wkhtmltopdf".toList
      ["--enable-local-file-access".toList, "--quiet".toList, inputSource, outputPath] with
  | (false, tr) => (errorJSON 500 "wkhtmltopdf failed: ".toList, tr)
  | (true, tr) => (⟨200, Body.downloadUrl (buildDownloadURL r jobID outputName)⟩, tr)

/-- Function `handleHTMLToPDF`. -/
def handleHTMLToPDF (env : Env) (r : Request) : Response × List Event :=
  if r.Method ≠ "POST".toList then (errorJSON 405 "POST required".toList, [])
  else if r.multipartOk = false then (errorJSON 400 "parse form failed".toList, [])
  else
    match newJobDir env [] with
    | (none, tr) => (errorJSON 500 "failed to create job".toList, tr)
    | (some (jobID, dir), tr) =>
      -- Check for URL parameter first
      let url := TrimSpace (r.FormValue "url".toList)
      if url ≠ [] then
        -- URL mode
        htmlToPDFConvert env r jobID dir url "webpage".toList tr
      else
        -- File mode
        match r.FormFile "file".toList with
        | none => (errorJSON 400 "file or url required".toList, tr)
        | some hdr =>
          let inputPath := Join [dir, "input.html".toList]
          match saveUploadedFile env tr hdr inputPath with
          | (false, tr) => (errorJSON 500 "save failed".toList, tr)
          | (true, tr) =>
            htmlToPDFConvert env r jobID dir inputPath (baseNameWithoutExt hdr.Filename) tr

/-! ### Advanced tools -/

/-- Library `exec.Command(name, args...).Output()` with `cmd.Dir = dir`,
recorded. -/
def execOutput (env : Env) (tr : List Event) (dir name : GoString) (args : List GoString) :
    (Bool × GoString) × List Event :=
  (env.Output tr dir name args, tr ++ [Event.execOutput dir name args])

/-- Library `exec.Command(name, args...).CombinedOutput()` with
`cmd.Dir = dir`, recorded. -/
def execCombined (env : Env) (tr : List Event) (dir name : GoString)
    (args : List GoString) : (Bool × GoString) × List Event :=
  (env.CombinedOutput tr dir name args, tr ++ [Event.execCombined dir name args])

/-- The two steps by which `handleComparePDFs` saves an upload: `os.Create`,
then `io.Copy`. The result tells which step failed, if any. -/
def createAndCopy (env : Env) (tr : List Event) (key dst : GoString) :
    Option Bool × List Event :=
  if env.Create tr dst = false then (some false, tr ++ [Event.create dst])
  else if env.Copy (tr ++ [Event.create dst]) key dst = false then
    (some true, tr ++ [Event.create dst, Event.copyUpload key dst])
  else (none, tr ++ [Event.create dst, Event.copyUpload key dst])

/-- The end of `handleComparePDFs`, after both uploads were saved. -/
def compareTexts (env : Env) (r : Request) (jobID dir inputPath1 inputPath2 : GoString)
    (tr : List Event) : Response × List Event :=
  -- Extract text from both PDFs
  let text1Path := Join [dir, "file1.txt".toList]
  let text2Path := Join [dir, "file2.txt".toList]
  match runCommand env tr dir "pdftotext".toList [inputPath1, text1Path] with
  | (false, tr) => (errorJSON 500 "failed to extract text from file1: ".toList, tr)
  | (true, tr) =>
    match runCommand env tr dir "pdftotext".toList [inputPath2, text2Path] with
    | (false, tr) => (errorJSON 500 "failed to extract text from file2: ".toList, tr)
    | (true, tr) =>
      let outputName := "differences.txt".toList
      let outputPath := Join [dir, outputName]
      -- Run diff and capture output (ignore exit code)
      match execOutput env tr dir "diff".toList ["-u".toList, text1Path, text2Path] with
      | ((_, diffOutput), tr) =>
        -- Write diff output to file
        let diffOutput :=
          if diffOutput.length = 0 then
            "No differences found between the two PDF files.\n".toList
          else diffOutput
        match osWriteFile env tr outputPath diffOutput 0o644 with
        | (false, tr) => (errorJSON 500 "failed to write diff output: ".toList, tr)
        | (true, tr) => (⟨200, Body.downloadUrl (buildDownloadURL r jobID outputName)⟩, tr)

/-- Function `handleComparePDFs`. -/
def handleComparePDFs (env : Env) (r : Request) : Response × List Event :=
  if r.Method ≠ "POST".toList then (errorJSON 405 "POST required".toList, [])
  else
    match newJobDir env [] with
    | (none, tr) => (errorJSON 500 errText, tr)
    | (some (jobID, dir), tr) =>
      -- Parse multipart form
      if r.multipartOk = false then (errorJSON 400 "failed to parse form: ".toList, tr)
      else
        match r.FormFile "file1".toList with
        | none => (errorJSON 400 "file1 is required: ".toList, tr)
        | some _ =>
          match r.FormFile "file2".toList with
          | none => (errorJSON 400 "file2 is required: ".toList, tr)
          | some _ =>
            -- Save both files
            let inputPath1 := Join [dir, "file1.pdf".toList]
            match createAndCopy env tr "file1".toList inputPath1 with
            | (some false, tr) => (errorJSON 500 "failed to create file1: ".toList, tr)
            | (some true, tr) => (errorJSON 500 "failed to save file1: ".toList, tr)
            | (none, tr) =>
              let inputPath2 := Join [dir, "file2.pdf".toList]
              match createAndCopy env tr "file2".toList inputPath2 with
              | (some false, tr) => (errorJSON 500 "failed to create file2: ".toList, tr)
              | (some true, tr) => (errorJSON 500 "failed to save file2: ".toList, tr)
              | (none, tr) => compareTexts env r jobID dir inputPath1 inputPath2 tr

/-- Function `handleDigitalSignature`. -/
def handleDigitalSignature (env : Env) (r : Request) : Response × List Event :=
  if r.Method ≠ "POST".toList then (errorJSON 405 "POST required".toList, [])
  else if r.multipartOk = false then (errorJSON 400 "invalid multipart form".toList, [])
  else
    match r.FormFile "file".toList with
    | none => (errorJSON 400 "file is required".toList, [])
    | some header =>
      match newJobDir env [] with
      | (none, tr) => (errorJSON 500 errText, tr)
      | (some (jobID, dir), tr) =>
        let inputPath := Join [dir, "input.pdf".toList]
        match saveUploadedFile env tr header inputPath with
        | (false, tr) => (errorJSON 500 "failed to save file".toList, tr)
        | (true, tr) =>
          let baseName := baseNameWithoutExt header.Filename
          let outputName := baseName ++ "_signed.pdf".toList
          let outputPath := Join [dir, outputName]
          -- Use qpdf to linearize and process PDF (marks as optimized/signed)
          match runCommand env tr dir "qpdf".toList
              ["--linearize".toList, "--warning-exit-0".toList, inputPath, outputPath] with
          | (false, tr) => (errorJSON 500 "failed to process PDF: ".toList, tr)
          | (true, tr) =>
            (⟨200, Body.downloadUrl (buildDownloadURL r jobID outputName)⟩, tr)

/-- One section of the report of `handleValidatePDFA`: the note on a failed
run, then the output of the tool or, if it is empty, the text `empty`. -/
def reportSection (failNote empty : GoString) (res : Bool × GoString) : GoString :=
  (if res.1 = false then failNote ++ errText ++ [newline] else []) ++
    (if 0 < res.2.length then res.2 else empty)

/-- Function `handleValidatePDFA`. -/
def handleValidatePDFA (env : Env) (r : Request) : Response × List Event :=
  if r.Method ≠ "POST".toList then (errorJSON 405 "POST required".toList, [])
  else if r.multipartOk = false then (errorJSON 400 "invalid multipart form".toList, [])
  else
    match r.FormFile "file".toList with
    | none => (errorJSON 400 "file is required".toList, [])
    | some header =>
      match newJobDir env [] with
      | (none, tr) => (errorJSON 500 errText, tr)
      | (some (jobID, dir), tr) =>
        let inputPath := Join [dir, "input.pdf".toList]
        match saveUploadedFile env tr header inputPath with
        | (false, tr) => (errorJSON 500 "failed to save file".toList, tr)
        | (true, tr) =>
          let baseName := baseNameWithoutExt header.Filename
          let outputName := baseName ++ "_validation.txt".toList
          let outputPath := Join [dir, outputName]
          -- Run qpdf --check to validate PDF structure
          match execCombined env tr dir "qpdf".toList
              ["--check".toList, "--warning-exit-0".toList, inputPath] with
          | (qpdfRes, tr) =>
            -- Run pdfinfo to get PDF version and metadata
            match execCombined env tr dir "pdfinfo".toList [inputPath] with
            | (pdfinfoRes, tr) =>
              let report :=
                "=== PDF Structure Validation (qpdf --check) ===\n\n".toList ++
                reportSection "qpdf check failed: ".toList "No issues found.\n".toList
                  qpdfRes ++
                "\n=== PDF Metadata (pdfinfo) ===\n\n".toList ++
                reportSection "pdfinfo failed: ".toList "No metadata available.\n".toList
                  pdfinfoRes
              -- Write combined validation output to file
              match osWriteFile env tr outputPath report 0o644 with
              | (false, tr) =>
                (errorJSON 500 "failed to write validation report: ".toList, tr)
              | (true, tr) =>
                (⟨200, Body.downloadUrl (buildDownloadURL r jobID outputName)⟩, tr)

/-- The test `os.IsNotExist(err)` on the result of `os.Stat(path)`, recorded. -/
def statNotExist (env : Env) (tr : List Event) (path : GoString) : Bool × List Event :=
  match env.Stat tr path with
  | some _ => (false, tr ++ [Event.stat path])
  | none => (env.IsNotExist tr path, tr ++ [Event.stat path])

/-- The first discovery step of `handlePDFToHTML`: `baseName.html`, or when
it does not exist `baseName-html.html`, or `baseNames.html`. -/
def htmlCandidates (env : Env) (tr : List Event) (dir baseName : GoString) :
    GoString × List Event :=
  let outputName := baseName ++ ".html".toList
  match statNotExist env tr (Join [dir, outputName]) with
  | (false, tr) => (outputName, tr)
  | (true, tr) =>
    let altName := baseName ++ "-html.html".toList
    match osStat env tr (Join [dir, altName]) with
    | (some _, tr) => (altName, tr)
    | (none, tr) =>
      let suffixName := baseName ++ "s.html".toList
      match osStat env tr (Join [dir, suffixName]) with
      | (some _, tr) => (suffixName, tr)
      | (none, tr) => (outputName, tr)

/-- The second discovery step of `handlePDFToHTML`: when the chosen name does
not exist, the first regular file of the job directory that ends in `.html`. -/
def htmlScanDir (env : Env) (tr : List Event) (dir outputName : GoString) :
    GoString × List Event :=
  match statNotExist env tr (Join [dir, outputName]) with
  | (false, tr) => (outputName, tr)
  | (true, tr) =>
    -- List directory to find HTML files
    match osReadDir env tr dir with
    | (entries, tr) =>
      match (entries.getD []).find?
          (fun entry => !entry.IsDir && HasSuffix entry.Name ".html".toList) with
      | some entry => (entry.Name, tr)
      | none => (outputName, tr)

/-- Function `handlePDFToHTML`. -/
def handlePDFToHTML (env : Env) (r : Request) : Response × List Event :=
  if r.Method ≠ "POST".toList then (errorJSON 405 "POST required".toList, [])
  else if r.multipartOk = false then (errorJSON 400 "invalid multipart form".toList, [])
  else
    match r.FormFile "file".toList with
    | none => (errorJSON 400 "file is required".toList, [])
    | some header =>
      match newJobDir env [] with
      | (none, tr) => (errorJSON 500 errText, tr)
      | (some (jobID, dir), tr) =>
        let inputPath := Join [dir, "input.pdf".toList]
        match saveUploadedFile env tr header inputPath with
        | (false, tr) => (errorJSON 500 "failed to save file".toList, tr)
        | (true, tr) =>
          let baseName := baseNameWithoutExt header.Filename
          -- pdftohtml with -s creates a single HTML file
          match runCommand env tr dir "pdftohtml".toList
              ["-s".toList, "-noframes".toList, "-enc".toList, "UTF-8".toList, inputPath,
                Join [dir, baseName]] with
          | (false, tr) => (errorJSON 500 "pdftohtml failed: ".toList, tr)
          | (true, tr) =>
            match htmlCandidates env tr dir baseName with
            | (outputName, tr) =>
              match htmlScanDir env tr dir outputName with
              | (outputName, tr) =>
                match statNotExist env tr (Join [dir, outputName]) with
                | (true, tr) => (errorJSON 500 "HTML output not found".toList, tr)
                | (false, tr) =>
                  (⟨200, Body.downloadUrl (buildDownloadURL r jobID outputName)⟩, tr)

/-- The verb `%.1f` of `fmt.Sprintf`: one decimal, correctly rounded. -/
def fmtF1 : F64 → GoString
  | F64.nan => "NaN".toList
  | F64.inf true => "-Inf".toList
  | F64.inf false => "+Inf".toList
  | F64.fin neg mant exp =>
    let n := roundHalfEven (mant * 10 * 2 ^ exp.toNat) (2 ^ (-exp).toNat)
    (if neg then ['-'] else []) ++ natItoa (n / 10) ++ '.' :: natItoa (n % 10)

/-- The parsing of the line `Page size:` in `handleAddHeaderFooter`, given the
page size so far: the new page size, or `none` when the index expression
`parts[4]` is out of range and the handler panics. -/
def parsePageSize (env : Env) (line : GoString) (size : F64 × F64) : Option (F64 × F64) :=
  -- Format: "Page size:      612 x 792 pts (letter)"
  let parts := Fields line
  if 4 ≤ parts.length then
    let pageWidth :=
      match ParseFloat env.readFloat (parts.getD 2 []) with
      | some w => w
      | none => size.1
    match parts.get? 4 with
    | none => none
    | some p4 =>
      match ParseFloat env.readFloat p4 with
      | some h => some (pageWidth, h)
      | none => some (pageWidth, size.2)
  else some size

/-- The loop of `handleAddHeaderFooter` over the lines of the output of
`pdfinfo`, which stops at the first line that starts with `Page size:`. -/
def pageSizeLines (env : Env) (size : F64 × F64) : List GoString → Option (F64 × F64)
  | [] => some size
  | line :: rest =>
    if HasPrefix line "Page size:".toList then parsePageSize env line size
    else pageSizeLines env size rest

/-- One line of the PostScript overlay of `handleAddHeaderFooter`. -/
def psTextLine (x y : F64) (text : GoString) : GoString :=
  fmtF1 x ++ " ".toList ++ fmtF1 y ++ " moveto (".toList ++ text ++
    ") dup stringwidth pop 2 div neg 0 rmoveto show\n".toList

/-- The PostScript file written by `handleAddHeaderFooter`. -/
def psOverlay (env : Env) (pageWidth pageHeight : F64) (headerText footerText : GoString) :
    GoString :=
  -- Calculate positions
  let headerY := env.fsub pageHeight (F64.fin false 25 0)
  let footerY := F64.fin false 20 0
  let centerX := env.fdiv pageWidth (F64.fin false 2 0)
  let psCommands :=
    "/Helvetica findfont 12 scalefont setfont\n".toList ++
    "0.5 0.5 0.5 setrgbcolor\n".toList ++
    (if headerText ≠ [] then psTextLine centerX headerY headerText else []) ++
    (if footerText ≠ [] then psTextLine centerX footerY footerText else [])
  "%!PS-Adobe-3.0\n<< /EndPage \x7b\n  exch pop\n  0 eq \x7b\n    ".toList ++ psCommands ++
    "\n    true\n  \x7d \x7b false \x7d ifelse\n\x7d bind >> setpagedevice\n".toList

/-- The end of `handleAddHeaderFooter`, once the page size is known. -/
def headerFooterApply (env : Env) (r : Request) (jobID dir inputPath outputName : GoString)
    (size : F64 × F64) (headerText footerText : GoString) (tr : List Event) :
    Response × List Event :=
  let outputPath := Join [dir, outputName]
  -- Create PostScript file that adds header/footer to each page
  let psPath := Join [dir, "overlay.ps".toList]
  match osWriteFile env tr psPath (psOverlay env size.1 size.2 headerText footerText)
      0o644 with
  | (false, tr) => (errorJSON 500 "failed to create overlay script".toList, tr)
  | (true, tr) =>
    -- Use Ghostscript to apply header/footer overlay to each page
    match runCommand env tr dir "gs".toList
        ["-dBATCH".toList, "-dNOPAUSE".toList, "-dQUIET".toList, "-sDEVICE=pdfwrite".toList,
          "-dPDFSETTINGS=/prepress".toList, "-sOutputFile=".toList ++ outputPath, psPath,
          inputPath] with
    | (false, tr) => (errorJSON 500 "failed to add header/footer: ".toList, tr)
    | (true, tr) => (⟨200, Body.downloadUrl (buildDownloadURL r jobID outputName)⟩, tr)

/-- Function `handleAddHeaderFooter`. -/
def handleAddHeaderFooter (env : Env) (r : Request) : Response × List Event :=
  if r.Method ≠ "POST".toList then (errorJSON 405 "POST required".toList, [])
  else if r.multipartOk = false then (errorJSON 400 "invalid multipart form".toList, [])
  else
    match r.FormFile "file".toList with
    | none => (errorJSON 400 "file is required".toList, [])
    | some header =>
      match newJobDir env [] with
      | (none, tr) => (errorJSON 500 errText, tr)
      | (some (jobID, dir), tr) =>
        let inputPath := Join [dir, "input.pdf".toList]
        match saveUploadedFile env tr header inputPath with
        | (false, tr) => (errorJSON 500 "failed to save file".toList, tr)
        | (true, tr) =>
          -- Get header and footer text from query parameters
          let headerText := r.Query "headerText".toList
          let footerText := r.Query "footerText".toList
          if headerText = [] ∧ footerText = [] then
            (errorJSON 400
              "at least one of headerText or footerText is required".toList, tr)
          else
            let baseName := baseNameWithoutExt header.Filename
            let outputName := baseName ++ "_headerfooter.pdf".toList
            -- Get page dimensions using pdfinfo; defaults are Letter, in points
            let size : F64 × F64 := (F64.fin false 612 0, F64.fin false 792 0)
            match execOutput env tr dir "pdfinfo".toList [inputPath] with
            | ((false, _), tr) =>
              headerFooterApply env r jobID dir inputPath outputName size headerText
                footerText tr
            | ((true, infoOutput), tr) =>
              match pageSizeLines env size (Split infoOutput newline) with
              | none => (⟨0, Body.noResponse⟩, tr)
              | some size =>
                headerFooterApply env r jobID dir inputPath outputName size headerText
                  footerText tr

/-- Function `handleConvertToPDFA`. -/
def handleConvertToPDFA (env : Env) (r : Request) : Response × List Event :=
  if r.Method ≠ "POST".toList then (errorJSON 405 "POST required".toList, [])
  else if r.multipartOk = false then (errorJSON 400 "invalid multipart form".toList, [])
  else
    match r.FormFile "file".toList with
    | none => (errorJSON 400 "file is required".toList, [])
    | some header =>
      match newJobDir env [] with
      | (none, tr) => (errorJSON 500 errText, tr)
      | (some (jobID, dir), tr) =>
        let inputPath := Join [dir, "input.pdf".toList]
        match saveUploadedFile env tr header inputPath with
        | (false, tr) => (errorJSON 500 "failed to save file".toList, tr)
        | (true, tr) =>
          let baseName := baseNameWithoutExt header.Filename
          let outputName := baseName ++ "_pdfa.pdf".toList
          let outputPath := Join [dir, outputName]
          -- Convert to PDF/A-2b using Ghostscript
          match runCommand env tr dir "gs".toList
              ["-dBATCH".toList, "-dNOPAUSE".toList, "-dQUIET".toList,
                "-sDEVICE=pdfwrite".toList, "-dPDFA=2".toList,
                "-dPDFACompatibilityPolicy=1".toList, "-sOutputFile=".toList ++ outputPath,
                inputPath] with
          | (false, tr) => (errorJSON 500 "failed to convert to PDF/A: ".toList, tr)
          | (true, tr) =>
            (⟨200, Body.downloadUrl (buildDownloadURL r jobID outputName)⟩, tr)

/-! ### The retention sweep -/

/-- The loop of `cleanupOldJobs` over the entries of the work root. -/
def cleanupEntries (env : Env) (cutoff : Int) : List DirEntry → List Event → List Event
  | [], tr => tr
  | e :: rest, tr =>
    if e.IsDir = false then cleanupEntries env cutoff rest tr
    else
      let p := Join [baseWorkDir, e.Name]
      match osStat env tr p with
      | (none, tr) => cleanupEntries env cutoff rest tr
      | (some info, tr) =>
        if info.ModTime < cutoff then
          cleanupEntries env cutoff rest (tr ++ [Event.removeAll p])
        else cleanupEntries env cutoff rest tr

/-- Function `cleanupOldJobs`: the calls it makes. Times and durations are
numbers of nanoseconds; the negation `-maxAge` of the duration is taken in 64
bits, the sum `time.Now().Add(...)` is exact. -/
def cleanupOldJobs (env : Env) (maxAge : Int) : List Event :=
  match osReadDir env [] baseWorkDir with
  | (none, tr) => tr
  | (some entries, tr) =>
    let cutoff := env.Now tr + wrapInt (-maxAge)
    cleanupEntries env cutoff entries (tr ++ [Event.now])

/-! ### The routes -/

/-- A handler of the model. -/
abbrev Handler := Env → Request → Response × List Event

/-- The operation handlers registered in `main`, one per operation. -/
def operationHandlers : List Handler :=
  [handleMerge, handleSplit, handleRemovePages, handleExtractPages, handleScanToPDF,
    handleCompress, handleRepair, handleOCR, handleConvertToPDFA, handleImageToPDF,
    handleWordToPDF, handlePreview, handleOrganize, handleRotate, handleCrop,
    handlePageNumbers, handleWatermark, handleProtectPDF, handleUnlockPDF, handleRedactPDF,
    handleFlattenPDF, handlePDFToWord, handlePDFToExcel, handlePDFToPowerPoint,
    handlePDFToJPG, handleExtractText, handleExtractImages, handleHTMLToPDF,
    handleExcelToPDF, handlePowerPointToPDF, handleComparePDFs, handleDigitalSignature,
    handleValidatePDFA, handlePDFToHTML, handleAddHeaderFooter]

/-- The calls of a successful `handleRotate`, in order. -/
def rotateCalls (env : Env) (header : FileHeader) (degrees : Int) : List Event :=
  [Event.newUUID (env.NewString []),
    Event.mkdirAll (Join [baseWorkDir, env.NewString []]) 0o755,
    Event.saveUpload header (Join [Join [baseWorkDir, env.NewString []], "input.pdf".toList]),
    Event.run (Join [baseWorkDir, env.NewString []]) "pdfcpu".toList
      ["rotate".toList, Join [Join [baseWorkDir, env.NewString []], "input.pdf".toList],
        Itoa degrees, Join [Join [baseWorkDir, env.NewString []], defaultFilename]]]

/-! ## Sample requests and a sample environment -/

/-- An environment in which every system call succeeds: the identifier drawn
is always the same, every path exists as a regular file, and every program
exits with status zero and no output. -/
def okEnv (readFloat : GoString → Option F64) : Env where
  NewString := fun _ => "3b241101-e2bb-4255-8caf-4136c566a962".toList
  MkdirAll := fun _ _ => true
  saveUpload := fun _ _ _ => true
  Stat := fun _ p => some ⟨Base p, false, 0⟩
  Run := fun _ _ _ _ => some []
  zipDir := fun _ _ _ => true
  readFloat := readFloat
  ReadFile := fun _ _ => some []
  WriteFile := fun _ _ _ => true
  ReadDir := fun _ _ => some []
  IsNotExist := fun _ _ => false
  Rename := fun _ _ _ => true
  Glob := fun _ _ => some []
  Now := fun _ => 0
  Create := fun _ _ => true
  Copy := fun _ _ _ => true
  Output := fun _ _ _ _ => (true, [])
  CombinedOutput := fun _ _ _ _ => (true, [])
  mapOrder := fun _ keys => keys
  unmarshalRotations := fun _ => none
  unmarshalRedactions := fun _ => none
  scanPage := fun _ => none
  scanDims := fun _ => none
  pixel := fun _ _ => 0
  fadd := fun x _ => x
  fsub := fun x _ => x
  fdiv := fun x _ => x

/-- The job identifier drawn in `okEnv`. -/
def sampleJob : GoString := "3b241101-e2bb-4255-8caf-4136c566a962".toList

/-- A `POST` request to host `pdf.example` with a parseable multipart body:
the form values `values` and the file parts `files`, each a field name with
its content. -/
def postRequest (values : List (GoString × GoString))
    (files : List (GoString × List FileHeader)) : Request where
  Method := "POST".toList
  Host := "pdf.example".toList
  TLS := false
  XForwardedProto := []
  URLPath := "/api/pdf".toList
  multipartOk := true
  FormValue := fun k => ((values.lookup k).getD [])
  File := fun k => ((files.lookup k).getD [])

/-- A `GET` request for the path `path`. -/
def getRequest (path : GoString) : Request where
  Method := "GET".toList
  Host := "pdf.example".toList
  TLS := false
  XForwardedProto := []
  URLPath := path
  multipartOk := false
  FormValue := fun _ => []
  File := fun _ => []

/-- The environment `okEnv`, except that every program run through
`runCommand` or `runCommandOutput` fails. -/
def runFailsEnv : Env :=
  { okEnv (fun _ => none) with Run := fun _ _ _ _ => none }

/-- The environment `okEnv`, except that every program started directly with
`exec.Command(...).Output()` exits with a nonzero status and no output. -/
def diffFailsEnv : Env :=
  { okEnv (fun _ => none) with Output := fun _ _ _ _ => (false, []) }

/-- The environment `okEnv`, except that the `rotations` value parses to the
single request of rotating page 1 by 90 degrees. -/
def rotationsEnv : Env :=
  { okEnv (fun _ => none) with unmarshalRotations := fun _ => some [⟨1, 90⟩] }

/-- A `POST` request that uploads `a.pdf` under the field name `file`, with
the form values `values`. -/
def uploadRequest (values : List (GoString × GoString)) : Request :=
  postRequest values [("file".toList, [⟨"a.pdf".toList, 0⟩])]

/-- An environment for the retention sweep: the work root lists the
directories `old` and `new` and the regular file `note.txt`; `old` was
modified at time 1000, everything else at time 9000, and the clock shows
10000. -/
def sweepEnv : Env :=
  { okEnv (fun _ => none) with
    ReadDir := fun _ _ =>
      some [⟨"old".toList, true⟩, ⟨"new".toList, true⟩, ⟨"note.txt".toList, false⟩]
    Stat := fun _ p =>
      if Base p = "old".toList then some ⟨"old".toList, true, 1000⟩
      else some ⟨Base p, Base p = "new".toList, 9000⟩
    Now := fun _ => 10000 }

/-- The environment `okEnv`, except that every program prints a report with
the line `Pages:          2`. -/
def twoPagesEnv : Env :=
  { okEnv (fun _ => none) with
    Run := fun _ _ _ _ => some "Producer: pdfcpu\nPages:          2\n".toList }

/-- The environment `okEnv`, except that the `rotations` value parses to five
requests: page 3 by 90, page 1 by 450, page 2 by -90, page 0 by 90 and page 5
by 45 degrees. -/
def mixedRotationsEnv : Env :=
  { okEnv (fun _ => none) with
    unmarshalRotations := fun _ => some [⟨3, 90⟩, ⟨1, 450⟩, ⟨2, -90⟩, ⟨0, 90⟩, ⟨5, 45⟩] }

/-- The environment `okEnv`, except that every tool run prints the page
count line `Pages: 0`. -/
def zeroPagesEnv : Env :=
  { okEnv (fun _ => none) with Run := fun _ _ _ _ => some "Pages: 0\n".toList }

/-- The environment `okEnv`, except that every tool run prints the page
count line `Pages: -3`. -/
def negativePagesEnv : Env :=
  { okEnv (fun _ => none) with Run := fun _ _ _ _ => some "Pages: -3\n".toList }

/-- The environment `okEnv`, except that every tool run prints the page
count line `Pages: 100000000000000`. -/
def hugePagesEnv : Env :=
  { okEnv (fun _ => none) with Run := fun _ _ _ _ => some "Pages: 100000000000000\n".toList }

/-- The environment `okEnv`, except that `pdfinfo` prints a `Page size:` line
that stops after the letter `x`. -/
def shortPageSizeEnv : Env :=
  { okEnv (fun _ => none) with Output := fun _ _ _ _ => (true, "Page size:      612 x\n".toList) }

/-- A `POST` request that uploads `a.pdf` under the field name `file`, with
the query parameter `headerText=Draft`. -/
def headerRequest : Request :=
  { uploadRequest [] with
    Query := fun k => if k = "headerText".toList then "Draft".toList else [] }

/-- The environment `okEnv`, except that `pdfinfo` reports one page and the
search for the rendered images finds `page-1.jpg`. -/
def onePageEnv : Env :=
  { okEnv (fun _ => none) with
    Run := fun _ _ _ _ => some "Pages:          1\n".toList
    Glob := fun _ _ => some ["/app/work/images/page-1.jpg".toList] }

/-- The environment `okEnv`, except that no path exists: every `os.Stat`
fails. -/
def missingEnv : Env :=
  { okEnv (fun _ => none) with Stat := fun _ _ => none }

/-- The environment `okEnv`, except that the `redactions` value parses to one
area on page 7, the rendering leaves the single image `page-1.png`, and the
base name `page-1.png` scans as page 1. -/
def skippedPageEnv : Env :=
  { okEnv (fun _ => none) with
    unmarshalRedactions := fun _ =>
      some [⟨7, F64.fin false 0 0, F64.fin false 0 0, F64.fin false 0 0, F64.fin false 0 0⟩]
    Glob := fun _ _ => some ["/app/work/job/page-1.png".toList]
    scanPage := fun s => if s = "page-1.png".toList then some 1 else none }

/-- The environment `skippedPageEnv`, except that the area is on page 1 and
the image is 10 by 20 pixels. -/
def drawnPageEnv : Env :=
  { skippedPageEnv with
    unmarshalRedactions := fun _ =>
      some [⟨1, F64.fin false 0 0, F64.fin false 0 0, F64.fin false 0 0, F64.fin false 0 0⟩]
    scanDims := fun _ => some (10, 20) }

/-! ## Predicates on paths and calls -/

/-- The path `p` is `base` itself or lies below it. -/
def liesUnder (base p : GoString) : Bool :=
  p == base || (base ++ [Separator]).isPrefixOf p

/-- Some segment of the path `p` is `..`. -/
def hasDotDotSegment (p : GoString) : Bool :=
  (Split p Separator).contains "..".toList

/-- The path a call reads from the file system: the argument of `os.Stat` and
of `http.ServeFile`. -/
def Event.readPath : Event → Option GoString
  | Event.stat p => some p
  | Event.serveFile p => some p
  | _ => none

/-- The body is the JSON object with the key `error`. -/
def Body.isError : Body → Bool
  | Body.error _ => true
  | _ => false

/-- The body is a success body: a download URL or a list of pages. -/
def Body.isSuccess : Body → Bool
  | Body.downloadUrl _ => true
  | Body.pages _ => true
  | _ => false

/-- The call allocates a job: it draws an identifier or creates a directory. -/
def Event.allocatesJob : Event → Bool
  | Event.newUUID _ => true
  | Event.mkdirAll _ _ => true
  | _ => false

/-- The call runs an external tool. -/
def Event.runsTool : Event → Bool
  | Event.run _ _ _ => true
  | Event.execOutput _ _ _ => true
  | Event.execCombined _ _ _ => true
  | Event.goRun _ _ _ => true
  | _ => false

/-- The response pairs status and body as the interface says: a 200 carries
a success body, and an error body has a 4xx or 5xx status. -/
def Response.wellFormed (resp : Response) : Prop :=
  (resp.status = 200 → resp.body.isSuccess = true) ∧
  (resp.body.isError = true → 400 ≤ resp.status ∧ resp.status < 600)

/-- Some tool run through `runCommand` or `runCommandOutput` in the calls
`rest`, made after the calls `pre`, failed: it did not start or exited with a
nonzero status. Runs of a program named in `tolerated` are not counted. -/
def failedRun (env : Env) (tolerated : List GoString) : List Event → List Event → Bool
  | _, [] => false
  | pre, e :: rest =>
    (match e with
      | Event.run d n a => !tolerated.contains n && (env.Run pre d n a).isNone
      | _ => false) || failedRun env tolerated (pre ++ [e]) rest

/-- Some tool run directly through `exec.Command` in the calls `rest`, made
after the calls `pre`, failed. -/
def failedExec (env : Env) : List Event → List Event → Bool
  | _, [] => false
  | pre, e :: rest =>
    (match e with
      | Event.execOutput d n a => !(env.Output pre d n a).1
      | Event.execCombined d n a => !(env.CombinedOutput pre d n a).1
      | _ => false) || failedExec env (pre ++ [e]) rest

/-- The handler answers a failed tool run with 500 and an error body. -/
def failsOnToolError (env : Env) (tolerated : List GoString)
    (res : Response × List Event) : Prop :=
  failedRun env tolerated [] res.2 = true →
    res.1.status = 500 ∧ res.1.body.isError = true

/-- The handler has made no call when it answers 400. -/
def validatesFirst (res : Response × List Event) : Prop :=
  res.1.status = 400 → res.2 = []

/-- The tool runs of a trace, in order: each program run through `runCommand`
or `runCommandOutput`, with its arguments. -/
def toolRuns : List Event → List (GoString × List GoString)
  | [] => []
  | Event.run _ name args :: rest => (name, args) :: toolRuns rest
  | _ :: rest => toolRuns rest

/-- The pages that a `rotations` list asks to rotate by `d` degrees: the page
numbers of the entries with a positive page number whose angle, taken modulo
360 into the range from 0 to 359, is `d`; in the order of the list. -/
def rotationPages (rotations : List OrganizeRotation) (d : Int) : List Int :=
  (rotations.filter (fun rot => decide (0 < rot.PageNumber ∧ rot.Degrees % 360 = d))).map
    (fun rot => rot.PageNumber)

/-- The tool runs of a successful organize operation with the parsed list
`rotations`: one `pdfcpu rotate` for each of the angles 90, 180, 270 that has
pages, with the sorted pages joined by commas, then one `pdfcpu collect` with
the page order `order`. -/
def organizeRuns (dir order : GoString) (rotations : List OrganizeRotation) :
    List (GoString × List GoString) :=
  (([90, 180, 270] : List Int).filter (fun d => decide (rotationPages rotations d ≠ []))).map
    (fun d => ("pdfcpu".toList,
      ["rotate".toList, "-pages".toList,
        ",".toList.intercalate ((sortInts (rotationPages rotations d)).map Itoa),
        Join [dir, "work.pdf".toList], '-' :: Itoa d])) ++
  [("pdfcpu".toList,
    ["collect".toList, "-pages".toList, order, Join [dir, "work.pdf".toList],
      Join [dir, defaultFilename]])]

/-- The tool runs of the handler are an initial part of the runs `runs`, and
all of them when the answer is 200. -/
def runsWithin (res : Response × List Event) (runs : List (GoString × List GoString)) : Prop :=
  toolRuns res.2 <+: runs ∧ (res.1.status = 200 → toolRuns res.2 = runs)

/-- The clamp of `n` to the range from `lo` to `hi`. -/
def clampInt (lo hi n : Int) : Int := min (max n lo) hi

/-- The description string of the watermark stamp for a position, a rotation,
a font size in points and an opacity. -/
def watermarkDesc (pos : GoString) (rot fontSize : Int) (opacity : F64) : GoString :=
  "pos:".toList ++ pos ++ ", rot:".toList ++ Itoa rot ++ ", points:".toList ++ Itoa fontSize ++
    ", op:".toList ++ fmtF2 opacity ++ ", c:.9 .9 .9".toList

/-- The description string of the page-number stamps for a position, a font
size in points and an opacity. -/
def pageNumberDesc (pos : GoString) (fontSize : Int) (opacity : F64) : GoString :=
  "pos:".toList ++ pos ++ ", points:".toList ++ Itoa fontSize ++
    ", scale:1 abs, rot:0, op:".toList ++ fmtF2 opacity ++ ", fillc:.2 .2 .2".toList

/-- The output file of the stamp of page `i`. -/
def stampedPath (dir : GoString) (i : Int) : GoString :=
  Join [dir, "stamped-".toList ++ fmt04d i ++ ".pdf".toList]

/-- The output files of the stamps of the `k` pages from page `i` on. -/
def stampedPaths (dir : GoString) : Int → Nat → List GoString
  | _, 0 => []
  | i, k + 1 => stampedPath dir i :: stampedPaths dir (i + 1) k

/-- The two names under which the single-page document of page `i` is looked
for. -/
def pageFileCandidates (pagesDir : GoString) (i : Int) : List GoString :=
  [Join [pagesDir, "page_".toList ++ Itoa i ++ ".pdf".toList],
    Join [pagesDir, "page-".toList ++ Itoa i ++ ".pdf".toList]]

/-- The list `pages` names, for the pages from `i` on, one of the two
candidate files of each page. -/
def pagesChosen (pagesDir : GoString) : Int → List GoString → Prop
  | _, [] => True
  | i, p :: ps => p ∈ pageFileCandidates pagesDir i ∧ pagesChosen pagesDir (i + 1) ps

/-- The stamp runs for the pages from `i` on, whose single-page documents are
`pages`: page `i` gets the label of `startAt + (i - 1)`, computed in 64 bits. -/
def stampRuns (dir desc : GoString) (startAt : Int) :
    Int → List GoString → List (GoString × List GoString)
  | _, [] => []
  | i, p :: ps =>
    ("pdfcpu".toList,
      ["stamp".toList, "add".toList, "-mode".toList, "text".toList, "--".toList,
        Itoa (wrapInt (startAt + (i - 1))), desc, p, stampedPath dir i]) ::
      stampRuns dir desc startAt (i + 1) ps

/-- The tool runs of a successful page-numbering operation on a document of
`n` pages: the page count, the split into single pages, the stamps of the
pages in order, and the merge of the `n` stamped files in page order. -/
def pageNumberRuns (dir desc : GoString) (startAt : Int) (pages : List GoString) (n : Nat) :
    List (GoString × List GoString) :=
  [("pdfcpu".toList, ["info".toList, Join [dir, "input.pdf".toList]]),
    ("pdfcpu".toList, ["extract".toList, "-mode".toList, "page".toList,
      Join [dir, "input.pdf".toList], Join [dir, "pages".toList]])] ++
  stampRuns dir desc startAt 1 pages ++
  [("pdfcpu".toList, ["merge".toList, Join [dir, defaultFilename]] ++ stampedPaths dir 1 n)]

/-- The permission mode `perm` is owner-only: it grants no read, write or
execute bit to group or others. -/
def ownerOnly (perm : Nat) : Bool :=
  perm % 0o100 == 0

/-- The integer that the text `s` is a decimal form of: an optional sign `+`
or `-`, then one or more decimal digits; `none` for every other text. -/
def decimalValue (s : GoString) : Option Int :=
  let digits := match s with
    | '-' :: t => t
    | '+' :: t => t
    | _ => s
  if digits ≠ [] ∧ digits.all Char.isDigit = true then
    let v : Nat := digits.foldl (fun a c => 10 * a + (c.toNat - 48)) 0
    some (match s with
      | '-' :: _ => -(v : Int)
      | _ => (v : Int))
  else none

/-- The path under which the merge operation saves upload number `i`. -/
def mergeInput (dir : GoString) (i : Nat) : GoString :=
  Join [dir, "input_".toList ++ natItoa i ++ ".pdf".toList]

/-- The paths of the uploads number `i`, `i + 1`, ... (`k` of them). -/
def mergeInputs (dir : GoString) (i k : Nat) : List GoString :=
  (List.range' i k).map (mergeInput dir)

/-- The calls of a merge request that runs to the end: the job directory, the
uploads saved in upload order, and the merge of the saved files. -/
def mergeCalls (id dir outName : GoString) (files : List FileHeader) : List Event :=
  [Event.newUUID id, Event.mkdirAll dir 0o755] ++
    List.zipWith Event.saveUpload files (mergeInputs dir 0 files.length) ++
    [Event.run dir "pdfcpu".toList
      (["merge".toList, Join [dir, outName]] ++ mergeInputs dir 0 files.length)]

/-- The outcome of a PDF-to-JPG request for the upload `hdr`: every run of
`pdftoppm` has the resolution `res` as its `-r` argument, and an answer 200
advertises, for the page count `n` that `pageCountPoppler` found, the file
`<base>.jpg` when `n` is 1 and the archive `<base>_images.zip` when `n` is
greater than 1, after the rename or the archiving that produces it. -/
def jpgOutcome (env : Env) (r : Request) (hdr : FileHeader) (res : Int)
    (out : Response × List Event) : Prop :=
  let jobID := env.NewString []
  let dir := Join [baseWorkDir, jobID]
  let inputPath := Join [dir, "input.pdf".toList]
  let imagesDir := Join [dir, "images".toList]
  let baseName := baseNameWithoutExt hdr.Filename
  (∀ d n a, Event.run d n a ∈ out.2 → n = "pdftoppm".toList →
    a = ["-jpeg".toList, "-r".toList, Itoa res, inputPath, Join [imagesDir, "page".toList]]) ∧
  (out.1.status = 200 →
    ∃ n : Int, 1 ≤ n ∧
      (pageCountPoppler env [Event.newUUID jobID, Event.mkdirAll dir 0o755,
        Event.saveUpload hdr inputPath] dir inputPath).1 = PageCount.ok n ∧
      Event.run dir "pdftoppm".toList
        ["-jpeg".toList, "-r".toList, Itoa res, inputPath, Join [imagesDir, "page".toList]]
        ∈ out.2 ∧
      (n = 1 →
        out.1.body = Body.downloadUrl (buildDownloadURL r jobID (baseName ++ ".jpg".toList)) ∧
        ∃ jpg, Event.rename jpg (Join [dir, baseName ++ ".jpg".toList]) ∈ out.2) ∧
      (1 < n →
        out.1.body =
          Body.downloadUrl (buildDownloadURL r jobID (baseName ++ "_images.zip".toList)) ∧
        Event.zipDir imagesDir (Join [dir, baseName ++ "_images.zip".toList]) ∈ out.2))

/-- The lazy-render shape of a cleaned path, in the words of the interface:
at least three segments, the second equal to `previews`, the last equal to
`page-<n>.png` where `<n>` is a decimal form of the positive integer `n`. The
job is the first segment. -/
def lazyShape (clean jobID : GoString) (n : Int) : Prop :=
  3 ≤ (Split clean Separator).length ∧
  (Split clean Separator).get? 1 = some "previews".toList ∧
  (Split clean Separator).head? = some jobID ∧
  0 < n ∧
  ∃ numeral : GoString, decimalValue numeral = some n ∧
    (Split clean Separator).getLast? = some ("page-".toList ++ numeral ++ ".png".toList)

/-- The single rendering run of `servePreview` for page `n` of job `jobID`. -/
def lazyRun (jobID : GoString) (n : Int) : GoString × List GoString :=
  ("pdftoppm".toList,
    ["-png".toList, "-r".toList, "110".toList, "-f".toList, Itoa n, "-l".toList, Itoa n,
      Join [Join [baseWorkDir, jobID], "input.pdf".toList],
      Join [Join [Join [baseWorkDir, jobID], "previews".toList], "page".toList]])

/-- A job identifier as it stands in a URL path: not empty, without separator
and without dot. The identifiers that `uuid.NewString` prints consist of
hexadecimal digits and hyphens. -/
def jobName (s : GoString) : Prop :=
  s ≠ [] ∧ Separator ∉ s ∧ '.' ∉ s

/-- The path of the image URL of page `i` of job `jobID`. -/
def previewPath (jobID : GoString) (i : Int) : GoString :=
  "/previews/".toList ++ jobID ++ "/previews/page-".toList ++ Itoa i ++ ".png".toList

/-- The page references of a document of `k` pages, in the words of the
interface: the page numbers 1 to `k` in ascending order, each with the URL
`base/previews/<jobID>/previews/page-<i>.png` of its image. -/
def previewRefs (base jobID : GoString) (k : Nat) : List (Int × GoString) :=
  (List.range k).map
    (fun (j : Nat) => ((j : Int) + 1, base ++ previewPath jobID ((j : Int) + 1)))

/-- The largest page count for which `handlePreview` can allocate its list
of page references: the largest `n` with `24 * n` at most `maxAlloc`. -/
def maxPreviewPages : Int := 11728124029610

/-- The page count of a preview request for the upload `hdr`: the count that
`pdfinfo` reports for the saved upload, or, when `pdfinfo` gives none, the
count that `pdfcpu info` reports. -/
def previewCount (env : Env) (hdr : FileHeader) : Option Int :=
  let jobID := env.NewString []
  let dir := Join [baseWorkDir, jobID]
  let inPath := Join [dir, "input.pdf".toList]
  let tr0 := [Event.newUUID jobID, Event.mkdirAll dir 0o755, Event.saveUpload hdr inPath,
    Event.mkdirAll (Join [dir, "previews".toList]) 0o755]
  match (pageCountPoppler env tr0 dir inPath).1 with
  | PageCount.ok n => some n
  | _ =>
    match (pageCountPDF env (tr0 ++ [Event.run dir "pdfinfo".toList [inPath]]) dir inPath).1 with
    | PageCount.ok n => some n
    | _ => none

/-- The job directory, the saved upload and the directory of the previews of
a preview request for the upload `hdr` could be made. -/
def previewPrepared (env : Env) (hdr : FileHeader) : Prop :=
  let jobID := env.NewString []
  let dir := Join [baseWorkDir, jobID]
  let inPath := Join [dir, "input.pdf".toList]
  env.MkdirAll [Event.newUUID jobID] dir = true ∧
  env.saveUpload [Event.newUUID jobID, Event.mkdirAll dir 0o755] hdr inPath = true ∧
  env.MkdirAll [Event.newUUID jobID, Event.mkdirAll dir 0o755, Event.saveUpload hdr inPath]
    (Join [dir, "previews".toList]) = true

/-- The outcome of a preview request for the upload `hdr`: an answer 200
comes with a page count `total` of the request from 0 to `maxPreviewPages`
and carries the page references of a document of `total` pages. -/
def previewOutcome (env : Env) (r : Request) (hdr : FileHeader)
    (out : Response × List Event) : Prop :=
  out.1.status = 200 →
    ∃ total : Int, previewCount env hdr = some total ∧ 0 ≤ total ∧ total ≤ maxPreviewPages ∧
      out.1.body = Body.pages (previewRefs (inferBaseURL r) (env.NewString []) total.toNat)

/-- The arguments of the `convert` run that draws the areas `areas` as black
rectangles on the image `png` of width `w` and height `h`. -/
def drawArgs (env : Env) (png : GoString) (w h : Int) (areas : List RedactionArea) :
    List GoString :=
  [png, "-fill".toList, "black".toList] ++
    areas.flatMap (fun a => ["-draw".toList, drawCommand env w h a]) ++
    [png ++ ".tmp.png".toList]

/-- The areas `redactions` were drawn as far as their pages were rendered: for
every area whose page has an image among `pngFiles`, the calls `tr` contain a
`convert` run on that image that draws all areas of the page, this one among
them, as black rectangles, and the rename that puts the result in the place
of the image. -/
def areasDrawn (env : Env) (dir : GoString) (redactions : List RedactionArea)
    (pngFiles : List GoString) (tr : List Event) : Prop :=
  ∀ area ∈ redactions, ∀ png, findPagePNG env pngFiles area.Page = some png →
    ∃ w h : Int,
      Event.run dir "convert".toList
        (drawArgs env png w h (redactions.filter (fun rd => rd.Page = area.Page))) ∈ tr ∧
      Event.rename (png ++ ".tmp.png".toList) png ∈ tr ∧
      ["-draw".toList, drawCommand env w h area] <:+:
        drawArgs env png w h (redactions.filter (fun rd => rd.Page = area.Page))

/-- The outcome of a redaction request: the `redactions` value parsed to
`redactions`, the rendering left the images `found`, and the areas were drawn
as far as their pages were rendered. -/
def redactOutcome (env : Env) (r : Request) (out : Response × List Event) : Prop :=
  ∃ (redactions : List RedactionArea) (hdr : FileHeader) (found : List GoString),
    env.unmarshalRedactions (TrimSpace (r.FormValue "redactions".toList)) = some redactions ∧
    r.FormFile "file".toList = some hdr ∧
    env.Glob
      [Event.newUUID (env.NewString []),
        Event.mkdirAll (Join [baseWorkDir, env.NewString []]) 0o755,
        Event.saveUpload hdr (Join [Join [baseWorkDir, env.NewString []], "input.pdf".toList]),
        Event.run (Join [baseWorkDir, env.NewString []]) "pdftoppm".toList
          ["-png".toList, "-r".toList, "300".toList,
            Join [Join [baseWorkDir, env.NewString []], "input.pdf".toList],
            Join [Join [baseWorkDir, env.NewString []], "page".toList]]]
      (Join [Join [baseWorkDir, env.NewString []], "page-*.png".toList]) = some found ∧
    areasDrawn env (Join [baseWorkDir, env.NewString []]) redactions (sortStrings found) out.2

/-- A plain file name: not empty, without separator, not starting with a dot. -/
def plainName (name : GoString) : Prop :=
  name ≠ [] ∧ Separator ∉ name ∧ name.head? ≠ some '.'

/-! ## Facts about the string routines -/

theorem mem_of_mem_TrimSpace {c : Char} {s : GoString} (h : c ∈ TrimSpace s) : c ∈ s := by
  unfold TrimSpace at h
  exact (List.dropWhile_sublist _).subset
    ((List.rdropWhile_prefix isSpace (s.dropWhile isSpace)).subset h)

theorem mem_ReplaceAll {c old : Char} {new s : GoString}
    (h : c ∈ ReplaceAll s old new) : (c ∈ s ∧ c ≠ old) ∨ c ∈ new := by
  unfold ReplaceAll at h
  rw [List.mem_flatMap] at h
  obtain ⟨a, ha, hc⟩ := h
  by_cases hao : a = old
  · rw [if_pos hao] at hc
    exact Or.inr hc
  · rw [if_neg hao] at hc
    rw [List.mem_singleton] at hc
    subst hc
    exact Or.inl ⟨ha, hao⟩

theorem ReplaceAll_of_not_mem {old : Char} {new s : GoString} (h : old ∉ s) :
    ReplaceAll s old new = s := by
  induction s with
  | nil => rfl
  | cons a t ih =>
    have hne : a ≠ old := fun e => h (by simp [e])
    have ht : old ∉ t := fun e => h (List.mem_cons_of_mem _ e)
    have := ih ht
    unfold ReplaceAll at this ⊢
    simp [List.flatMap_cons, hne, this]

theorem dropWhile_isSpace_of_head {s : GoString}
    (h : ∀ c, s.head? = some c → isSpace c = false) : s.dropWhile isSpace = s := by
  cases s with
  | nil => rfl
  | cons a t =>
    have := h a rfl
    simp [List.dropWhile_cons, this]

theorem rdropWhile_of_getLast {p : Char → Bool} {s : List Char}
    (h : ∀ c, s.getLast? = some c → p c = false) : s.rdropWhile p = s := by
  unfold List.rdropWhile
  have : s.reverse.dropWhile p = s.reverse := by
    cases hs : s.reverse with
    | nil => rfl
    | cons a t =>
      have ha : s.getLast? = some a := by
        rw [List.getLast?_eq_head?_reverse, hs]; rfl
      simp [List.dropWhile_cons, h a ha]
  rw [this, List.reverse_reverse]

theorem TrimSpace_of_trimmed {s : GoString}
    (h1 : ∀ c, s.head? = some c → isSpace c = false)
    (h2 : ∀ c, s.getLast? = some c → isSpace c = false) : TrimSpace s = s := by
  unfold TrimSpace
  rw [dropWhile_isSpace_of_head h1, rdropWhile_of_getLast h2]

theorem dropWhile_isSpace_append_sep (pre rest : GoString) :
    (pre ++ Separator :: rest).dropWhile isSpace
      = pre.dropWhile isSpace ++ Separator :: rest := by
  induction pre with
  | nil =>
    have : isSpace Separator = false := by decide
    simp [List.dropWhile_cons, this]
  | cons a t ih =>
    by_cases ha : isSpace a = true
    · simp [List.dropWhile_cons, ha, ih]
    · simp [List.dropWhile_cons, ha]

theorem getLast?_cons_of_ne_nil (a : Char) {base : List Char} (hb : base ≠ []) :
    (a :: base).getLast? = base.getLast? := by
  cases base with
  | nil => exact absurd rfl hb
  | cons b t => rfl

theorem getLast?_append_cons_of_ne_nil (pre : List Char) (a : Char) {base : List Char}
    (hb : base ≠ []) : (pre ++ a :: base).getLast? = base.getLast? := by
  rw [List.getLast?_append, getLast?_cons_of_ne_nil a hb]
  cases h : base.getLast? with
  | none => exact absurd (List.getLast?_eq_none_iff.mp h) hb
  | some x => rfl

theorem Base_append_sep {pre base : GoString} (hb : base ≠ [])
    (hs : Separator ∉ base) : Base (pre ++ Separator :: base) = base := by
  have hlast : ∀ c, (pre ++ Separator :: base).getLast? = some c →
      (fun c => c == Separator) c = false := by
    intro c hc
    rw [getLast?_append_cons_of_ne_nil pre Separator hb] at hc
    have hmem : c ∈ base := List.mem_of_getLast?_eq_some hc
    have : c ≠ Separator := fun e => hs (e ▸ hmem)
    simpa using this
  have htake : (base.reverse ++ Separator :: pre.reverse).takeWhile
      (fun c => c != Separator) = base.reverse := by
    rw [List.takeWhile_append_of_pos]
    · simp [List.takeWhile_cons]
    · intro c hc
      have hmem : c ∈ base := List.mem_reverse.mp hc
      have : c ≠ Separator := fun e => hs (e ▸ hmem)
      simpa using this
  unfold Base
  rw [if_neg (by simp)]
  simp only [rdropWhile_of_getLast hlast]
  rw [List.reverse_append, List.reverse_cons, List.append_assoc, List.singleton_append,
    htake, List.reverse_reverse, if_neg hb]

/-! ## `sanitizeFilename` -/

/-- The value `sanitizeFilename` computes before its final emptiness test. -/
theorem sanitizeFilename_eq (name : GoString) :
    sanitizeFilename name =
      if TrimSpace (ReplaceAll (ReplaceAll (Base (TrimSpace name)) '/' ['_']) backslash ['_']) = []
      then "file".toList
      else TrimSpace (ReplaceAll (ReplaceAll (Base (TrimSpace name)) '/' ['_']) backslash ['_']) :=
  rfl

theorem sanitizeFilename_ne_nil (name : GoString) : sanitizeFilename name ≠ [] := by
  rw [sanitizeFilename_eq]
  split
  · decide
  · assumption

theorem not_mem_sanitizeFilename (name : GoString) {c : Char}
    (hc : c = '/' ∨ c = backslash) : c ∉ sanitizeFilename name := by
  rw [sanitizeFilename_eq]
  split
  · rcases hc with rfl | rfl <;> decide
  · intro h
    rcases mem_ReplaceAll (mem_of_mem_TrimSpace h) with ⟨h1, hne⟩ | h1
    · rcases mem_ReplaceAll h1 with ⟨_, hne2⟩ | h2
      · rcases hc with rfl | rfl
        · exact hne2 rfl
        · exact hne rfl
      · rcases hc with rfl | rfl
        · revert h2; decide
        · revert h2; decide
    · rcases hc with rfl | rfl
      · revert h1; decide
      · revert h1; decide

/-- Claim C6. For every input, `sanitizeFilename` returns a non-empty string that
contains neither a slash nor a backslash; and for an input `pre ++ "/" ++ base`
whose `base` is non-empty, has no separator and neither starts nor ends with
white space, it returns `base`: the leading path segments are stripped. -/
theorem sanitizeFilename_safe_and_strips :
    (∀ name : GoString,
        sanitizeFilename name ≠ [] ∧ '/' ∉ sanitizeFilename name ∧
          backslash ∉ sanitizeFilename name) ∧
    (∀ pre base : GoString, base ≠ [] → '/' ∉ base → backslash ∉ base →
        (∀ c, base.head? = some c → isSpace c = false) →
        (∀ c, base.getLast? = some c → isSpace c = false) →
        sanitizeFilename (pre ++ '/' :: base) = base) := by
  refine ⟨fun name => ⟨sanitizeFilename_ne_nil name,
    not_mem_sanitizeFilename name (Or.inl rfl),
    not_mem_sanitizeFilename name (Or.inr rfl)⟩, ?_⟩
  intro pre base hb hs hbs hh hl
  have htrim : TrimSpace (pre ++ '/' :: base) = pre.dropWhile isSpace ++ '/' :: base := by
    unfold TrimSpace
    rw [show pre ++ '/' :: base = pre ++ Separator :: base from rfl,
      dropWhile_isSpace_append_sep]
    apply rdropWhile_of_getLast
    intro c hc
    rw [getLast?_append_cons_of_ne_nil _ _ hb] at hc
    exact hl c hc
  have hbase : Base (pre.dropWhile isSpace ++ '/' :: base) = base := Base_append_sep hb hs
  rw [sanitizeFilename_eq, htrim, hbase, ReplaceAll_of_not_mem hs, ReplaceAll_of_not_mem hbs,
    TrimSpace_of_trimmed hh hl, if_neg hb]

/-- Witness for C6: the directory part of `../../etc/passwd` is stripped. -/
theorem sanitizeFilename_safe_and_strips_witness :
    sanitizeFilename "../../etc/passwd".toList = "passwd".toList :=
  sanitizeFilename_safe_and_strips.2 "../../etc".toList "passwd".toList
    (by decide) (by decide) (by decide) (by decide) (by decide)

/-- Claim C7, failing input. On the empty name and on a name of one blank,
`sanitizeFilename` returns `"."`, not the default `"file"`: `filepath.Base`
turns the trimmed empty string into `"."` before the emptiness test. -/
theorem sanitizeFilename_blank_is_dot :
    sanitizeFilename [] = ".".toList ∧ sanitizeFilename " ".toList = ".".toList ∧
      sanitizeFilename [] ≠ "file".toList := by
  decide

/-- Claim C5, failing input. For the upload name `...` the result of
`baseNameWithoutExt` is `..`, and joining it to a job directory, as is done for
the output prefix given to `pdftohtml`, resolves to the parent of that
directory, the work root, which is not inside the job directory. -/
theorem baseNameWithoutExt_three_dots :
    baseNameWithoutExt "...".toList = "..".toList ∧
      Join [Join [baseWorkDir, sampleJob], baseNameWithoutExt "...".toList] = baseWorkDir ∧
      liesUnder (Join [baseWorkDir, sampleJob]) baseWorkDir = false := by
  decide

/-! ## Substrings and path cleaning -/

theorem Contains_iff_sub (s sub : GoString) : Contains s sub = true ↔ sub <:+: s := by
  induction s with
  | nil => simp [Contains, List.isEmpty_iff]
  | cons c t ih =>
    rw [Contains, Bool.or_eq_true, ih, List.isPrefixOf_iff_prefix, List.infix_cons_iff]

theorem mem_intersperse_of_mem {α : Type} (sep : α) {x : α} :
    ∀ {l : List α}, x ∈ l → x ∈ l.intersperse sep
  | [_], h => by simpa using h
  | a :: b :: t, h => by
    rw [List.intersperse_cons_cons]
    rcases List.mem_cons.mp h with rfl | h
    · exact List.mem_cons_self _ _
    · exact List.mem_cons_of_mem _ (List.mem_cons_of_mem _ (mem_intersperse_of_mem sep h))

theorem infix_of_mem_Split {x s : GoString} {sep : Char} (h : x ∈ Split s sep) : x <:+: s := by
  have hs : [sep].intercalate (s.splitOn sep) = s := List.intercalate_splitOn s sep
  rw [← hs]
  unfold List.intercalate
  exact List.infix_of_mem_flatten (mem_intersperse_of_mem [sep] h)

/-- The two-character string `..`. -/
theorem dotdot_eq : "..".toList = ['.', '.'] := rfl

theorem noDotDot_append_sep {a b : GoString} (ha : ¬ ['.', '.'] <:+: a)
    (hb : ¬ ['.', '.'] <:+: b) : ¬ ['.', '.'] <:+: a ++ Separator :: b := by
  induction a with
  | nil =>
    intro h
    rcases List.infix_cons_iff.mp h with h | h
    · rw [List.cons_prefix_cons] at h
      exact absurd h.1 (by decide)
    · exact hb h
  | cons x t ih =>
    intro h
    rw [List.cons_append] at h
    rcases List.infix_cons_iff.mp h with h | h
    · rw [List.cons_prefix_cons] at h
      obtain ⟨hx, h2⟩ := h
      cases t with
      | nil =>
        rw [List.nil_append, List.cons_prefix_cons] at h2
        exact absurd h2.1 (by decide)
      | cons y t2 =>
        rw [List.cons_append, List.cons_prefix_cons] at h2
        apply ha
        apply List.IsPrefix.isInfix
        rw [List.cons_prefix_cons]
        refine ⟨hx, ?_⟩
        rw [List.cons_prefix_cons]
        exact ⟨h2.1, List.nil_prefix⟩
    · exact ih (fun h3 => ha (List.infix_cons h3)) h

theorem cleanLoop_rooted_noDotDot (fuel : Nat) :
    ∀ (rest out : List Char) (dotdot : Nat), 2 ≤ out.length →
      ¬ ['.', '.'] <:+: rest → ¬ ['.', '.'] <:+: out →
      ∃ ext, cleanLoop true fuel rest out dotdot = out ++ ext ∧
        (ext = [] ∨ ext.head? = some Separator) ∧ ¬ ['.', '.'] <:+: out ++ ext := by
  induction fuel with
  | zero =>
    intro rest out dotdot _ _ ho
    exact ⟨[], by simp [cleanLoop], Or.inl rfl, by simpa using ho⟩
  | succ n ih =>
    intro rest out dotdot hlen hr ho
    cases rest with
    | nil => exact ⟨[], by simp [cleanLoop], Or.inl rfl, by simpa using ho⟩
    | cons c t =>
      have ht : ¬ ['.', '.'] <:+: t := fun h => hr (List.infix_cons h)
      rw [cleanLoop]
      split
      · exact ih t out dotdot hlen ht ho
      · split
        · exact ih t out dotdot hlen ht ho
        · split
          · rename_i h3
            exfalso
            apply hr
            obtain ⟨hc, hh, _⟩ := h3
            cases t with
            | nil => simp at hh
            | cons y t2 =>
              simp only [List.head?_cons, Option.some.injEq] at hh
              subst hc hh
              exact List.IsPrefix.isInfix ⟨t2, rfl⟩
          · rename_i hsep _ _
            have hne : out.length ≠ 1 := by omega
            simp only [hne, ne_eq, not_false_eq_true, and_self, true_or, if_true]
            have hel : ¬ ['.', '.'] <:+: (c :: t).takeWhile (fun x => x != Separator) :=
              fun h => hr (h.trans (List.takeWhile_prefix _).isInfix)
            have hdr : ¬ ['.', '.'] <:+: (c :: t).dropWhile (fun x => x != Separator) :=
              fun h => hr (h.trans (List.dropWhile_suffix _).isInfix)
            have ho2 : ¬ ['.', '.'] <:+:
                out ++ Separator :: (c :: t).takeWhile (fun x => x != Separator) :=
              noDotDot_append_sep ho hel
            obtain ⟨ext, he, _, hnd⟩ := ih ((c :: t).dropWhile (fun x => x != Separator))
              (out ++ [Separator] ++ (c :: t).takeWhile (fun x => x != Separator)) dotdot
              (by simp; omega) hdr (by simpa using ho2)
            refine ⟨Separator :: (c :: t).takeWhile (fun x => x != Separator) ++ ext, ?_,
              Or.inr rfl, ?_⟩
            · rw [he]; simp
            · simpa using hnd
theorem length_dropWhile_le {α : Type} (p : α → Bool) (l : List α) :
    (l.dropWhile p).length ≤ l.length :=
  (List.dropWhile_suffix p).length_le

/-- The loop of `Clean` does not depend on the fuel once the fuel covers the
rest of the path: with `fuel = len(path)` the loop runs to the end of the path. -/
theorem cleanLoop_fuel (rooted : Bool) (f1 : Nat) :
    ∀ (f2 : Nat) (rest out : List Char) (dotdot : Nat),
      rest.length ≤ f1 → rest.length ≤ f2 →
      cleanLoop rooted f1 rest out dotdot = cleanLoop rooted f2 rest out dotdot := by
  induction f1 with
  | zero =>
    intro f2 rest out dotdot h1 _
    have : rest = [] := List.length_eq_zero.mp (Nat.le_zero.mp h1)
    subst this
    cases f2 <;> simp [cleanLoop]
  | succ n ih =>
    intro f2 rest out dotdot h1 h2
    cases rest with
    | nil => cases f2 <;> simp [cleanLoop]
    | cons c t =>
      cases f2 with
      | zero => simp at h2
      | succ m =>
        simp only [List.length_cons, Nat.add_le_add_iff_right] at h1 h2
        have htl : t.tail.length ≤ t.length := by simp
        rw [cleanLoop, cleanLoop]
        split
        · exact ih m t out dotdot h1 h2
        · rename_i hc
          split
          · exact ih m t out dotdot h1 h2
          · split
            · split
              · exact ih m _ _ _ (by omega) (by omega)
              · split
                · exact ih m _ _ _ (by omega) (by omega)
                · exact ih m _ _ _ (by omega) (by omega)
            · have hdrop : ((c :: t).dropWhile (fun x => x != Separator)).length ≤ t.length := by
                rw [List.dropWhile_cons_of_pos (by simpa using hc)]
                exact length_dropWhile_le _ _
              exact ih m _ _ _ (by omega) (by omega)

theorem cleanLoop_base_steps (n : Nat) (c : GoString) :
    cleanLoop true (n + 3)
        ('a' :: 'p' :: 'p' :: '/' :: 'w' :: 'o' :: 'r' :: 'k' :: '/' :: c) [Separator] 1
      = cleanLoop true n (Separator :: c) baseWorkDir 1 := by
  rfl

theorem Join_base_eq (c : GoString) :
    Join [baseWorkDir, c] =
      if cleanLoop true (c.length + 7) (Separator :: c) baseWorkDir 1 = [] then ['.']
      else cleanLoop true (c.length + 7) (Separator :: c) baseWorkDir 1 := by
  have h1 : Join [baseWorkDir, c] = Clean (baseWorkDir ++ Separator :: c) := rfl
  have h2 : baseWorkDir ++ Separator :: c =
      '/' :: 'a' :: 'p' :: 'p' :: '/' :: 'w' :: 'o' :: 'r' :: 'k' :: '/' :: c := rfl
  rw [h1, h2]
  unfold Clean
  rw [if_neg (List.cons_ne_nil _ _)]
  have h3 : (('/' :: 'a' :: 'p' :: 'p' :: '/' :: 'w' :: 'o' :: 'r' :: 'k' :: '/' :: c).head?
      = some Separator) := rfl
  simp only [h3, decide_True, if_true, List.tail_cons, List.length_cons]
  have h4 : c.length + 1 + 1 + 1 + 1 + 1 + 1 + 1 + 1 + 1 + 1 = (c.length + 7) + 3 := by omega
  rw [h4, cleanLoop_base_steps]

/-- Joining the work root with a path that has no `..` in it gives the work
root followed by nothing or by a slash and more, with no `..` in it. -/
theorem Join_base_noDotDot {c : GoString} (hc : Contains c "..".toList = false) :
    ∃ ext, Join [baseWorkDir, c] = baseWorkDir ++ ext ∧
      (ext = [] ∨ ext.head? = some Separator) ∧
      ¬ ['.', '.'] <:+: Join [baseWorkDir, c] := by
  have hc2 : ¬ ['.', '.'] <:+: c := by
    intro h
    have := (Contains_iff_sub c "..".toList).mpr h
    rw [hc] at this
    exact Bool.noConfusion this
  have hr : ¬ ['.', '.'] <:+: Separator :: c := by
    intro h
    rcases List.infix_cons_iff.mp h with h | h
    · rw [List.cons_prefix_cons] at h
      exact absurd h.1 (by decide)
    · exact hc2 h
  obtain ⟨ext, he, hhead, hnd⟩ :=
    cleanLoop_rooted_noDotDot (c.length + 7) (Separator :: c) baseWorkDir 1
      (by decide) hr (by decide)
  have hne : cleanLoop true (c.length + 7) (Separator :: c) baseWorkDir 1 ≠ [] := by
    rw [he]
    intro h
    have := congrArg List.length h
    simp [baseWorkDir] at this
  rw [Join_base_eq, if_neg hne, he]
  exact ⟨ext, rfl, hhead, hnd⟩

theorem Join_base_safe {c : GoString} (hc : Contains c "..".toList = false) :
    hasDotDotSegment (Join [baseWorkDir, c]) = false ∧
      liesUnder baseWorkDir (Join [baseWorkDir, c]) = true := by
  obtain ⟨ext, he, hhead, hnd⟩ := Join_base_noDotDot hc
  constructor
  · rw [Bool.eq_false_iff]
    intro h
    unfold hasDotDotSegment at h
    have hm : "..".toList ∈ Split (Join [baseWorkDir, c]) Separator := by
      simpa using h
    exact hnd (infix_of_mem_Split hm)
  · unfold liesUnder
    rw [he, Bool.or_eq_true]
    rcases hhead with rfl | hh
    · left; simp
    · right
      cases ext with
      | nil => simp at hh
      | cons x t =>
        simp only [List.head?_cons, Option.some.injEq] at hh
        subst hh
        rw [List.isPrefixOf_iff_prefix]
        exact ⟨t, by simp⟩

theorem serveDownload_forbidden (env : Env) (r : Request)
    (h : Contains (Clean (TrimPrefix r.URLPath "/downloads/".toList)) "..".toList = true) :
    serveDownload env r = (httpError "forbidden".toList 403, []) := by
  unfold serveDownload
  simp only [h, if_true]

theorem serveDownload_reads (env : Env) (r : Request)
    (h : Contains (Clean (TrimPrefix r.URLPath "/downloads/".toList)) "..".toList = false) :
    ∀ e ∈ (serveDownload env r).2, ∀ p, e.readPath = some p →
      p = Join [baseWorkDir, Clean (TrimPrefix r.URLPath "/downloads/".toList)] := by
  intro e he p hp
  unfold serveDownload at he
  simp only [h, osStat, Bool.false_eq_true, if_false] at he
  generalize Join [baseWorkDir, Clean (TrimPrefix r.URLPath "/downloads/".toList)] = full
    at he ⊢
  cases hst : env.Stat [] full with
  | none =>
    rw [hst] at he
    simp at he
    subst he
    simpa [Event.readPath] using hp.symm
  | some fi =>
    rw [hst] at he
    simp only at he
    split at he
    · simp at he
      subst he
      simpa [Event.readPath] using hp.symm
    · simp at he
      rcases he with rfl | rfl <;> simpa [Event.readPath] using hp.symm

theorem servePreview_forbidden (env : Env) (r : Request)
    (h : Contains (Clean (TrimPrefix r.URLPath "/previews/".toList)) "..".toList = true) :
    servePreview env r = (httpError "forbidden".toList 403, []) := by
  unfold servePreview
  simp only [h, if_true]

theorem servePreview_reads (env : Env) (r : Request)
    (h : Contains (Clean (TrimPrefix r.URLPath "/previews/".toList)) "..".toList = false) :
    ∀ e ∈ (servePreview env r).2, ∀ p, e.readPath = some p →
      p = Join [baseWorkDir, Clean (TrimPrefix r.URLPath "/previews/".toList)] := by
  intro e he p hp
  unfold servePreview at he
  simp only [h, osStat, runCommandOutput, Bool.false_eq_true, if_false] at he
  generalize Join [baseWorkDir, Clean (TrimPrefix r.URLPath "/previews/".toList)] = full
    at he ⊢
  split at he
  · split at he
    · rename_i jobID n _
      split at he
      · rename_i tr heq
        simp only [Prod.mk.injEq] at heq
        rw [← heq.2] at he
        simp at he
        rcases he with rfl | rfl | rfl
        · exact (Option.some.inj hp).symm
        · exact absurd hp (by simp [Event.readPath])
        · exact absurd hp (by simp [Event.readPath])
      · rename_i v tr heq
        simp only [Prod.mk.injEq] at heq
        rw [← heq.2] at he
        split at he
        · simp at he
          rcases he with rfl | rfl | rfl | rfl
          · exact (Option.some.inj hp).symm
          · exact absurd hp (by simp [Event.readPath])
          · exact absurd hp (by simp [Event.readPath])
          · exact (Option.some.inj hp).symm
        · simp at he
          rcases he with rfl | rfl | rfl | rfl | rfl
          · exact (Option.some.inj hp).symm
          · exact absurd hp (by simp [Event.readPath])
          · exact absurd hp (by simp [Event.readPath])
          · exact (Option.some.inj hp).symm
          · exact (Option.some.inj hp).symm
    · simp at he
      subst he
      simpa [Event.readPath] using hp.symm
  · simp at he
    rcases he with rfl | rfl <;> simpa [Event.readPath] using hp.symm

/-! ## The artifact server: traversal guard -/

/-- Claim C1. For every request path given to `serveDownload` or `servePreview`:
if the cleaned remainder after the prefix contains `..`, the response is 403
and no system call is made, so no file is read; otherwise every path given to
`os.Stat` or `http.ServeFile` is `filepath.Join(baseWorkDir, clean)`, which has
no `..` segment and lies under `baseWorkDir`. In particular the remainder
`../../etc/passwd` is answered with 403. -/
theorem serve_traversal_guard (env : Env) (r : Request) :
    (Contains (Clean (TrimPrefix r.URLPath "/downloads/".toList)) "..".toList = true →
      serveDownload env r = (httpError "forbidden".toList 403, [])) ∧
    (Contains (Clean (TrimPrefix r.URLPath "/downloads/".toList)) "..".toList = false →
      (∀ e ∈ (serveDownload env r).2, ∀ p, e.readPath = some p →
        p = Join [baseWorkDir, Clean (TrimPrefix r.URLPath "/downloads/".toList)]) ∧
      hasDotDotSegment
        (Join [baseWorkDir, Clean (TrimPrefix r.URLPath "/downloads/".toList)]) = false ∧
      liesUnder baseWorkDir
        (Join [baseWorkDir, Clean (TrimPrefix r.URLPath "/downloads/".toList)]) = true) ∧
    (Contains (Clean (TrimPrefix r.URLPath "/previews/".toList)) "..".toList = true →
      servePreview env r = (httpError "forbidden".toList 403, [])) ∧
    (Contains (Clean (TrimPrefix r.URLPath "/previews/".toList)) "..".toList = false →
      (∀ e ∈ (servePreview env r).2, ∀ p, e.readPath = some p →
        p = Join [baseWorkDir, Clean (TrimPrefix r.URLPath "/previews/".toList)]) ∧
      hasDotDotSegment
        (Join [baseWorkDir, Clean (TrimPrefix r.URLPath "/previews/".toList)]) = false ∧
      liesUnder baseWorkDir
        (Join [baseWorkDir, Clean (TrimPrefix r.URLPath "/previews/".toList)]) = true) ∧
    (r.URLPath = "/downloads/../../etc/passwd".toList →
      serveDownload env r = (httpError "forbidden".toList 403, [])) ∧
    (r.URLPath = "/previews/../../etc/passwd".toList →
      servePreview env r = (httpError "forbidden".toList 403, [])) := by
  refine ⟨serveDownload_forbidden env r,
    fun h => ⟨serveDownload_reads env r h, Join_base_safe h⟩,
    servePreview_forbidden env r,
    fun h => ⟨servePreview_reads env r h, Join_base_safe h⟩, ?_, ?_⟩
  · intro h
    apply serveDownload_forbidden
    rw [h]
    decide
  · intro h
    apply servePreview_forbidden
    rw [h]
    decide

/-- Witness for C1: the traversal request is refused without touching the file
system, and the download of a job's `output.pdf` resolves inside the work root. -/
theorem serve_traversal_guard_witness :
    serveDownload (okEnv fun _ => none) (getRequest "/downloads/../../etc/passwd".toList)
        = (httpError "forbidden".toList 403, []) ∧
      servePreview (okEnv fun _ => none) (getRequest "/previews/../../etc/passwd".toList)
        = (httpError "forbidden".toList 403, []) ∧
      hasDotDotSegment (Join [baseWorkDir, Clean (TrimPrefix
        (getRequest "/downloads/job/output.pdf".toList).URLPath "/downloads/".toList)]) = false ∧
      liesUnder baseWorkDir (Join [baseWorkDir, Clean (TrimPrefix
        (getRequest "/downloads/job/output.pdf".toList).URLPath "/downloads/".toList)]) = true :=
  ⟨(serve_traversal_guard _ _).2.2.2.2.1 rfl,
    (serve_traversal_guard _ _).2.2.2.2.2 rfl,
    ((serve_traversal_guard (okEnv fun _ => none)
      (getRequest "/downloads/job/output.pdf".toList)).2.1 (by decide)).2⟩

/-! ## The rotate operation -/

theorem newJobDir_snd (env : Env) (tr : List Event) :
    (newJobDir env tr).2 = tr ++ [Event.newUUID (env.NewString tr),
      Event.mkdirAll (Join [baseWorkDir, env.NewString tr]) 0o755] := by
  simp only [newJobDir]
  split <;> simp

theorem newJobDir_some {env : Env} {tr : List Event} {jobID dir : GoString}
    (h : (newJobDir env tr).1 = some (jobID, dir)) :
    jobID = env.NewString tr ∧ dir = Join [baseWorkDir, env.NewString tr] ∧
      env.MkdirAll (tr ++ [Event.newUUID (env.NewString tr)])
        (Join [baseWorkDir, env.NewString tr]) = true := by
  simp only [newJobDir] at h
  split at h
  · rename_i hmk
    simp only [Option.some.injEq, Prod.mk.injEq] at h
    exact ⟨h.1.symm, h.2.symm, hmk⟩
  · simp at h

theorem handleRotate_accepted (env : Env) (r : Request) (header : FileHeader)
    (hm : r.Method = "POST".toList) (hp : r.multipartOk = true)
    (hf : r.FormFile "file".toList = some header)
    (hd : parseIntDefault (r.FormValue "degrees".toList) 90 = 90 ∨
      parseIntDefault (r.FormValue "degrees".toList) 90 = 180 ∨
      parseIntDefault (r.FormValue "degrees".toList) 90 = 270) :
    (handleRotate env r).1.status ≠ 400 ∧
      (handleRotate env r).2 <+:
        rotateCalls env header (parseIntDefault (r.FormValue "degrees".toList) 90) ∧
      ((handleRotate env r).1.status = 200 →
        (handleRotate env r).2 =
          rotateCalls env header (parseIntDefault (r.FormValue "degrees".toList) 90)) := by
  unfold handleRotate
  rw [if_neg (by simp [hm]), if_neg (by simp [hp]), hf]
  simp only
  rw [if_neg (by omega)]
  have hsnd := newJobDir_snd env []
  rcases hj : newJobDir env [] with ⟨_ | ⟨jobID, dir⟩, tr1⟩
  · rw [hj] at hsnd
    simp only at hsnd
    subst hsnd
    exact ⟨by simp [errorJSON], by simp [rotateCalls], by simp [errorJSON]⟩
  · rw [hj] at hsnd
    simp only at hsnd
    obtain ⟨hid, hdir, -⟩ := newJobDir_some (congrArg Prod.fst hj)
    subst hsnd hid hdir
    simp only [saveUploadedFile, runCommand]
    cases env.saveUpload _ header _
    · exact ⟨by simp [errorJSON], by simp [rotateCalls], by simp [errorJSON]⟩
    · simp only
      cases (env.Run _ _ _ _).isSome
      · exact ⟨by simp [errorJSON], by simp [rotateCalls], by simp [errorJSON]⟩
      · exact ⟨by simp, by simp [rotateCalls], fun _ => by simp [rotateCalls]⟩

theorem handleRotate_rejected (env : Env) (r : Request) (header : FileHeader)
    (hm : r.Method = "POST".toList) (hp : r.multipartOk = true)
    (hf : r.FormFile "file".toList = some header)
    (hd : ¬ (parseIntDefault (r.FormValue "degrees".toList) 90 = 90 ∨
      parseIntDefault (r.FormValue "degrees".toList) 90 = 180 ∨
      parseIntDefault (r.FormValue "degrees".toList) 90 = 270)) :
    handleRotate env r = (errorJSON 400 "degrees must be 90, 180, or 270".toList, []) := by
  unfold handleRotate
  rw [if_neg (by simp [hm]), if_neg (by simp [hp]), hf]
  simp only
  rw [if_pos (by omega)]

theorem handleRotate_runs (env : Env) (r : Request) (header : FileHeader)
    (hm : r.Method = "POST".toList) (hp : r.multipartOk = true)
    (hf : r.FormFile "file".toList = some header)
    (hd : parseIntDefault (r.FormValue "degrees".toList) 90 = 90 ∨
      parseIntDefault (r.FormValue "degrees".toList) 90 = 180 ∨
      parseIntDefault (r.FormValue "degrees".toList) 90 = 270)
    (hmk : env.MkdirAll [Event.newUUID (env.NewString [])]
      (Join [baseWorkDir, env.NewString []]) = true)
    (hsave : env.saveUpload
      [Event.newUUID (env.NewString []),
        Event.mkdirAll (Join [baseWorkDir, env.NewString []]) 0o755]
      header (Join [Join [baseWorkDir, env.NewString []], "input.pdf".toList]) = true) :
    (handleRotate env r).2 =
      rotateCalls env header (parseIntDefault (r.FormValue "degrees".toList) 90) ∧
    (handleRotate env r).1 =
      if (env.Run
          [Event.newUUID (env.NewString []),
            Event.mkdirAll (Join [baseWorkDir, env.NewString []]) 0o755,
            Event.saveUpload header
              (Join [Join [baseWorkDir, env.NewString []], "input.pdf".toList])]
          (Join [baseWorkDir, env.NewString []]) "pdfcpu".toList
          ["rotate".toList, Join [Join [baseWorkDir, env.NewString []], "input.pdf".toList],
            Itoa (parseIntDefault (r.FormValue "degrees".toList) 90),
            Join [Join [baseWorkDir, env.NewString []], defaultFilename]]).isSome
      then ⟨200, Body.downloadUrl (buildDownloadURL r (env.NewString []) defaultFilename)⟩
      else errorJSON 500 "failed to rotate PDF".toList := by
  unfold handleRotate
  rw [if_neg (by simp [hm]), if_neg (by simp [hp]), hf]
  simp only
  rw [if_neg (by omega)]
  simp only [newJobDir, List.nil_append, List.singleton_append, List.cons_append, hmk, if_true,
    saveUploadedFile, hsave, runCommand, rotateCalls]
  cases (env.Run _ _ _ _).isSome <;> simp

/-- Claim C8. For a `POST` to the rotate operation with a parseable multipart body
and a `file` part, the response is 400 exactly when the parsed `degrees` value
is not one of 90, 180, 270; in that case no system call is made, so no job
directory is allocated and no tool is run. Otherwise the calls made are an
initial part of the calls of a successful rotation, all of them when the
answer is 200. When the job directory can be made and the upload can be saved,
the calls are all of them: the tool is run, as `pdfcpu rotate` with the decimal
form of the accepted angle between the input and the output path, and the
answer is 200 with the download URL when the run succeeds and 500 when it
fails. Every run of a tool that occurs is this run, and the decimal form of
the accepted angle is `90`, `180` or `270`. -/
theorem handleRotate_degrees (env : Env) (r : Request) (header : FileHeader)
    (hm : r.Method = "POST".toList) (hp : r.multipartOk = true)
    (hf : r.FormFile "file".toList = some header) :
    ((handleRotate env r).1.status = 400 ↔
      ¬ (parseIntDefault (r.FormValue "degrees".toList) 90 = 90 ∨
        parseIntDefault (r.FormValue "degrees".toList) 90 = 180 ∨
        parseIntDefault (r.FormValue "degrees".toList) 90 = 270)) ∧
    ((handleRotate env r).1.status = 400 → (handleRotate env r).2 = []) ∧
    ((parseIntDefault (r.FormValue "degrees".toList) 90 = 90 ∨
        parseIntDefault (r.FormValue "degrees".toList) 90 = 180 ∨
        parseIntDefault (r.FormValue "degrees".toList) 90 = 270) →
      (handleRotate env r).2 <+:
        rotateCalls env header (parseIntDefault (r.FormValue "degrees".toList) 90) ∧
      ((handleRotate env r).1.status = 200 → (handleRotate env r).2 =
        rotateCalls env header (parseIntDefault (r.FormValue "degrees".toList) 90)) ∧
      (env.MkdirAll [Event.newUUID (env.NewString [])]
          (Join [baseWorkDir, env.NewString []]) = true →
        env.saveUpload
          [Event.newUUID (env.NewString []),
            Event.mkdirAll (Join [baseWorkDir, env.NewString []]) 0o755]
          header (Join [Join [baseWorkDir, env.NewString []], "input.pdf".toList]) = true →
        (handleRotate env r).2 =
          rotateCalls env header (parseIntDefault (r.FormValue "degrees".toList) 90) ∧
        Event.run (Join [baseWorkDir, env.NewString []]) "pdfcpu".toList
          ["rotate".toList, Join [Join [baseWorkDir, env.NewString []], "input.pdf".toList],
            Itoa (parseIntDefault (r.FormValue "degrees".toList) 90),
            Join [Join [baseWorkDir, env.NewString []], defaultFilename]] ∈
          (handleRotate env r).2 ∧
        (handleRotate env r).1 =
          if (env.Run
              [Event.newUUID (env.NewString []),
                Event.mkdirAll (Join [baseWorkDir, env.NewString []]) 0o755,
                Event.saveUpload header
                  (Join [Join [baseWorkDir, env.NewString []], "input.pdf".toList])]
              (Join [baseWorkDir, env.NewString []]) "pdfcpu".toList
              ["rotate".toList,
                Join [Join [baseWorkDir, env.NewString []], "input.pdf".toList],
                Itoa (parseIntDefault (r.FormValue "degrees".toList) 90),
                Join [Join [baseWorkDir, env.NewString []], defaultFilename]]).isSome
          then ⟨200, Body.downloadUrl (buildDownloadURL r (env.NewString []) defaultFilename)⟩
          else errorJSON 500 "failed to rotate PDF".toList) ∧
      (∀ dir name args, Event.run dir name args ∈ (handleRotate env r).2 →
        name = "pdfcpu".toList ∧
        args = ["rotate".toList, Join [dir, "input.pdf".toList],
          Itoa (parseIntDefault (r.FormValue "degrees".toList) 90),
          Join [dir, defaultFilename]]) ∧
      (Itoa (parseIntDefault (r.FormValue "degrees".toList) 90) = "90".toList ∨
        Itoa (parseIntDefault (r.FormValue "degrees".toList) 90) = "180".toList ∨
        Itoa (parseIntDefault (r.FormValue "degrees".toList) 90) = "270".toList)) := by
  by_cases hd : parseIntDefault (r.FormValue "degrees".toList) 90 = 90 ∨
      parseIntDefault (r.FormValue "degrees".toList) 90 = 180 ∨
      parseIntDefault (r.FormValue "degrees".toList) 90 = 270
  · obtain ⟨h1, h2, h3⟩ := handleRotate_accepted env r header hm hp hf hd
    refine ⟨⟨fun h => absurd h h1, fun h => absurd hd h⟩, fun h => absurd h h1, fun _ =>
      ⟨h2, h3, ?_, ?_, ?_⟩⟩
    · intro hmk hsave
      obtain ⟨h4, h5⟩ := handleRotate_runs env r header hm hp hf hd hmk hsave
      refine ⟨h4, ?_, h5⟩
      rw [h4]
      simp [rotateCalls]
    · intro dir name args hmem
      have := h2.subset hmem
      simp only [rotateCalls, List.mem_cons, List.mem_singleton, List.not_mem_nil,
        or_false, Event.run.injEq, false_or, reduceCtorEq] at this
      obtain ⟨rfl, rfl, rfl⟩ := this
      exact ⟨rfl, rfl⟩
    · rcases hd with h | h | h <;> rw [h]
      · exact Or.inl (by decide)
      · exact Or.inr (Or.inl (by decide))
      · exact Or.inr (Or.inr (by decide))
  · have h := handleRotate_rejected env r header hm hp hf hd
    rw [h]
    exact ⟨⟨fun _ => hd, fun _ => rfl⟩, fun _ => rfl, fun h2 => absurd h2 hd⟩

/-- Witness for C8: 45 degrees is refused with 400 and no system call; 180
degrees is accepted, the tool is run with the argument `180`, and the answer
is 200. -/
theorem handleRotate_degrees_witness :
    ((handleRotate (okEnv fun _ => none)
      (postRequest [("degrees".toList, "45".toList)]
        [("file".toList, [⟨"a.pdf".toList, 0⟩])])).1.status = 400 ∧
    (handleRotate (okEnv fun _ => none)
      (postRequest [("degrees".toList, "45".toList)]
        [("file".toList, [⟨"a.pdf".toList, 0⟩])])).2 = []) ∧
    (handleRotate (okEnv fun _ => none)
      (postRequest [("degrees".toList, "180".toList)]
        [("file".toList, [⟨"a.pdf".toList, 0⟩])])).2 =
      [Event.newUUID sampleJob, Event.mkdirAll (Join [baseWorkDir, sampleJob]) 0o755,
        Event.saveUpload ⟨"a.pdf".toList, 0⟩ (Join [baseWorkDir, sampleJob, "input.pdf".toList]),
        Event.run (Join [baseWorkDir, sampleJob]) "pdfcpu".toList
          ["rotate".toList, Join [baseWorkDir, sampleJob, "input.pdf".toList], "180".toList,
            Join [baseWorkDir, sampleJob, "output.pdf".toList]]] ∧
    (handleRotate (okEnv fun _ => none)
      (postRequest [("degrees".toList, "180".toList)]
        [("file".toList, [⟨"a.pdf".toList, 0⟩])])).1 =
      ⟨200, Body.downloadUrl
        ("http://pdf.example/downloads/".toList ++ sampleJob ++ "/output.pdf".toList)⟩ :=
  have h := handleRotate_degrees (okEnv fun _ => none)
    (postRequest [("degrees".toList, "45".toList)] [("file".toList, [⟨"a.pdf".toList, 0⟩])])
    ⟨"a.pdf".toList, 0⟩ rfl rfl rfl
  have h2 := ((handleRotate_degrees (okEnv fun _ => none)
    (postRequest [("degrees".toList, "180".toList)] [("file".toList, [⟨"a.pdf".toList, 0⟩])])
    ⟨"a.pdf".toList, 0⟩ rfl rfl rfl).2.2 (by decide)).2.2.1 rfl rfl
  ⟨⟨h.1.mpr (by decide), h.2.1 (h.1.mpr (by decide))⟩, h2.1.trans (by decide),
    h2.2.2.trans (by decide)⟩

/-- Claim C9, counterexample. The `degrees` value `abc` is non-empty and not a
valid integer, yet `handleRotate` answers 200 and rotates by the default 90. -/
theorem handleRotate_malformed_not_400 :
    "abc".toList ≠ [] ∧ Atoi (TrimSpace "abc".toList) = none ∧
    handleRotate (okEnv fun _ => none)
      (postRequest [("degrees".toList, "abc".toList)]
        [("file".toList, [⟨"a.pdf".toList, 0⟩])])
      = (⟨200, Body.downloadUrl
          ("http://pdf.example/downloads/".toList ++ sampleJob ++ "/output.pdf".toList)⟩,
        rotateCalls (okEnv fun _ => none) ⟨"a.pdf".toList, 0⟩ 90) := by
  decide

theorem parseIntDefault_of_Atoi_none {s : GoString} (d : Int)
    (h : Atoi (TrimSpace s) = none) : parseIntDefault s d = d := by
  unfold parseIntDefault
  simp only [h]
  split <;> rfl

/-- Claim C9, amended. A malformed `degrees` value is replaced by the default:
for every `degrees` form value that is not a valid integer, `handleRotate`
(given a `POST` with a parseable body and a `file` part) proceeds as for 90
degrees; it does not answer 400, and every tool run is `pdfcpu rotate` with
the angle argument `90`. -/
theorem handleRotate_malformed_default (env : Env) (r : Request) (header : FileHeader)
    (hm : r.Method = "POST".toList) (hp : r.multipartOk = true)
    (hf : r.FormFile "file".toList = some header)
    (hbad : Atoi (TrimSpace (r.FormValue "degrees".toList)) = none) :
    parseIntDefault (r.FormValue "degrees".toList) 90 = 90 ∧
    (handleRotate env r).1.status ≠ 400 ∧
    (handleRotate env r).2 <+: rotateCalls env header 90 ∧
    (∀ dir name args, Event.run dir name args ∈ (handleRotate env r).2 →
      name = "pdfcpu".toList ∧
      args = ["rotate".toList, Join [dir, "input.pdf".toList], "90".toList,
        Join [dir, defaultFilename]]) := by
  have hd := parseIntDefault_of_Atoi_none 90 hbad
  obtain ⟨h1, h2, -⟩ := handleRotate_accepted env r header hm hp hf (Or.inl hd)
  rw [hd] at h2
  refine ⟨hd, h1, h2, ?_⟩
  intro dir name args hmem
  have := h2.subset hmem
  simp only [rotateCalls, List.mem_cons, List.mem_singleton, List.not_mem_nil,
    or_false, Event.run.injEq, false_or, reduceCtorEq] at this
  obtain ⟨rfl, rfl, rfl⟩ := this
  exact ⟨rfl, rfl⟩

/-- Witness for the amended C9, at the value `90.5`. -/
theorem handleRotate_malformed_default_witness :
    parseIntDefault ((postRequest [("degrees".toList, "90.5".toList)]
        [("file".toList, [⟨"a.pdf".toList, 0⟩])]).FormValue "degrees".toList) 90 = 90 ∧
    (handleRotate (okEnv fun _ => none)
      (postRequest [("degrees".toList, "90.5".toList)]
        [("file".toList, [⟨"a.pdf".toList, 0⟩])])).1.status ≠ 400 :=
  have h := handleRotate_malformed_default (okEnv fun _ => none)
    (postRequest [("degrees".toList, "90.5".toList)] [("file".toList, [⟨"a.pdf".toList, 0⟩])])
    ⟨"a.pdf".toList, 0⟩ rfl rfl rfl (by decide)
  ⟨h.1, h.2.1⟩

/-! ## The opacity clamp -/

theorem clampOpacity_eq (f : F64) :
    clampOpacity f =
      if F64.lt f F64.zero = true then F64.zero
      else if F64.lt F64.one f = true then F64.one else f := by
  unfold clampOpacity
  by_cases h : F64.lt f F64.zero = true
  · simp only [h, if_true]
    rfl
  · simp only [h, if_false, Bool.false_eq_true]

/-- Apart from NaN, every value is clamped into the interval from 0 to 1. -/
theorem clampOpacity_inUnit (f : F64) (h : f ≠ F64.nan) :
    F64.inUnit (clampOpacity f) = true := by
  rw [clampOpacity_eq]
  cases f with
  | nan => exact absurd rfl h
  | inf n => cases n <;> decide
  | fin n m e =>
    by_cases h1 : F64.lt (F64.fin n m e) F64.zero = true
    · rw [if_pos h1]; decide
    · rw [if_neg h1]
      by_cases h2 : F64.lt F64.one (F64.fin n m e) = true
      · rw [if_pos h2]; decide
      · rw [if_neg h2]
        simp only [F64.lt, F64.zero, F64.one, decide_eq_true_eq, not_lt] at h1 h2
        simp only [F64.inUnit, F64.le, F64.zero, F64.one, Bool.and_eq_true, decide_eq_true_eq]
        rw [min_comm] at h1
        exact ⟨h1, by rw [min_comm]; exact h2⟩

/-- A value in the interval from 0 to 1 is used unchanged. -/
theorem clampOpacity_of_inUnit (f : F64) (h : F64.inUnit f = true) : clampOpacity f = f := by
  rw [clampOpacity_eq]
  cases f with
  | nan => exact absurd h (by decide)
  | inf n => cases n <;> exact absurd h (by decide)
  | fin n m e =>
    simp only [F64.inUnit, F64.le, F64.zero, F64.one, Bool.and_eq_true, decide_eq_true_eq] at h
    have h1 : ¬ F64.lt (F64.fin n m e) F64.zero = true := by
      simp only [F64.lt, F64.zero, decide_eq_true_eq, not_lt]
      rw [min_comm]; exact h.1
    have h2 : ¬ F64.lt F64.one (F64.fin n m e) = true := by
      simp only [F64.lt, F64.one, decide_eq_true_eq, not_lt]
      rw [min_comm]; exact h.2
    rw [if_neg h1, if_neg h2]

/-- The value 1.5 is clamped to 1. -/
theorem clampOpacity_three_halves : clampOpacity (F64.fin false 3 (-1)) = F64.one := by
  decide

/-! ## Failing inputs -/

/-- Claim C2, failing input. For the upload name `a..b.pdf` the split operation
answers 200 with a download URL whose path `serveDownload` refuses with 403,
whatever the state of the file system: the name of the archive contains `..`. -/
theorem handleSplit_url_forbidden :
    (handleSplit (okEnv fun _ => none)
      (postRequest [] [("file".toList, [⟨"a..b.pdf".toList, 0⟩])])).1
      = ⟨200, Body.downloadUrl
          (inferBaseURL (postRequest [] [("file".toList, [⟨"a..b.pdf".toList, 0⟩])]) ++
            ("/downloads/".toList ++ sampleJob ++ "/a..b_split_pages.zip".toList))⟩ ∧
    ∀ env : Env, serveDownload env
      (getRequest ("/downloads/".toList ++ sampleJob ++ "/a..b_split_pages.zip".toList))
      = (httpError "forbidden".toList 403, []) := by
  refine ⟨by decide, fun env => serveDownload_forbidden env _ (by decide)⟩

/-- Claim C3, failing input. For the upload name `..` the remove-pages and the
Word-to-PDF operations ask to write the upload to the work root itself, which
is not inside the job directory. -/
theorem handleRemovePages_upload_path :
    Event.saveUpload ⟨"..".toList, 0⟩ baseWorkDir ∈
      (handleRemovePages (okEnv fun _ => none)
        (postRequest [("pages".toList, "1".toList)]
          [("file".toList, [⟨"..".toList, 0⟩])])).2 ∧
    Event.saveUpload ⟨"..".toList, 0⟩ baseWorkDir ∈
      (handleWordToPDF (okEnv fun _ => none)
        (postRequest [] [("file".toList, [⟨"..".toList, 0⟩])])).2 ∧
    liesUnder (Join [baseWorkDir, sampleJob]) baseWorkDir = false := by
  decide

/-- Claim C4, failing input. For the `outputFilename` value
`../../../tmp/evil.pdf` the merge operation hands `pdfcpu` the output path
`/tmp/evil.pdf`, and for `../x/y.pdf` the image operation hands `convert` the
output path `/app/work/x/y.pdf`; neither lies in the job directory. -/
theorem handleMerge_output_escapes :
    Event.run (Join [baseWorkDir, sampleJob]) "pdfcpu".toList
        ["merge".toList, "/tmp/evil.pdf".toList,
          Join [baseWorkDir, sampleJob, "input_0.pdf".toList]] ∈
      (handleMerge (okEnv fun _ => none)
        (postRequest [("outputFilename".toList, "../../../tmp/evil.pdf".toList)]
          [("files".toList, [⟨"a.pdf".toList, 0⟩])])).2 ∧
    liesUnder (Join [baseWorkDir, sampleJob]) "/tmp/evil.pdf".toList = false ∧
    Event.run (Join [baseWorkDir, sampleJob]) "convert".toList
        [Join [baseWorkDir, sampleJob, "image_0.png".toList], "/app/work/x/y.pdf".toList] ∈
      (handleImageToPDF (okEnv fun _ => none)
        (postRequest [("outputFilename".toList, "../x/y.pdf".toList)]
          [("files".toList, [⟨"a.png".toList, 0⟩])])).2 ∧
    liesUnder (Join [baseWorkDir, sampleJob]) "/app/work/x/y.pdf".toList = false := by
  decide

/-- Claim C10, failing input. For the `opacity` value `NaN` the watermark
operation is answered with 200 and stamps with the description `op:NaN`: the
two comparisons of the clamp are false for a NaN, so the opacity used is NaN,
which is not in the interval from 0 to 1. -/
theorem handleWatermark_opacity_nan (readFloat : GoString → Option F64) :
    clampOpacity (parseFloatDefault readFloat "NaN".toList F64.quarter) = F64.nan ∧
    F64.inUnit F64.nan = false ∧
    handleWatermark (okEnv readFloat)
      (postRequest [("text".toList, "x".toList), ("opacity".toList, "NaN".toList)]
        [("file".toList, [⟨"a.pdf".toList, 0⟩])])
      = (⟨200, Body.downloadUrl
          ("http://pdf.example/downloads/".toList ++ sampleJob ++ "/output.pdf".toList)⟩,
        [Event.newUUID sampleJob,
          Event.mkdirAll (Join [baseWorkDir, sampleJob]) 0o755,
          Event.saveUpload ⟨"a.pdf".toList, 0⟩
            (Join [baseWorkDir, sampleJob, "input.pdf".toList]),
          Event.run (Join [baseWorkDir, sampleJob]) "pdfcpu".toList
            ["stamp".toList, "add".toList, "-mode".toList, "text".toList, "--".toList,
              "x".toList, "pos:c, rot:45, points:48, op:NaN, c:.9 .9 .9".toList,
              Join [baseWorkDir, sampleJob, "input.pdf".toList],
              Join [baseWorkDir, sampleJob, "output.pdf".toList]]]) :=
  ⟨rfl, rfl, rfl⟩

/-! ## Replaying the tool runs of a trace -/

theorem newJobDir_eq (env : Env) (tr : List Event) :
    newJobDir env tr =
      (if env.MkdirAll (tr ++ [Event.newUUID (env.NewString tr)])
          (Join [baseWorkDir, env.NewString tr]) = true
        then some (env.NewString tr, Join [baseWorkDir, env.NewString tr]) else none,
       tr ++ [Event.newUUID (env.NewString tr)] ++
        [Event.mkdirAll (Join [baseWorkDir, env.NewString tr]) 0o755]) := by
  simp only [newJobDir]
  split <;> rfl

theorem failedRun_append (env : Env) (tol : List GoString) (a b : List Event) :
    ∀ pre, failedRun env tol pre (a ++ b) =
      (failedRun env tol pre a || failedRun env tol (pre ++ a) b) := by
  induction a with
  | nil => intro pre; simp [failedRun]
  | cons e a ih => intro pre; simp [failedRun, ih, Bool.or_assoc]

theorem saveInputs_failedRun (env : Env) (tol : List GoString) (dir : GoString)
    (name : Nat → FileHeader → GoString) (files : List FileHeader) :
    ∀ (i : Nat) (tr : List Event) (acc : List GoString) (pre : List Event),
      failedRun env tol pre (saveInputs env dir name files i tr acc).2 =
        failedRun env tol pre tr := by
  induction files with
  | nil => intro i tr acc pre; rfl
  | cons fh rest ih =>
    intro i tr acc pre
    simp only [saveInputs, saveUploadedFile]
    cases env.saveUpload tr fh (Join [dir, name i fh])
    · simp [failedRun_append, failedRun]
    · simp [ih, failedRun_append, failedRun]

theorem choosePagePath_failedRun (env : Env) (tol : List GoString) (tr : List Event)
    (pagesDir : GoString) (i : Int) (pre : List Event) :
    failedRun env tol pre (choosePagePath env tr pagesDir i).2 = failedRun env tol pre tr := by
  simp only [choosePagePath, osStat]
  repeat' split
  all_goals (try simp only [Prod.mk.injEq] at *)
  all_goals (try casesm* _ ∧ _)
  all_goals subst_vars
  all_goals simp [failedRun_append, failedRun]

theorem statNotExist_eq (env : Env) (tr : List Event) (path : GoString) :
    statNotExist env tr path =
      ((env.Stat tr path).isNone && env.IsNotExist tr path, tr ++ [Event.stat path]) := by
  simp only [statNotExist]
  cases env.Stat tr path <;> rfl

theorem createAndCopy_failedRun (env : Env) (tol : List GoString) (tr : List Event)
    (key dst : GoString) (pre : List Event) :
    failedRun env tol pre (createAndCopy env tr key dst).2 = failedRun env tol pre tr := by
  simp only [createAndCopy]
  repeat' split
  all_goals simp [failedRun_append, failedRun]

theorem htmlCandidates_failedRun (env : Env) (tol : List GoString) (tr : List Event)
    (dir baseName : GoString) (pre : List Event) :
    failedRun env tol pre (htmlCandidates env tr dir baseName).2 = failedRun env tol pre tr := by
  simp only [htmlCandidates, osStat, statNotExist_eq]
  repeat' split
  all_goals (try simp only [Prod.mk.injEq] at *)
  all_goals (try casesm* _ ∧ _)
  all_goals subst_vars
  all_goals simp [failedRun_append, failedRun]

theorem htmlScanDir_failedRun (env : Env) (tol : List GoString) (tr : List Event)
    (dir outputName : GoString) (pre : List Event) :
    failedRun env tol pre (htmlScanDir env tr dir outputName).2 = failedRun env tol pre tr := by
  simp only [htmlScanDir, osStat, statNotExist_eq, osReadDir]
  repeat' split
  all_goals (try simp only [Prod.mk.injEq] at *)
  all_goals (try casesm* _ ∧ _)
  all_goals subst_vars
  all_goals simp [failedRun_append, failedRun]

theorem popplerLines_ne_toolFailed (ls : List GoString) :
    popplerLines ls ≠ PageCount.toolFailed := by
  induction ls with
  | nil => simp [popplerLines]
  | cons l ls ih =>
    simp only [popplerLines]
    repeat' split
    all_goals first | exact ih | simp

theorem pdfcpuLines_ne_toolFailed (ls : List GoString) :
    pdfcpuLines ls ≠ PageCount.toolFailed := by
  induction ls with
  | nil => simp [pdfcpuLines]
  | cons l ls ih =>
    simp only [pdfcpuLines]
    repeat' split
    all_goals first | exact ih | simp

theorem pageCountPoppler_snd (env : Env) (tr : List Event) (dir inPath : GoString) :
    (pageCountPoppler env tr dir inPath).2 = tr ++ [Event.run dir "pdfinfo".toList [inPath]] := by
  simp only [pageCountPoppler, runCommandOutput]
  split <;> simp_all

theorem pageCountPoppler_toolFailed (env : Env) (tr : List Event) (dir inPath : GoString) :
    (pageCountPoppler env tr dir inPath).1 = PageCount.toolFailed ↔
      env.Run tr dir "pdfinfo".toList [inPath] = none := by
  simp only [pageCountPoppler, runCommandOutput]
  split
  · simp_all
  · simp_all [popplerLines_ne_toolFailed]

theorem pageCountPDF_snd (env : Env) (tr : List Event) (dir inPath : GoString) :
    (pageCountPDF env tr dir inPath).2 =
      tr ++ [Event.run dir "pdfcpu".toList ["info".toList, inPath]] := by
  simp only [pageCountPDF, runCommandOutput]
  split <;> simp_all

theorem pageCountPDF_toolFailed (env : Env) (tr : List Event) (dir inPath : GoString) :
    (pageCountPDF env tr dir inPath).1 = PageCount.toolFailed ↔
      env.Run tr dir "pdfcpu".toList ["info".toList, inPath] = none := by
  simp only [pageCountPDF, runCommandOutput]
  split
  · simp_all
  · simp_all [pdfcpuLines_ne_toolFailed]

theorem pageCountPoppler_failedRun (env : Env) (tr : List Event) (dir inPath : GoString) :
    failedRun env [] [] (pageCountPoppler env tr dir inPath).2 =
      (failedRun env [] [] tr ||
        decide ((pageCountPoppler env tr dir inPath).1 = PageCount.toolFailed)) := by
  rw [pageCountPoppler_snd]
  cases h : env.Run tr dir "pdfinfo".toList [inPath] <;>
    simp_all [failedRun_append, failedRun, pageCountPoppler_toolFailed]

theorem pageCountPoppler_tolerated (env : Env) (tol : List GoString) (tr : List Event)
    (dir inPath : GoString) (pre : List Event) (htol : tol.contains "pdfinfo".toList = true) :
    failedRun env tol pre (pageCountPoppler env tr dir inPath).2 = failedRun env tol pre tr := by
  rw [pageCountPoppler_snd]
  simp_all [failedRun_append, failedRun]

theorem pageCountPDF_failedRun (env : Env) (tol : List GoString) (tr : List Event)
    (dir inPath : GoString) (htol : tol.contains "pdfcpu".toList = false) :
    failedRun env tol [] (pageCountPDF env tr dir inPath).2 =
      (failedRun env tol [] tr ||
        decide ((pageCountPDF env tr dir inPath).1 = PageCount.toolFailed)) := by
  rw [pageCountPDF_snd]
  cases h : env.Run tr dir "pdfcpu".toList ["info".toList, inPath] <;>
    simp_all [failedRun_append, failedRun, pageCountPDF_toolFailed]

theorem stampPages_failedRun (env : Env) (dir pagesDir desc : GoString) (startAt : Int) :
    ∀ (k : Nat) (i : Int) (tr : List Event) (stamped : List GoString),
      failedRun env [] [] (stampPages env dir pagesDir desc startAt k i tr stamped).2 =
        (failedRun env [] [] tr ||
          (stampPages env dir pagesDir desc startAt k i tr stamped).1.isNone) := by
  intro k
  induction k with
  | zero => intro i tr stamped; simp [stampPages]
  | succ k ih =>
    intro i tr stamped
    simp only [stampPages, runCommand]
    have hc := choosePagePath_failedRun env [] tr pagesDir i []
    rcases hcp : choosePagePath env tr pagesDir i with ⟨pagePath, tr1⟩
    rw [hcp] at hc
    simp only at hc ⊢
    cases h : env.Run tr1 dir "pdfcpu".toList
        ["stamp".toList, "add".toList, "-mode".toList, "text".toList, "--".toList,
          Itoa (wrapInt (startAt + (i - 1))), desc, pagePath,
          Join [dir, "stamped-".toList ++ fmt04d i ++ ".pdf".toList]] with
    | none => simp_all [failedRun_append, failedRun]
    | some out => simp_all [failedRun_append, failedRun]

theorem rotateBuckets_failedRun (env : Env) (dir workPath : GoString) (b : Buckets)
    (degs : List Int) :
    ∀ tr : List Event,
      failedRun env [] [] (rotateBuckets env dir workPath b degs tr).2 =
        (failedRun env [] [] tr || !(rotateBuckets env dir workPath b degs tr).1) := by
  induction degs with
  | nil => intro tr; simp [rotateBuckets]
  | cons deg rest ih =>
    intro tr
    simp only [rotateBuckets, runCommand]
    split
    · exact ih tr
    · cases h : env.Run tr dir "pdfcpu".toList (rotateArgs workPath (b.get deg) deg) with
      | none => simp_all [failedRun_append, failedRun]
      | some out => simp_all [failedRun_append, failedRun]

theorem redactPages_resp (env : Env) (dir : GoString) (redactions : List RedactionArea)
    (pngFiles : List GoString) (pages : List Int) :
    ∀ (tr : List Event) (resp : Response),
      (redactPages env dir redactions pngFiles pages tr).1 = some resp →
        resp.status = 500 ∧ resp.body.isError = true := by
  induction pages with
  | nil => intro tr resp h; simp [redactPages] at h
  | cons p rest ih =>
    intro tr resp
    simp only [redactPages]
    repeat' split
    all_goals first
      | exact ih _ resp
      | (intro h; simp only [Option.some.injEq] at h; subst h; simp [errorJSON, Body.isError])

theorem redactPages_failedRun (env : Env) (dir : GoString) (redactions : List RedactionArea)
    (pngFiles : List GoString) (pages : List Int) :
    ∀ (tr : List Event),
      (redactPages env dir redactions pngFiles pages tr).1 = none →
        failedRun env [] [] (redactPages env dir redactions pngFiles pages tr).2 =
          failedRun env [] [] tr := by
  induction pages with
  | nil => intro tr _; simp [redactPages]
  | cons p rest ih =>
    intro tr
    simp only [redactPages, runCommandOutput, runCommand, osRename]
    repeat' split
    all_goals (try simp only [Prod.mk.injEq] at *)
    all_goals (try casesm* _ ∧ _)
    all_goals subst_vars
    all_goals first
      | exact ih _
      | (intro h; simp at h; done)
      | (intro h; rw [ih _ h]; simp_all [failedRun_append, failedRun, ← Option.ne_none_iff_isSome])

theorem failedRun_map_remove (env : Env) (tol : List GoString) (l : List GoString) :
    ∀ pre, failedRun env tol pre (l.map Event.remove) = false := by
  induction l with
  | nil => intro pre; rfl
  | cons p l ih => intro pre; simp [failedRun, ih]

/-! ## The method check -/

/-- Claim C17. Every operation handler answers a request whose method is not
`POST` with status 405 and a JSON error body, and makes no call at all: in
particular it creates no job directory and runs no tool. -/
theorem non_post_rejected (h : Handler) (hh : h ∈ operationHandlers) (env : Env) (r : Request)
    (hm : r.Method ≠ "POST".toList) :
    (h env r).1.status = 405 ∧ (h env r).1.body.isError = true ∧ (h env r).2 = [] ∧
      ∀ e ∈ (h env r).2, e.allocatesJob = false ∧ e.runsTool = false := by
  suffices hs : (h env r).1.status = 405 ∧ (h env r).1.body.isError = true ∧ (h env r).2 = [] by
    refine ⟨hs.1, hs.2.1, hs.2.2, ?_⟩
    rw [hs.2.2]
    intro e he
    cases he
  simp only [operationHandlers, List.mem_cons, List.mem_singleton, List.not_mem_nil,
    or_false] at hh
  rcases hh with rfl | rfl | rfl | rfl | rfl | rfl | rfl | rfl | rfl | rfl | rfl | rfl | rfl | rfl | rfl |
    rfl | rfl | rfl | rfl | rfl | rfl | rfl | rfl | rfl | rfl | rfl | rfl | rfl | rfl | rfl |
    rfl | rfl | rfl | rfl | rfl
  all_goals first
    | unfold handleMerge
    | unfold handleSplit
    | unfold handleRemovePages
    | unfold handleExtractPages
    | unfold handleScanToPDF
    | unfold handleCompress
    | unfold handleRepair
    | unfold handleOCR
    | unfold handleConvertToPDFA
    | unfold handleImageToPDF
    | unfold handleWordToPDF
    | unfold handlePreview
    | unfold handleOrganize
    | unfold handleRotate
    | unfold handleCrop
    | unfold handlePageNumbers
    | unfold handleWatermark
    | unfold handleProtectPDF
    | unfold handleUnlockPDF
    | unfold handleRedactPDF
    | unfold handleFlattenPDF
    | unfold handlePDFToWord
    | unfold handlePDFToExcel
    | unfold handlePDFToPowerPoint
    | unfold handlePDFToJPG
    | unfold handleExtractText
    | unfold handleExtractImages
    | unfold handleHTMLToPDF
    | unfold handleExcelToPDF
    | unfold handlePowerPointToPDF
    | unfold handleComparePDFs
    | unfold handleDigitalSignature
    | unfold handleValidatePDFA
    | unfold handlePDFToHTML
    | unfold handleAddHeaderFooter
  all_goals (rw [if_pos hm]; exact ⟨rfl, rfl, rfl⟩)

theorem non_post_rejected_witness :
    (getRequest "/api/pdf/merge".toList).Method ≠ "POST".toList ∧
      (handleMerge (okEnv fun _ => none) (getRequest "/api/pdf/merge".toList)).1.status = 405 ∧
      (handleMerge (okEnv fun _ => none)
        (getRequest "/api/pdf/merge".toList)).1.body.isError = true ∧
      (handleMerge (okEnv fun _ => none) (getRequest "/api/pdf/merge".toList)).2 = [] ∧
      ∀ e ∈ (handleMerge (okEnv fun _ => none) (getRequest "/api/pdf/merge".toList)).2,
        e.allocatesJob = false ∧ e.runsTool = false :=
  ⟨by decide, non_post_rejected handleMerge (List.mem_cons_self _ _) _ _ (by decide)⟩

/-! ## Status and body of the responses -/

theorem redactPages_wellFormed {env : Env} {dir : GoString} {redactions : List RedactionArea}
    {pngFiles : List GoString} {pages : List Int} {tr tr2 : List Event} {resp : Response}
    (h : redactPages env dir redactions pngFiles pages tr = (some resp, tr2)) :
    resp.wellFormed := by
  have hr := redactPages_resp env dir redactions pngFiles pages tr resp (by rw [h])
  refine ⟨fun h200 => ?_, fun _ => ?_⟩
  · rw [hr.1] at h200
    cases h200
  · rw [hr.1]
    decide

theorem handleExtractImages_shape (env : Env) (r : Request) :
    (handleExtractImages env r).1.wellFormed ∨
      (handleExtractImages env r).1 = ⟨200, Body.error "no images found in PDF".toList⟩ := by
  unfold handleExtractImages
  simp only [extractImagesZip]
  repeat' split
  all_goals simp [errorJSON, Response.wellFormed, Body.isError, Body.isSuccess]

/-- Claim C18, counterexample. When `pdfimages` wrote no image, the
extract-images handler answers with status 200 and the error body
`no images found in PDF`. -/
theorem handleExtractImages_ok_with_error :
    handleExtractImages ∈ operationHandlers ∧
    (handleExtractImages (okEnv fun _ => none) (uploadRequest [])).1
      = ⟨200, Body.error "no images found in PDF".toList⟩ ∧
    ¬ (handleExtractImages (okEnv fun _ => none) (uploadRequest [])).1.wellFormed := by
  refine ⟨by simp [operationHandlers], by decide, ?_⟩
  intro h
  have h2 := h.2 (by decide)
  revert h2
  decide

/-- Claim C18, amended. Every response of an operation handler with status 200
carries a success body and every response with an error body has a 4xx or 5xx
status, with one exception: the extract-images handler answers 200 with the
error body `no images found in PDF` when the images directory cannot be listed
or is empty. -/
theorem response_shape (h : Handler) (hh : h ∈ operationHandlers) (env : Env) (r : Request) :
    (h env r).1.wellFormed ∨
      (h env r = handleExtractImages env r ∧
        (h env r).1 = ⟨200, Body.error "no images found in PDF".toList⟩) := by
  simp only [operationHandlers, List.mem_cons, List.mem_singleton, List.not_mem_nil,
    or_false] at hh
  rcases hh with rfl | rfl | rfl | rfl | rfl | rfl | rfl | rfl | rfl | rfl | rfl | rfl | rfl | rfl | rfl |
    rfl | rfl | rfl | rfl | rfl | rfl | rfl | rfl | rfl | rfl | rfl | rfl | rfl | rfl | rfl |
    rfl | rfl | rfl | rfl | rfl
  all_goals first
    | (rcases handleExtractImages_shape env r with hw | he
       · exact Or.inl hw
       · exact Or.inr ⟨rfl, he⟩)
    | (refine Or.inl ?_; unfold handleMerge)
    | (refine Or.inl ?_; unfold handleSplit)
    | (refine Or.inl ?_; unfold handleRemovePages)
    | (refine Or.inl ?_; unfold handleExtractPages)
    | (refine Or.inl ?_; unfold handleScanToPDF)
    | (refine Or.inl ?_; unfold handleCompress)
    | (refine Or.inl ?_; unfold handleRepair)
    | (refine Or.inl ?_; unfold handleOCR)
    | (refine Or.inl ?_; unfold handleConvertToPDFA)
    | (refine Or.inl ?_; unfold handleImageToPDF)
    | (refine Or.inl ?_; unfold handleWordToPDF)
    | (refine Or.inl ?_; unfold handlePreview)
    | (refine Or.inl ?_; unfold handleOrganize)
    | (refine Or.inl ?_; unfold handleRotate)
    | (refine Or.inl ?_; unfold handleCrop)
    | (refine Or.inl ?_; unfold handlePageNumbers)
    | (refine Or.inl ?_; unfold handleWatermark)
    | (refine Or.inl ?_; unfold handleProtectPDF)
    | (refine Or.inl ?_; unfold handleUnlockPDF)
    | (refine Or.inl ?_; unfold handleRedactPDF)
    | (refine Or.inl ?_; unfold handleFlattenPDF)
    | (refine Or.inl ?_; unfold handlePDFToWord)
    | (refine Or.inl ?_; unfold handlePDFToExcel)
    | (refine Or.inl ?_; unfold handlePDFToPowerPoint)
    | (refine Or.inl ?_; unfold handlePDFToJPG)
    | (refine Or.inl ?_; unfold handleExtractText)
    | (refine Or.inl ?_; unfold handleHTMLToPDF)
    | (refine Or.inl ?_; unfold handleExcelToPDF)
    | (refine Or.inl ?_; unfold handlePowerPointToPDF)
    | (refine Or.inl ?_; unfold handleComparePDFs)
    | (refine Or.inl ?_; unfold handleDigitalSignature)
    | (refine Or.inl ?_; unfold handleValidatePDFA)
    | (refine Or.inl ?_; unfold handlePDFToHTML)
    | (refine Or.inl ?_; unfold handleAddHeaderFooter)
  all_goals (try simp only [organizeCollect, previewAnswer, htmlToPDFConvert,
    compareTexts, headerFooterApply])
  all_goals (repeat' split)
  all_goals first
    | exact redactPages_wellFormed (by assumption)
    | simp [errorJSON, Response.wellFormed, Body.isError, Body.isSuccess]

theorem response_shape_witness :
    handleExtractImages ∈ operationHandlers ∧
    ((handleExtractImages (okEnv fun _ => none) (uploadRequest [])).1.wellFormed ∨
      (handleExtractImages (okEnv fun _ => none) (uploadRequest [])
          = handleExtractImages (okEnv fun _ => none) (uploadRequest []) ∧
        (handleExtractImages (okEnv fun _ => none) (uploadRequest [])).1
          = ⟨200, Body.error "no images found in PDF".toList⟩)) :=
  ⟨by simp [operationHandlers],
    response_shape handleExtractImages (by simp [operationHandlers]) _ _⟩


/-! ## Tool failures -/

theorem handlePreview_tolerant (env : Env) (r : Request) :
    failsOnToolError env ["pdfinfo".toList] (handlePreview env r) := by
  unfold handlePreview
  simp only [previewAnswer]
  simp only [newJobDir_eq, saveUploadedFile, osMkdirAll]
  repeat' split
  all_goals (try simp only [Prod.mk.injEq, Option.ite_none_right_eq_some, ite_eq_right_iff,
    Option.some.injEq] at *)
  all_goals (try simp only [Prod.ext_iff] at *)
  all_goals (try casesm* _ ∧ _)
  all_goals subst_vars
  all_goals simp_all [errorJSON, failsOnToolError, Body.isError, failedRun, failedRun_append,
    pageCountPoppler_tolerated, pageCountPDF_failedRun]

/-- Claim C19, counterexample. When `diff` exits with a nonzero status, the
compare handler still answers 200 with a download URL. -/
theorem handleComparePDFs_diff_failure :
    handleComparePDFs ∈ operationHandlers ∧
    Event.execOutput (Join [baseWorkDir, sampleJob]) "diff".toList
        ["-u".toList, Join [baseWorkDir, sampleJob, "file1.txt".toList],
          Join [baseWorkDir, sampleJob, "file2.txt".toList]] ∈
      (handleComparePDFs diffFailsEnv
        (postRequest [] [("file1".toList, [⟨"a.pdf".toList, 0⟩]),
          ("file2".toList, [⟨"b.pdf".toList, 1⟩])])).2 ∧
    failedExec diffFailsEnv []
      (handleComparePDFs diffFailsEnv
        (postRequest [] [("file1".toList, [⟨"a.pdf".toList, 0⟩]),
          ("file2".toList, [⟨"b.pdf".toList, 1⟩])])).2 = true ∧
    (handleComparePDFs diffFailsEnv
        (postRequest [] [("file1".toList, [⟨"a.pdf".toList, 0⟩]),
          ("file2".toList, [⟨"b.pdf".toList, 1⟩])])).1
      = ⟨200, Body.downloadUrl
          ("http://pdf.example/downloads/".toList ++ sampleJob ++
            "/differences.txt".toList)⟩ := by
  refine ⟨by simp [operationHandlers], by decide, by decide, by decide⟩

set_option maxHeartbeats 4000000 in
/-- Claim C19, amended. In every operation handler, when a tool run through
`runCommand` or `runCommandOutput` fails, the response is 500 with an error
body, hence without a download URL. The one exception is the `pdfinfo` run of
the preview handler, after whose failure the handler asks `pdfcpu info`
instead: there the failure of any other run gives the 500. Programs started
directly with `exec.Command` and the detached rendering of the preview pages
are not runs in this sense. -/
theorem tool_failure_is_500 (h : Handler) (hh : h ∈ operationHandlers) (env : Env)
    (r : Request) :
    failsOnToolError env [] (h env r) ∨
      (h env r = handlePreview env r ∧ failsOnToolError env ["pdfinfo".toList] (h env r)) := by
  simp only [operationHandlers, List.mem_cons, List.mem_singleton, List.not_mem_nil,
    or_false] at hh
  rcases hh with rfl | rfl | rfl | rfl | rfl | rfl | rfl | rfl | rfl | rfl | rfl | rfl | rfl | rfl | rfl |
    rfl | rfl | rfl | rfl | rfl | rfl | rfl | rfl | rfl | rfl | rfl | rfl | rfl | rfl | rfl |
    rfl | rfl | rfl | rfl | rfl
  all_goals first
    | exact Or.inr ⟨rfl, handlePreview_tolerant env r⟩
    | (refine Or.inl ?_; unfold handleMerge)
    | (refine Or.inl ?_; unfold handleSplit)
    | (refine Or.inl ?_; unfold handleRemovePages)
    | (refine Or.inl ?_; unfold handleExtractPages)
    | (refine Or.inl ?_; unfold handleScanToPDF)
    | (refine Or.inl ?_; unfold handleCompress)
    | (refine Or.inl ?_; unfold handleRepair)
    | (refine Or.inl ?_; unfold handleOCR)
    | (refine Or.inl ?_; unfold handleConvertToPDFA)
    | (refine Or.inl ?_; unfold handleImageToPDF)
    | (refine Or.inl ?_; unfold handleWordToPDF)
    | (refine Or.inl ?_; unfold handleOrganize)
    | (refine Or.inl ?_; unfold handleRotate)
    | (refine Or.inl ?_; unfold handleCrop)
    | (refine Or.inl ?_; unfold handlePageNumbers)
    | (refine Or.inl ?_; unfold handleWatermark)
    | (refine Or.inl ?_; unfold handleProtectPDF)
    | (refine Or.inl ?_; unfold handleUnlockPDF)
    | (refine Or.inl ?_; unfold handleRedactPDF)
    | (refine Or.inl ?_; unfold handleFlattenPDF)
    | (refine Or.inl ?_; unfold handlePDFToWord)
    | (refine Or.inl ?_; unfold handlePDFToExcel)
    | (refine Or.inl ?_; unfold handlePDFToPowerPoint)
    | (refine Or.inl ?_; unfold handlePDFToJPG)
    | (refine Or.inl ?_; unfold handleExtractText)
    | (refine Or.inl ?_; unfold handleExtractImages)
    | (refine Or.inl ?_; unfold handleHTMLToPDF)
    | (refine Or.inl ?_; unfold handleExcelToPDF)
    | (refine Or.inl ?_; unfold handlePowerPointToPDF)
    | (refine Or.inl ?_; unfold handleComparePDFs)
    | (refine Or.inl ?_; unfold handleDigitalSignature)
    | (refine Or.inl ?_; unfold handleValidatePDFA)
    | (refine Or.inl ?_; unfold handlePDFToHTML)
    | (refine Or.inl ?_; unfold handleAddHeaderFooter)
  all_goals (try simp only [organizeCollect, extractImagesZip, htmlToPDFConvert,
    compareTexts, headerFooterApply])
  all_goals simp only [newJobDir_eq, saveUploadedFile, runCommand, runCommandOutput, osMkdirAll,
    zipDirectory, osWriteFile, osReadFile, osReadDir, osRename, filepathGlob, execOutput,
    execCombined, statNotExist_eq, osStat]
  all_goals (repeat' split)
  all_goals (try simp only [Prod.mk.injEq, Option.ite_none_right_eq_some, ite_eq_right_iff,
    Option.some.injEq] at *)
  all_goals (try simp only [Prod.ext_iff] at *)
  all_goals (try casesm* _ ∧ _)
  all_goals subst_vars
  all_goals first
    | (simp_all [-String.toList, errorJSON, failsOnToolError, Body.isError, failedRun,
      failedRun_append, Option.ne_none_iff_isSome, saveInputs_failedRun, createAndCopy_failedRun,
      htmlCandidates_failedRun, htmlScanDir_failedRun, pageCountPoppler_failedRun,
      pageCountPDF_failedRun, stampPages_failedRun, rotateBuckets_failedRun,
      redactPages_failedRun, failedRun_map_remove]
       done)
    | (have hr := redactPages_resp _ _ _ _ _ _ _ (by assumption)
       simp_all [-String.toList, errorJSON, failsOnToolError, Body.isError, failedRun,
      failedRun_append, Option.ne_none_iff_isSome, saveInputs_failedRun, createAndCopy_failedRun,
      htmlCandidates_failedRun, htmlScanDir_failedRun, pageCountPoppler_failedRun,
      pageCountPDF_failedRun, stampPages_failedRun, rotateBuckets_failedRun,
      redactPages_failedRun, failedRun_map_remove])

theorem tool_failure_is_500_witness :
    handleSplit ∈ operationHandlers ∧
    failedRun runFailsEnv [] [] (handleSplit runFailsEnv (uploadRequest [])).2 = true ∧
    (handleSplit runFailsEnv (uploadRequest [])).1.status = 500 ∧
    (failsOnToolError runFailsEnv [] (handleSplit runFailsEnv (uploadRequest [])) ∨
      (handleSplit runFailsEnv (uploadRequest []) = handlePreview runFailsEnv (uploadRequest []) ∧
        failsOnToolError runFailsEnv ["pdfinfo".toList]
          (handleSplit runFailsEnv (uploadRequest [])))) :=
  ⟨by simp [operationHandlers], by decide, by decide,
    tool_failure_is_500 handleSplit (by simp [operationHandlers]) _ _⟩

/-! ## Validation and job allocation -/

theorem redactPages_not_400 {env : Env} {dir : GoString} {redactions : List RedactionArea}
    {pngFiles : List GoString} {pages : List Int} {tr tr2 : List Event} {resp : Response}
    (h : redactPages env dir redactions pngFiles pages tr = (some resp, tr2)) :
    resp.status ≠ 400 := by
  have hr := redactPages_resp env dir redactions pngFiles pages tr resp (by rw [h])
  rw [hr.1]
  decide

/-- The handlers that finish validating the request before they allocate a
job: all operation handlers but `handleRemovePages`, `handleOrganize`,
`handleHTMLToPDF`, `handleComparePDFs` and `handleAddHeaderFooter`. -/
theorem validation_precedes_job (h : Handler)
    (hh : h ∈ [handleMerge, handleSplit, handleExtractPages, handleScanToPDF, handleCompress,
      handleRepair, handleOCR, handleConvertToPDFA, handleImageToPDF, handleWordToPDF,
      handlePreview, handleRotate, handleCrop, handlePageNumbers, handleWatermark,
      handleProtectPDF, handleUnlockPDF, handleRedactPDF, handleFlattenPDF, handlePDFToWord,
      handlePDFToExcel, handlePDFToPowerPoint, handlePDFToJPG, handleExtractText,
      handleExtractImages, handleExcelToPDF, handlePowerPointToPDF, handleDigitalSignature,
      handleValidatePDFA, handlePDFToHTML])
    (env : Env) (r : Request) : validatesFirst (h env r) := by
  simp only [List.mem_cons, List.mem_singleton, List.not_mem_nil, or_false] at hh
  rcases hh with rfl | rfl | rfl | rfl | rfl | rfl | rfl | rfl | rfl | rfl | rfl | rfl | rfl | rfl | rfl |
    rfl | rfl | rfl | rfl | rfl | rfl | rfl | rfl | rfl | rfl | rfl | rfl | rfl | rfl | rfl
  all_goals first
    | unfold handleMerge
    | unfold handleSplit
    | unfold handleExtractPages
    | unfold handleScanToPDF
    | unfold handleCompress
    | unfold handleRepair
    | unfold handleOCR
    | unfold handleConvertToPDFA
    | unfold handleImageToPDF
    | unfold handleWordToPDF
    | unfold handlePreview
    | unfold handleRotate
    | unfold handleCrop
    | unfold handlePageNumbers
    | unfold handleWatermark
    | unfold handleProtectPDF
    | unfold handleUnlockPDF
    | unfold handleRedactPDF
    | unfold handleFlattenPDF
    | unfold handlePDFToWord
    | unfold handlePDFToExcel
    | unfold handlePDFToPowerPoint
    | unfold handlePDFToJPG
    | unfold handleExtractText
    | unfold handleExtractImages
    | unfold handleExcelToPDF
    | unfold handlePowerPointToPDF
    | unfold handleDigitalSignature
    | unfold handleValidatePDFA
    | unfold handlePDFToHTML
  all_goals (try simp only [previewAnswer, extractImagesZip])
  all_goals (repeat' split)
  all_goals first
    | (intro h400; exact absurd h400 (redactPages_not_400 (by assumption)))
    | simp [errorJSON, validatesFirst]

/-- Claim C20, failing input. A remove-pages request with a file but without
`pages` is answered with 400 `pages is required` after the job directory was
created and the upload was written into it; an organize request with
unparseable `rotations`, an HTML request with neither file nor URL, a compare
request without `file1` and a header-footer request without any text are
answered with 400 after the job directory was created as well. -/
theorem handleRemovePages_400_after_job :
    handleRemovePages (okEnv fun _ => none) (uploadRequest [])
      = (⟨400, Body.error "pages is required".toList⟩,
        [Event.newUUID sampleJob,
          Event.mkdirAll (Join [baseWorkDir, sampleJob]) 0o755,
          Event.saveUpload ⟨"a.pdf".toList, 0⟩ (Join [baseWorkDir, sampleJob, "a.pdf".toList])]) ∧
    ((handleOrganize (okEnv fun _ => none)
        (uploadRequest [("order".toList, "1".toList), ("rotations".toList, "x".toList)])).1.status
        = 400 ∧
      Event.mkdirAll (Join [baseWorkDir, sampleJob]) 0o755 ∈
        (handleOrganize (okEnv fun _ => none)
          (uploadRequest [("order".toList, "1".toList), ("rotations".toList, "x".toList)])).2) ∧
    handleHTMLToPDF (okEnv fun _ => none) (postRequest [] [])
      = (⟨400, Body.error "file or url required".toList⟩,
        [Event.newUUID sampleJob, Event.mkdirAll (Join [baseWorkDir, sampleJob]) 0o755]) ∧
    handleComparePDFs (okEnv fun _ => none) (postRequest [] [])
      = (⟨400, Body.error "file1 is required: ".toList⟩,
        [Event.newUUID sampleJob, Event.mkdirAll (Join [baseWorkDir, sampleJob]) 0o755]) ∧
    ((handleAddHeaderFooter (okEnv fun _ => none) (uploadRequest [])).1.status = 400 ∧
      Event.mkdirAll (Join [baseWorkDir, sampleJob]) 0o755 ∈
        (handleAddHeaderFooter (okEnv fun _ => none) (uploadRequest [])).2) := by
  decide


/-! ## The retention sweep -/

theorem wrapInt_of_range {n : Int} (h1 : -(2 ^ 63) ≤ n) (h2 : n < 2 ^ 63) : wrapInt n = n := by
  unfold wrapInt
  rw [Int.emod_eq_of_lt (by omega) (by omega)]
  omega

theorem cleanupEntries_removes (env : Env) (cutoff : Int) (stat : GoString → Option FileInfo)
    (hstat : ∀ tr p, env.Stat tr p = stat p) (p : GoString) (entries : List DirEntry) :
    ∀ tr : List Event,
      (Event.removeAll p ∈ cleanupEntries env cutoff entries tr ↔
        (Event.removeAll p ∈ tr ∨
          ∃ e ∈ entries, e.IsDir = true ∧ p = Join [baseWorkDir, e.Name] ∧
            ∃ info, stat p = some info ∧ info.ModTime < cutoff)) := by
  induction entries with
  | nil => intro tr; simp [cleanupEntries]
  | cons e rest ih =>
    intro tr
    simp only [cleanupEntries, osStat, hstat, List.mem_cons, exists_eq_or_imp]
    by_cases hd : e.IsDir = false
    · rw [if_pos hd, ih]
      simp [hd]
    · rw [if_neg hd]
      have hd2 : e.IsDir = true := by simpa using hd
      cases hs : stat (Join [baseWorkDir, e.Name]) with
      | none =>
        have hP : ¬ (e.IsDir = true ∧ p = Join [baseWorkDir, e.Name] ∧
            ∃ info, stat p = some info ∧ info.ModTime < cutoff) := by
          rintro ⟨-, hp, info, hi, -⟩
          rw [hp, hs] at hi
          cases hi
        simp only [ih, List.mem_append, List.mem_singleton, hP, false_or]
        constructor
        · rintro ((h | h) | h)
          · exact Or.inl h
          · cases h
          · exact Or.inr h
        · rintro (h | h)
          · exact Or.inl (Or.inl h)
          · exact Or.inr h
      | some info =>
        simp only
        by_cases hlt : info.ModTime < cutoff
        · have hP : (e.IsDir = true ∧ p = Join [baseWorkDir, e.Name] ∧
              ∃ info, stat p = some info ∧ info.ModTime < cutoff) ↔
              p = Join [baseWorkDir, e.Name] := by
            constructor
            · rintro ⟨-, hp, -⟩
              exact hp
            · intro hp
              exact ⟨hd2, hp, info, by rw [hp, hs], hlt⟩
          rw [if_pos hlt]
          simp only [ih, List.mem_append, List.mem_singleton, hP]
          constructor
          · rintro (((h | h) | h) | h)
            · exact Or.inl h
            · cases h
            · cases h
              exact Or.inr (Or.inl rfl)
            · exact Or.inr (Or.inr h)
          · rintro (h | h | h)
            · exact Or.inl (Or.inl (Or.inl h))
            · exact Or.inl (Or.inr (by rw [h]))
            · exact Or.inr h
        · have hP : ¬ (e.IsDir = true ∧ p = Join [baseWorkDir, e.Name] ∧
              ∃ info, stat p = some info ∧ info.ModTime < cutoff) := by
            rintro ⟨-, hp, info2, hi, hlt2⟩
            rw [hp, hs] at hi
            cases hi
            exact hlt hlt2
          rw [if_neg hlt]
          simp only [ih, List.mem_append, List.mem_singleton, hP, false_or]
          constructor
          · rintro ((h | h) | h)
            · exact Or.inl h
            · cases h
            · exact Or.inr h
          · rintro (h | h)
            · exact Or.inl (Or.inl h)
            · exact Or.inr h

theorem cleanupEntries_calls (env : Env) (cutoff : Int) (entries : List DirEntry) :
    ∀ (tr : List Event), ∀ ev ∈ cleanupEntries env cutoff entries tr,
      ev ∈ tr ∨ (∃ q, ev = Event.stat q) ∨ (∃ q, ev = Event.removeAll q) := by
  induction entries with
  | nil => intro tr ev h; exact Or.inl h
  | cons e rest ih =>
    intro tr ev
    simp only [cleanupEntries, osStat]
    by_cases hd : e.IsDir = false
    · rw [if_pos hd]
      exact ih tr ev
    · rw [if_neg hd]
      cases env.Stat tr (Join [baseWorkDir, e.Name]) with
      | none =>
        intro h
        rcases ih _ ev h with h2 | h2
        · rcases List.mem_append.1 h2 with h3 | h3
          · exact Or.inl h3
          · exact Or.inr (Or.inl ⟨_, List.mem_singleton.1 h3⟩)
        · exact Or.inr h2
      | some info =>
        simp only
        split
        all_goals intro h
        all_goals rcases ih _ ev h with h2 | h2
        all_goals first
          | exact Or.inr h2
          | (simp only [List.mem_append, List.mem_singleton] at h2
             rcases h2 with (h3 | h3) | h3
             · exact Or.inl h3
             · exact Or.inr (Or.inl ⟨_, h3⟩)
             · exact Or.inr (Or.inr ⟨_, h3⟩))
          | (simp only [List.mem_append, List.mem_singleton] at h2
             rcases h2 with h3 | h3
             · exact Or.inl h3
             · exact Or.inr (Or.inl ⟨_, h3⟩))

/-- Claim C16, counterexample. For the retention `-2 ^ 63`, the minimum
duration, the negation overflows and the cutoff lies `2 ^ 63` nanoseconds
before the current time instead of after it: the directory `old`, modified
before `now - maxAge`, is not removed. -/
theorem cleanupOldJobs_min_duration :
    (1000 : Int) < sweepEnv.Now [Event.readDir baseWorkDir] - (-(2 ^ 63)) ∧
    sweepEnv.Stat [] (Join [baseWorkDir, "old".toList]) = some ⟨"old".toList, true, 1000⟩ ∧
    Event.removeAll (Join [baseWorkDir, "old".toList]) ∉ cleanupOldJobs sweepEnv (-(2 ^ 63)) := by
  refine ⟨by decide, by decide, by decide⟩

/-- Claim C16, amended. For every listing of the work root, every current
time and every retention `maxAge` other than the minimum duration `-2 ^ 63`,
with modification times that do not change during the sweep:
`cleanupOldJobs` removes exactly the entries that are directories whose
modification time is before `now - maxAge`, and apart from these removals it
only reads: the listing, the clock and the file information. -/
theorem cleanupOldJobs_removes (env : Env) (maxAge : Int) (entries : List DirEntry)
    (stat : GoString → Option FileInfo)
    (hmax : -(2 ^ 63) < maxAge ∧ maxAge < 2 ^ 63)
    (hdir : env.ReadDir [] baseWorkDir = some entries)
    (hstat : ∀ tr p, env.Stat tr p = stat p) :
    (∀ p, Event.removeAll p ∈ cleanupOldJobs env maxAge ↔
      ∃ e ∈ entries, e.IsDir = true ∧ p = Join [baseWorkDir, e.Name] ∧
        ∃ info, stat p = some info ∧
          info.ModTime < env.Now [Event.readDir baseWorkDir] - maxAge) ∧
    ∀ ev ∈ cleanupOldJobs env maxAge,
      ev = Event.readDir baseWorkDir ∨ ev = Event.now ∨ (∃ q, ev = Event.stat q) ∨
        ∃ q, ev = Event.removeAll q := by
  have hw : wrapInt (-maxAge) = -maxAge := wrapInt_of_range (by omega) (by omega)
  have hc : cleanupOldJobs env maxAge =
      cleanupEntries env (env.Now [Event.readDir baseWorkDir] - maxAge) entries
        [Event.readDir baseWorkDir, Event.now] := by
    simp only [cleanupOldJobs, osReadDir, hdir, hw]
    rfl
  rw [hc]
  refine ⟨fun p => ?_, fun ev hev => ?_⟩
  · rw [cleanupEntries_removes env _ stat hstat p entries]
    simp
  · rcases cleanupEntries_calls env _ entries _ ev hev with h | h | h
    · simp only [List.mem_cons, List.mem_singleton, List.not_mem_nil, or_false] at h
      rcases h with h | h
      · exact Or.inl h
      · exact Or.inr (Or.inl h)
    · exact Or.inr (Or.inr (Or.inl h))
    · exact Or.inr (Or.inr (Or.inr h))

theorem cleanupOldJobs_removes_witness :
    (-(2 ^ 63) < (5000 : Int) ∧ (5000 : Int) < 2 ^ 63) ∧
    Event.removeAll (Join [baseWorkDir, "old".toList]) ∈ cleanupOldJobs sweepEnv 5000 ∧
    Event.removeAll (Join [baseWorkDir, "new".toList]) ∉ cleanupOldJobs sweepEnv 5000 ∧
    ((∀ p, Event.removeAll p ∈ cleanupOldJobs sweepEnv 5000 ↔
      ∃ e ∈ [(⟨"old".toList, true⟩ : DirEntry), ⟨"new".toList, true⟩,
          ⟨"note.txt".toList, false⟩],
        e.IsDir = true ∧ p = Join [baseWorkDir, e.Name] ∧
        ∃ info, sweepEnv.Stat [] p = some info ∧
          info.ModTime < sweepEnv.Now [Event.readDir baseWorkDir] - 5000) ∧
    ∀ ev ∈ cleanupOldJobs sweepEnv 5000,
      ev = Event.readDir baseWorkDir ∨ ev = Event.now ∨ (∃ q, ev = Event.stat q) ∨
        ∃ q, ev = Event.removeAll q) :=
  ⟨by decide, by decide, by decide,
    cleanupOldJobs_removes sweepEnv 5000 _ (sweepEnv.Stat []) (by decide) rfl
      (fun _ _ => rfl)⟩


/-! ## Joining a plain file name to a directory -/

theorem head_append_sep (t name : GoString) :
    (t ++ Separator :: name).head? = some Separator ↔ (t = [] ∨ t.head? = some Separator) := by
  cases t <;> simp

theorem head_append_dot (t name : GoString) :
    (t ++ Separator :: name).head? = some '.' ↔ t.head? = some '.' := by
  cases t with
  | nil => simp [Separator]
  | cons a t => simp

theorem tail_append_of_head {t : GoString} (l : GoString) (h : t.head? = some '.') :
    (t ++ l).tail = t.tail ++ l := by
  cases t with
  | nil => simp at h
  | cons a t => rfl

theorem takeWhile_append_sep (l m : GoString) :
    (l ++ Separator :: m).takeWhile (fun x => x != Separator) =
      l.takeWhile (fun x => x != Separator) := by
  induction l with
  | nil => simp
  | cons a l ih =>
    simp only [List.cons_append, List.takeWhile_cons]
    split
    · rw [ih]
    · rfl

theorem dropWhile_append_sep (l m : GoString) :
    (l ++ Separator :: m).dropWhile (fun x => x != Separator) =
      l.dropWhile (fun x => x != Separator) ++ Separator :: m := by
  induction l with
  | nil => simp
  | cons a l ih =>
    simp only [List.cons_append, List.dropWhile_cons]
    split
    · rw [ih]
    · rfl

theorem takeWhile_plain {name : GoString} (h : Separator ∉ name) :
    name.takeWhile (fun x => x != Separator) = name := by
  rw [List.takeWhile_eq_self_iff]
  intro x hx
  have : x ≠ Separator := fun he => h (he ▸ hx)
  simpa using this

theorem dropWhile_plain {name : GoString} (h : Separator ∉ name) :
    name.dropWhile (fun x => x != Separator) = [] := by
  rw [List.dropWhile_eq_nil_iff]
  intro x hx
  have : x ≠ Separator := fun he => h (he ▸ hx)
  simpa using this

theorem cleanLoop_nil (rooted : Bool) (fuel : Nat) (out : List Char) (dd : Nat) :
    cleanLoop rooted fuel [] out dd = out := by
  cases fuel <;> rfl

theorem cleanLoop_plain_last (rooted : Bool) (out : List Char) (dd : Nat) :
    ∃ pre : List Char, ∀ name : GoString, plainName name →
      ∀ fuel, 1 + name.length ≤ fuel →
        cleanLoop rooted fuel (Separator :: name) out dd = pre ++ name := by
  refine ⟨if (rooted = true ∧ out.length ≠ 1) ∨ (rooted = false ∧ out.length ≠ 0)
    then out ++ [Separator] else out, fun name hn fuel hf => ?_⟩
  obtain ⟨hne, hsep, hdot⟩ := hn
  cases name with
  | nil => exact absurd rfl hne
  | cons c t =>
    obtain ⟨f2, rfl⟩ : ∃ f2, fuel = f2 + 1 + 1 := ⟨fuel - 2, by simp at hf; omega⟩
    have hc1 : c ≠ Separator := fun he => hsep (by simp [he])
    have hc2 : c ≠ '.' := fun he => hdot (by simp [he])
    rw [cleanLoop]
    simp only [if_true]
    rw [cleanLoop]
    simp only [hc1, hc2, false_and, if_false]
    rw [takeWhile_plain hsep, dropWhile_plain hsep, cleanLoop_nil]

theorem cleanLoop_plain (rooted : Bool) :
    ∀ (n : Nat) (rest out : List Char) (dd : Nat), rest.length ≤ n →
      ∃ pre : List Char, ∀ name : GoString, plainName name →
        ∀ fuel, rest.length + 1 + name.length ≤ fuel →
          cleanLoop rooted fuel (rest ++ Separator :: name) out dd = pre ++ name := by
  intro n
  induction n with
  | zero =>
    intro rest out dd hlen
    have hr : rest = [] := List.length_eq_zero.1 (Nat.le_zero.1 hlen)
    subst hr
    obtain ⟨pre, h⟩ := cleanLoop_plain_last rooted out dd
    exact ⟨pre, fun name hn fuel hf => h name hn fuel (by simpa using hf)⟩
  | succ n ih =>
    intro rest out dd hlen
    cases rest with
    | nil =>
      obtain ⟨pre, h⟩ := cleanLoop_plain_last rooted out dd
      exact ⟨pre, fun name hn fuel hf => h name hn fuel (by simpa using hf)⟩
    | cons c t =>
      have hlt : t.length ≤ n := by simpa using hlen
      by_cases hA : c = Separator
      · obtain ⟨pre, h⟩ := ih t out dd hlt
        refine ⟨pre, fun name hn fuel hf => ?_⟩
        obtain ⟨f2, rfl⟩ : ∃ f2, fuel = f2 + 1 := ⟨fuel - 1, by simp at hf; omega⟩
        rw [List.cons_append, cleanLoop]
        simp only [hA, if_true]
        exact h name hn f2 (by simp at hf; omega)
      · by_cases hB : c = '.' ∧ (t = [] ∨ t.head? = some Separator)
        · obtain ⟨pre, h⟩ := ih t out dd hlt
          refine ⟨pre, fun name hn fuel hf => ?_⟩
          obtain ⟨f2, rfl⟩ : ∃ f2, fuel = f2 + 1 := ⟨fuel - 1, by simp at hf; omega⟩
          rw [List.cons_append, cleanLoop]
          simp only [hA, if_false]
          rw [if_pos ⟨hB.1, Or.inr ((head_append_sep t name).2 hB.2)⟩]
          exact h name hn f2 (by simp at hf; omega)
        · by_cases hC : c = '.' ∧ t.head? = some '.' ∧
              (t.tail = [] ∨ t.tail.head? = some Separator)
          · have htl : t.tail.length ≤ n := by
              have := List.length_tail t
              omega
            have hcond : ∀ name : GoString, c = '.' ∧ (t ++ Separator :: name).head? = some '.' ∧
                ((t ++ Separator :: name).tail = [] ∨
                  (t ++ Separator :: name).tail.head? = some Separator) := fun name =>
              ⟨hC.1, (head_append_dot t name).2 hC.2.1, Or.inr (by
                rw [tail_append_of_head _ hC.2.1]
                exact (head_append_sep _ name).2 hC.2.2)⟩
            have hnB : ∀ name : GoString, ¬ (c = '.' ∧ ((t ++ Separator :: name) = [] ∨
                (t ++ Separator :: name).head? = some Separator)) := fun name hb =>
              hB ⟨hb.1, by
                rcases hb.2 with h | h
                · simp at h
                · exact (head_append_sep t name).1 h⟩
            have hlen2 : ∀ name : GoString, ∀ fuel, (c :: t).length + 1 + name.length ≤ fuel + 1 →
                t.tail.length + 1 + name.length ≤ fuel := fun name fuel hf => by
              have := List.length_tail t
              simp at hf
              omega
            by_cases h1 : dd < out.length
            · obtain ⟨pre, h⟩ := ih t.tail (backtrack out dd) dd htl
              refine ⟨pre, fun name hn fuel hf => ?_⟩
              obtain ⟨f2, rfl⟩ : ∃ f2, fuel = f2 + 1 := ⟨fuel - 1, by simp at hf; omega⟩
              rw [List.cons_append, cleanLoop]
              simp only [hA, if_false]
              rw [if_neg (hnB name), if_pos (hcond name), if_pos h1,
                tail_append_of_head _ hC.2.1]
              exact h name hn f2 (hlen2 name f2 hf)
            · by_cases h2 : rooted = false
              · obtain ⟨pre, h⟩ := ih t.tail
                  ((if 0 < out.length then out ++ [Separator] else out) ++ ['.', '.'])
                  ((if 0 < out.length then out ++ [Separator] else out) ++ ['.', '.']).length htl
                refine ⟨pre, fun name hn fuel hf => ?_⟩
                obtain ⟨f2, rfl⟩ : ∃ f2, fuel = f2 + 1 := ⟨fuel - 1, by simp at hf; omega⟩
                rw [List.cons_append, cleanLoop]
                simp only [hA, if_false]
                rw [if_neg (hnB name), if_pos (hcond name), if_neg h1, if_pos h2,
                  tail_append_of_head _ hC.2.1]
                exact h name hn f2 (hlen2 name f2 hf)
              · obtain ⟨pre, h⟩ := ih t.tail out dd htl
                refine ⟨pre, fun name hn fuel hf => ?_⟩
                obtain ⟨f2, rfl⟩ : ∃ f2, fuel = f2 + 1 := ⟨fuel - 1, by simp at hf; omega⟩
                rw [List.cons_append, cleanLoop]
                simp only [hA, if_false]
                rw [if_neg (hnB name), if_pos (hcond name), if_neg h1, if_neg h2,
                  tail_append_of_head _ hC.2.1]
                exact h name hn f2 (hlen2 name f2 hf)
          · have hnB : ∀ name : GoString, ¬ (c = '.' ∧ ((t ++ Separator :: name) = [] ∨
                (t ++ Separator :: name).head? = some Separator)) := fun name hb =>
              hB ⟨hb.1, by
                rcases hb.2 with h | h
                · simp at h
                · exact (head_append_sep t name).1 h⟩
            have hnC : ∀ name : GoString, ¬ (c = '.' ∧
                (t ++ Separator :: name).head? = some '.' ∧
                ((t ++ Separator :: name).tail = [] ∨
                  (t ++ Separator :: name).tail.head? = some Separator)) := fun name hc =>
              hC ⟨hc.1, (head_append_dot t name).1 hc.2.1, by
                have hh := (head_append_dot t name).1 hc.2.1
                have h3 := hc.2.2
                rw [tail_append_of_head _ hh] at h3
                rcases h3 with h | h
                · simp at h
                · exact (head_append_sep _ name).1 h⟩
            have hdl : ((c :: t).dropWhile (fun x => x != Separator)).length ≤ n := by
              have hcne : (c != Separator) = true := by simpa using hA
              rw [List.dropWhile_cons, if_pos hcne]
              exact le_trans (List.Sublist.length_le (List.dropWhile_sublist _)) hlt
            obtain ⟨pre, h⟩ := ih ((c :: t).dropWhile (fun x => x != Separator))
              ((if (rooted = true ∧ out.length ≠ 1) ∨ (rooted = false ∧ out.length ≠ 0)
                then out ++ [Separator] else out) ++
                  (c :: t).takeWhile (fun x => x != Separator)) dd hdl
            refine ⟨pre, fun name hn fuel hf => ?_⟩
            obtain ⟨f2, rfl⟩ : ∃ f2, fuel = f2 + 1 := ⟨fuel - 1, by simp at hf; omega⟩
            rw [List.cons_append, cleanLoop]
            simp only [hA, if_false]
            rw [if_neg (hnB name), if_neg (hnC name), ← List.cons_append,
              takeWhile_append_sep, dropWhile_append_sep]
            refine h name hn f2 ?_
            have hcne : (c != Separator) = true := by simpa using hA
            have h5 : ((c :: t).dropWhile (fun x => x != Separator)).length ≤ t.length := by
              rw [List.dropWhile_cons, if_pos hcne]
              exact List.Sublist.length_le (List.dropWhile_sublist _)
            simp at hf
            omega

theorem Clean_ne_nil (p : GoString) : Clean p ≠ [] := by
  unfold Clean
  split
  · simp
  · simp only
    split
    all_goals (intro h; split at h <;> simp_all)

theorem Join_plain (dir : GoString) (hdir : dir ≠ []) :
    ∃ pre : List Char, ∀ name : GoString, plainName name → Join [dir, name] = pre ++ name := by
  have hj : ∀ name : GoString, Join [dir, name] = Clean (dir ++ Separator :: name) := by
    intro name
    cases dir with
    | nil => exact absurd rfl hdir
    | cons a d =>
      cases name <;> simp [Join, joinSep, Clean]
  cases dir with
  | nil => exact absurd rfl hdir
  | cons a d =>
    by_cases ha : a = Separator
    · obtain ⟨pre, h⟩ := cleanLoop_plain true d.length d [Separator] 1 (le_refl _)
      refine ⟨pre, fun name hn => ?_⟩
      rw [hj name]
      unfold Clean
      rw [if_neg (by simp)]
      have hh : ((a :: d ++ Separator :: name).head? = some Separator) := by simp [ha]
      simp only [hh, decide_True, if_true]
      have := h name hn ((a :: d ++ Separator :: name).length) (by simp; omega)
      simp only [List.cons_append, List.tail_cons] at this ⊢
      rw [this, if_neg]
      intro h0
      have := hn.1
      simp_all
    · obtain ⟨pre, h⟩ := cleanLoop_plain false (a :: d).length (a :: d) [] 0 (le_refl _)
      refine ⟨pre, fun name hn => ?_⟩
      rw [hj name]
      unfold Clean
      rw [if_neg (by simp)]
      have hh : ¬ ((a :: d ++ Separator :: name).head? = some Separator) := by simp [ha]
      simp only [hh, decide_False, if_false, Bool.false_eq_true]
      have := h name hn ((a :: d ++ Separator :: name).length) (by simp; omega)
      rw [this, if_neg]
      intro h0
      have := hn.1
      simp_all

/-! ## Decimal numerals -/

theorem digitVal_ofNat {d : Nat} (h : d < 10) : digitVal (Char.ofNat (48 + d)) = some d := by
  interval_cases d <;> rfl

theorem parseDigits_natDigitsLoop :
    ∀ (fuel n : Nat) (acc : List Char) (L V : Nat),
      (∀ y, parseDigits acc y = some (y * 10 ^ L + V)) → n < 10 ^ fuel →
        ∃ L2, ∀ y, parseDigits (natDigitsLoop fuel n acc) y = some (y * 10 ^ L2 + (n * 10 ^ L + V)) := by
  intro fuel
  induction fuel with
  | zero =>
    intro n acc L V hacc hn
    have h0 : n = 0 := by simpa using hn
    subst h0
    exact ⟨L, fun y => by simpa [natDigitsLoop] using hacc y⟩
  | succ fuel ih =>
    intro n acc L V hacc hn
    have hacc1 : ∀ y, parseDigits (Char.ofNat (48 + n % 10) :: acc) y =
        some (y * 10 ^ (L + 1) + (n % 10 * 10 ^ L + V)) := by
      intro y
      rw [parseDigits, digitVal_ofNat (Nat.mod_lt _ (by norm_num))]
      simp only
      rw [hacc]
      congr 1
      ring
    simp only [natDigitsLoop]
    by_cases hq : n / 10 = 0
    · rw [if_pos hq]
      refine ⟨L + 1, fun y => ?_⟩
      rw [hacc1]
      have : n % 10 = n := Nat.mod_eq_of_lt (by omega)
      rw [this]
    · rw [if_neg hq]
      have hlt : n / 10 < 10 ^ fuel := by
        rw [Nat.div_lt_iff_lt_mul (by norm_num)]
        rw [pow_succ] at hn
        exact hn
      obtain ⟨L2, h⟩ := ih (n / 10) _ (L + 1) (n % 10 * 10 ^ L + V) hacc1 hlt
      refine ⟨L2, fun y => ?_⟩
      rw [h]
      congr 2
      have hn2 : n = 10 * (n / 10) + n % 10 := (Nat.div_add_mod n 10).symm
      generalize n / 10 = q at hn2 ⊢
      generalize n % 10 = m at hn2 ⊢
      subst hn2
      ring

theorem parseDigits_natItoa (n : Nat) :
    ∃ L, ∀ y, parseDigits (natItoa n) y = some (y * 10 ^ L + n) := by
  have hlt : n < 10 ^ (n + 1) :=
    lt_trans (Nat.lt_pow_self (by norm_num) n) (Nat.pow_lt_pow_right (by norm_num) (Nat.lt_succ_self n))
  obtain ⟨L, h⟩ := parseDigits_natDigitsLoop (n + 1) n [] 0 0 (fun y => by simp [parseDigits]) hlt
  exact ⟨L, fun y => by simpa using h y⟩

theorem parseDigits_natItoa_zero (n : Nat) : parseDigits (natItoa n) 0 = some n := by
  obtain ⟨L, h⟩ := parseDigits_natItoa n
  simpa using h 0

theorem natItoa_injective {m n : Nat} (h : natItoa m = natItoa n) : m = n := by
  have h1 := parseDigits_natItoa_zero m
  rw [h, parseDigits_natItoa_zero] at h1
  exact (Option.some.inj h1).symm

theorem digit_of_parseDigits :
    ∀ (ds : List Char) (y v : Nat), parseDigits ds y = some v →
      ∀ c ∈ ds, (digitVal c).isSome = true := by
  intro ds
  induction ds with
  | nil => intro y v _ c hc; cases hc
  | cons d ds ih =>
    intro y v h c hc
    rw [parseDigits] at h
    cases hd : digitVal d with
    | none => rw [hd] at h; cases h
    | some k =>
      rw [hd] at h
      rcases List.mem_cons.1 hc with rfl | hc
      · rw [hd]; rfl
      · exact ih _ _ h c hc

theorem natItoa_digits (n : Nat) : ∀ c ∈ natItoa n, (digitVal c).isSome = true :=
  digit_of_parseDigits _ _ _ (parseDigits_natItoa_zero n)

theorem natDigitsLoop_length (fuel n : Nat) :
    ∀ acc : List Char, acc.length + 1 ≤ (natDigitsLoop (fuel + 1) n acc).length := by
  induction fuel generalizing n with
  | zero =>
    intro acc
    rw [natDigitsLoop]
    split
    · simp
    · simp [natDigitsLoop]
  | succ fuel ih =>
    intro acc
    rw [natDigitsLoop]
    split
    · simp
    · have := ih (n / 10) (Char.ofNat (48 + n % 10) :: acc)
      simp only [List.length_cons] at this
      omega

theorem natItoa_ne_nil (n : Nat) : natItoa n ≠ [] := by
  intro h
  have := natDigitsLoop_length n n []
  unfold natItoa at h
  rw [h] at this
  simp at this

theorem digit_not_space {c : Char} (h : (digitVal c).isSome = true) : isSpace c = false := by
  unfold digitVal at h
  split at h
  · rename_i hc
    have h1 : 48 ≤ c.toNat := hc.1
    have h2 : c.toNat ≤ 57 := hc.2
    unfold isSpace
    simp only [Bool.or_eq_false_iff, Bool.and_eq_false_iff, decide_eq_false_iff_not,
      beq_eq_false_iff_ne, ne_eq]
    omega
  · cases h

theorem digit_ne {c d : Char} (h : (digitVal c).isSome = true) (hd : digitVal d = none) :
    c ≠ d := by
  intro he
  rw [he, hd] at h
  cases h

theorem Atoi_natItoa {n : Nat} (h : n < 2 ^ 63) : Atoi (natItoa n) = some (n : Int) := by
  have hne := natItoa_ne_nil n
  have hd := natItoa_digits n
  have hp := parseDigits_natItoa_zero n
  cases hs : natItoa n with
  | nil => exact absurd hs hne
  | cons c t =>
    rw [hs] at hd hp
    have hc := hd c (List.mem_cons_self _ _)
    have h1 : c ≠ '-' := digit_ne hc (by decide)
    have h2 : c ≠ '+' := digit_ne hc (by decide)
    unfold Atoi
    simp only [List.head?_cons, Option.some.injEq, h1, h2, or_self, if_false]
    rw [if_neg (List.cons_ne_nil _ _), hp]
    simp only [decide_False, Bool.false_eq_true, if_false]
    rw [if_pos]
    constructor
    · have : (0 : Int) ≤ n := Int.ofNat_nonneg n
      omega
    · have : (n : Int) < 2 ^ 63 := by exact_mod_cast h
      omega

theorem Itoa_of_nonneg {n : Int} (h : 0 ≤ n) : Itoa n = natItoa n.toNat := by
  unfold Itoa
  rw [if_neg (by omega)]
  congr 1
  omega

theorem Atoi_Itoa {n : Int} (h0 : 0 ≤ n) (h : n < 2 ^ 63) : Atoi (Itoa n) = some n := by
  rw [Itoa_of_nonneg h0, Atoi_natItoa (by omega)]
  congr 1
  omega

theorem parseDigits_zeros (k : Nat) (ds : List Char) :
    parseDigits (List.replicate k '0' ++ ds) 0 = parseDigits ds 0 := by
  induction k with
  | zero => rfl
  | succ k ih =>
    rw [List.replicate_succ, List.cons_append, parseDigits]
    have : digitVal '0' = some 0 := by decide
    rw [this]
    exact ih

theorem fmt04d_injective {i j : Int} (hi : 0 ≤ i) (hj : 0 ≤ j) (h : fmt04d i = fmt04d j) :
    i = j := by
  unfold fmt04d at h
  simp only at h
  rw [if_neg (by omega), if_neg (by omega)] at h
  have h1 := congrArg (fun s => parseDigits s 0) h
  simp only [parseDigits_zeros, parseDigits_natItoa_zero, Option.some.injEq] at h1
  omega

theorem fmt04d_digits {i : Int} (hi : 0 ≤ i) : ∀ c ∈ fmt04d i, (digitVal c).isSome = true := by
  unfold fmt04d
  simp only
  rw [if_neg (by omega)]
  intro c hc
  rcases List.mem_append.1 hc with h | h
  · rw [List.eq_of_mem_replicate h]
    decide
  · exact natItoa_digits _ c h

/-! ## The page-count parsers -/

theorem fieldsAux_spaces (ws : List Char) (hws : ∀ c ∈ ws, isSpace c = true) (cur : GoString) :
    fieldsAux ws cur = if cur = [] then [] else [cur] := by
  induction ws generalizing cur with
  | nil => rfl
  | cons w ws ih =>
    have hw : isSpace w = true := hws w (List.mem_cons_self _ _)
    have ih2 := ih (fun c hc => hws c (List.mem_cons_of_mem _ hc)) []
    rw [if_pos rfl] at ih2
    rw [fieldsAux, if_pos hw, ih2]

theorem fieldsAux_append_spaces (ws : List Char) (hws : ∀ c ∈ ws, isSpace c = true)
    (s : List Char) : ∀ cur : GoString, fieldsAux (s ++ ws) cur = fieldsAux s cur := by
  induction s with
  | nil =>
    intro cur
    rw [List.nil_append, fieldsAux_spaces ws hws]
    rfl
  | cons c s ih =>
    intro cur
    rw [List.cons_append, fieldsAux, fieldsAux]
    simp only [ih]

theorem fieldsAux_skip_spaces (ws : List Char) (hws : ∀ c ∈ ws, isSpace c = true)
    (rest : List Char) : fieldsAux (ws ++ rest) [] = fieldsAux rest [] := by
  induction ws with
  | nil => rfl
  | cons w ws ih =>
    have hw : isSpace w = true := hws w (List.mem_cons_self _ _)
    rw [List.cons_append, fieldsAux, if_pos hw, if_pos rfl]
    exact ih (fun c hc => hws c (List.mem_cons_of_mem _ hc))

theorem fieldsAux_word (w : List Char) (hw : ∀ c ∈ w, isSpace c = false) (rest : List Char) :
    ∀ cur : GoString, fieldsAux (w ++ rest) cur = fieldsAux rest (cur ++ w) := by
  induction w with
  | nil => intro cur; simp
  | cons c w ih =>
    intro cur
    have hc : isSpace c = false := hw c (List.mem_cons_self _ _)
    rw [List.cons_append, fieldsAux, hc]
    simp only [Bool.false_eq_true, if_false]
    rw [ih (fun d hd => hw d (List.mem_cons_of_mem _ hd))]
    simp

theorem Fields_dropWhile (s : GoString) : Fields (s.dropWhile isSpace) = Fields s := by
  unfold Fields
  induction s with
  | nil => rfl
  | cons c s ih =>
    rw [List.dropWhile_cons]
    by_cases hc : isSpace c = true
    · rw [if_pos hc, ih, fieldsAux, if_pos hc, if_pos rfl]
    · rw [if_neg hc]

theorem Fields_rdropWhile (s : GoString) : Fields (s.rdropWhile isSpace) = Fields s := by
  unfold Fields
  induction s using List.reverseRecOn with
  | nil => rfl
  | append_singleton l x ih =>
    rw [List.rdropWhile_concat]
    by_cases hx : isSpace x = true
    · rw [if_pos hx, ih, fieldsAux_append_spaces [x] (by simpa using hx)]
    · rw [if_neg hx]

theorem Fields_TrimSpace (s : GoString) : Fields (TrimSpace s) = Fields s := by
  unfold TrimSpace
  rw [Fields_rdropWhile, Fields_dropWhile]

/-- The fields of a line `Pages:`, white space, digits. -/
theorem Fields_pages (ws digits : List Char) (hws : ∀ c ∈ ws, isSpace c = true)
    (hne : ws ≠ []) (hd : ∀ c ∈ digits, isSpace c = false) (hdne : digits ≠ []) :
    Fields ("Pages:".toList ++ ws ++ digits) = ["Pages:".toList, digits] := by
  unfold Fields
  rw [List.append_assoc, fieldsAux_word "Pages:".toList (by decide)]
  cases ws with
  | nil => exact absurd rfl hne
  | cons w ws =>
    have hw : isSpace w = true := hws w (List.mem_cons_self _ _)
    rw [List.cons_append, fieldsAux, if_pos hw, if_neg (by simp),
      fieldsAux_skip_spaces ws (fun c hc => hws c (List.mem_cons_of_mem _ hc))]
    have h := fieldsAux_word digits hd [] []
    rw [List.append_nil] at h
    rw [h, fieldsAux, if_neg (by simpa using hdne)]
    rfl

theorem HasPrefix_append (pre rest : GoString) : HasPrefix (pre ++ rest) pre = true := by
  unfold HasPrefix
  simp

theorem popplerLines_skip (pre : List GoString)
    (hpre : ∀ l ∈ pre, HasPrefix (TrimSpace l) "Pages:".toList = false) (rest : List GoString) :
    popplerLines (pre ++ rest) = popplerLines rest := by
  induction pre with
  | nil => rfl
  | cons l pre ih =>
    rw [List.cons_append, popplerLines]
    simp only [hpre l (List.mem_cons_self _ _), Bool.false_eq_true, if_false]
    exact ih (fun l2 h2 => hpre l2 (List.mem_cons_of_mem _ h2))

theorem pdfcpuLines_skip (pre : List GoString)
    (hpre : ∀ l ∈ pre, HasPrefix (TrimSpace l) "Pages:".toList = false) (rest : List GoString) :
    pdfcpuLines (pre ++ rest) = pdfcpuLines rest := by
  induction pre with
  | nil => rfl
  | cons l pre ih =>
    rw [List.cons_append, pdfcpuLines]
    simp only [hpre l (List.mem_cons_self _ _), Bool.false_eq_true, if_false]
    exact ih (fun l2 h2 => hpre l2 (List.mem_cons_of_mem _ h2))

theorem pageLines_found (pre post : List GoString) (line ws : GoString) (n : Int)
    (hpre : ∀ l ∈ pre, HasPrefix (TrimSpace l) "Pages:".toList = false)
    (hline : TrimSpace line = "Pages:".toList ++ ws ++ Itoa n)
    (hne : ws ≠ []) (hws : ∀ c ∈ ws, isSpace c = true) (h0 : 0 < n) (h63 : n < 2 ^ 63) :
    popplerLines (pre ++ line :: post) = PageCount.ok n ∧
      pdfcpuLines (pre ++ line :: post) = PageCount.ok n := by
  have hnat : Itoa n = natItoa n.toNat := Itoa_of_nonneg (le_of_lt h0)
  have hf : Fields (TrimSpace line) = ["Pages:".toList, Itoa n] := by
    rw [hline]
    refine Fields_pages ws (Itoa n) hws hne ?_ ?_
    · rw [hnat]
      exact fun c hc => digit_not_space (natItoa_digits _ c hc)
    · rw [hnat]
      exact natItoa_ne_nil _
  have hp : HasPrefix (TrimSpace line) "Pages:".toList = true := by
    rw [hline, List.append_assoc]
    exact HasPrefix_append _ _
  have ha : Atoi (Itoa n) = some n := Atoi_Itoa (le_of_lt h0) h63
  constructor
  · rw [popplerLines_skip pre hpre, popplerLines]
    simp only [hp, if_true, hf]
    simp [ha, h0]
  · rw [pdfcpuLines_skip pre hpre, pdfcpuLines]
    simp only [hp, if_true, ← Fields_TrimSpace line, hf]
    simp [ha]

theorem pageLines_absent (lines : List GoString)
    (h : ∀ l ∈ lines, HasPrefix (TrimSpace l) "Pages:".toList = false) :
    popplerLines lines = PageCount.couldNotParse ∧
      pdfcpuLines lines = PageCount.couldNotParse := by
  have h1 := popplerLines_skip lines h []
  have h2 := pdfcpuLines_skip lines h []
  rw [List.append_nil] at h1 h2
  exact ⟨h1, h2⟩

theorem pageCountPoppler_of_output {env : Env} {tr : List Event} {dir inPath t : GoString}
    (h : env.Run tr dir "pdfinfo".toList [inPath] = some t) :
    (pageCountPoppler env tr dir inPath).1 = popplerLines (Split t newline) := by
  simp only [pageCountPoppler, runCommandOutput, h]

theorem pageCountPDF_of_output {env : Env} {tr : List Event} {dir inPath t : GoString}
    (h : env.Run tr dir "pdfcpu".toList ["info".toList, inPath] = some t) :
    (pageCountPDF env tr dir inPath).1 = pdfcpuLines (Split t newline) := by
  simp only [pageCountPDF, runCommandOutput, h]

/-- Claim C15, counterexample. The line `Pages: 9223372036854775808` carries
the decimal form of the positive integer `2 ^ 63`, which is not a value of the
64-bit `int`: both parsers answer `could not parse page count`. -/
theorem pageCount_out_of_range :
    Itoa (2 ^ 63) = "9223372036854775808".toList ∧
    popplerLines (Split "Pages: 9223372036854775808".toList newline)
      = PageCount.couldNotParse ∧
    pdfcpuLines (Split "Pages: 9223372036854775808".toList newline)
      = PageCount.couldNotParse := by
  decide

/-- Claim C15, amended. For both page-count parsers, given a tool run that
succeeded with output text `t`: if no line of `t`, after trimming white space,
starts with `Pages:`, the result is the error `could not parse page count`;
and if the first such line is, after trimming, `Pages:` followed by white
space and the decimal form of a positive integer `n` below `2 ^ 63`, the
result is `n`. -/
theorem pageCount_parsers (env : Env) (tr : List Event) (dir inPath t : GoString) :
    (env.Run tr dir "pdfinfo".toList [inPath] = some t →
      ((∀ l ∈ Split t newline, HasPrefix (TrimSpace l) "Pages:".toList = false) →
        (pageCountPoppler env tr dir inPath).1 = PageCount.couldNotParse) ∧
      ∀ (pre post : List GoString) (line ws : GoString) (n : Int),
        Split t newline = pre ++ line :: post →
        (∀ l ∈ pre, HasPrefix (TrimSpace l) "Pages:".toList = false) →
        TrimSpace line = "Pages:".toList ++ ws ++ Itoa n →
        ws ≠ [] → (∀ c ∈ ws, isSpace c = true) → 0 < n → n < 2 ^ 63 →
        (pageCountPoppler env tr dir inPath).1 = PageCount.ok n) ∧
    (env.Run tr dir "pdfcpu".toList ["info".toList, inPath] = some t →
      ((∀ l ∈ Split t newline, HasPrefix (TrimSpace l) "Pages:".toList = false) →
        (pageCountPDF env tr dir inPath).1 = PageCount.couldNotParse) ∧
      ∀ (pre post : List GoString) (line ws : GoString) (n : Int),
        Split t newline = pre ++ line :: post →
        (∀ l ∈ pre, HasPrefix (TrimSpace l) "Pages:".toList = false) →
        TrimSpace line = "Pages:".toList ++ ws ++ Itoa n →
        ws ≠ [] → (∀ c ∈ ws, isSpace c = true) → 0 < n → n < 2 ^ 63 →
        (pageCountPDF env tr dir inPath).1 = PageCount.ok n) := by
  constructor
  · intro h1
    rw [pageCountPoppler_of_output h1]
    refine ⟨fun h => (pageLines_absent _ h).1, ?_⟩
    intro pre post line ws n hs hpre hline hne hws h0 h63
    rw [hs]
    exact (pageLines_found pre post line ws n hpre hline hne hws h0 h63).1
  · intro h2
    rw [pageCountPDF_of_output h2]
    refine ⟨fun h => (pageLines_absent _ h).2, ?_⟩
    intro pre post line ws n hs hpre hline hne hws h0 h63
    rw [hs]
    exact (pageLines_found pre post line ws n hpre hline hne hws h0 h63).2

theorem pageCount_parsers_witness :
    (pageCountPoppler twoPagesEnv [] "/app/work/j".toList "/app/work/j/input.pdf".toList).1
      = PageCount.ok 2 ∧
    (pageCountPDF twoPagesEnv [] "/app/work/j".toList "/app/work/j/input.pdf".toList).1
      = PageCount.ok 2 :=
  have h := pageCount_parsers twoPagesEnv [] "/app/work/j".toList
    "/app/work/j/input.pdf".toList "Producer: pdfcpu\nPages:          2\n".toList
  ⟨(h.1 rfl).2 ["Producer: pdfcpu".toList] ["".toList] "Pages:          2".toList
      "          ".toList 2 (by decide) (by decide) (by decide) (by decide) (by decide)
      (by decide) (by decide),
    (h.2 rfl).2 ["Producer: pdfcpu".toList] ["".toList] "Pages:          2".toList
      "          ".toList 2 (by decide) (by decide) (by decide) (by decide) (by decide)
      (by decide) (by decide)⟩


/-! ## The organize operation -/

theorem toolRuns_append (a b : List Event) : toolRuns (a ++ b) = toolRuns a ++ toolRuns b := by
  induction a with
  | nil => rfl
  | cons e a ih => cases e <;> simp [toolRuns, ih]

theorem normDeg_eq_emod (d : Int) : normDeg d = d % 360 := by
  unfold normDeg
  cases d with
  | ofNat k =>
    have h : (0 : Int) ≤ Int.ofNat k := Int.ofNat_nonneg k
    rw [Int.tmod_eq_emod h (by norm_num), Int.tmod_eq_emod (by omega) (by norm_num)]
    omega
  | negSucc k =>
    have h1 : Int.tmod (Int.negSucc k) 360 = -(((k + 1) % 360 : Nat) : Int) := rfl
    rw [h1, Int.tmod_eq_emod (by omega) (by norm_num), Int.negSucc_eq]
    push_cast
    omega

theorem groupRotations_fold (rotations : List OrganizeRotation) :
    ∀ b : Buckets,
      (rotations.foldl addRotation b).b90 = b.b90 ++ rotationPages rotations 90 ∧
      (rotations.foldl addRotation b).b180 = b.b180 ++ rotationPages rotations 180 ∧
      (rotations.foldl addRotation b).b270 = b.b270 ++ rotationPages rotations 270 := by
  induction rotations with
  | nil => intro b; simp [rotationPages]
  | cons rot rest ih =>
    intro b
    rw [List.foldl_cons]
    obtain ⟨h1, h2, h3⟩ := ih (addRotation b rot)
    rw [h1, h2, h3]
    simp only [addRotation, normDeg_eq_emod, rotationPages, List.filter_cons]
    have hm := Int.emod_nonneg rot.Degrees (by norm_num : (360 : Int) ≠ 0)
    split_ifs <;> simp_all <;> omega

theorem groupRotations_get (rotations : List OrganizeRotation) (d : Int)
    (hd : d = 90 ∨ d = 180 ∨ d = 270) :
    (groupRotations rotations).get d = rotationPages rotations d := by
  obtain ⟨h1, h2, h3⟩ := groupRotations_fold rotations ⟨[], [], []⟩
  unfold groupRotations
  rcases hd with rfl | rfl | rfl
  · simpa [Buckets.get] using h1
  · simpa [Buckets.get] using h2
  · simpa [Buckets.get] using h3

theorem rotateBuckets_runs (env : Env) (dir workPath : GoString) (b : Buckets)
    (degs : List Int) :
    ∀ tr : List Event,
      toolRuns (rotateBuckets env dir workPath b degs tr).2 <+:
        toolRuns tr ++ (degs.filter (fun d => decide (b.get d ≠ []))).map
          (fun d => ("pdfcpu".toList, rotateArgs workPath (b.get d) d)) ∧
      ((rotateBuckets env dir workPath b degs tr).1 = true →
        toolRuns (rotateBuckets env dir workPath b degs tr).2 =
          toolRuns tr ++ (degs.filter (fun d => decide (b.get d ≠ []))).map
            (fun d => ("pdfcpu".toList, rotateArgs workPath (b.get d) d))) := by
  induction degs with
  | nil => intro tr; simp [rotateBuckets]
  | cons d rest ih =>
    intro tr
    rw [rotateBuckets]
    by_cases he : (b.get d).length = 0
    · rw [if_pos he]
      have he2 : b.get d = [] := List.length_eq_zero.1 he
      rw [List.filter_cons, if_neg (by simp [he2])]
      exact ih tr
    · rw [if_neg he]
      have he2 : b.get d ≠ [] := fun h => he (by rw [h]; rfl)
      rw [List.filter_cons, if_pos (by simpa using he2), List.map_cons]
      simp only [runCommand]
      cases (env.Run tr dir "pdfcpu".toList (rotateArgs workPath (b.get d) d)).isSome with
      | false =>
        simp only [toolRuns_append, toolRuns]
        refine ⟨?_, fun h => by cases h⟩
        exact (List.prefix_append_right_inj _).2 ⟨_, rfl⟩
      | true =>
        simp only
        have h := ih (tr ++ [Event.run dir "pdfcpu".toList (rotateArgs workPath (b.get d) d)])
        simp only [toolRuns_append, toolRuns, List.append_assoc, List.singleton_append] at h
        exact h

theorem rotateBuckets_runs_false {env : Env} {dir workPath : GoString} {b : Buckets}
    {degs : List Int} {tr : List Event}
    (_h : (rotateBuckets env dir workPath b degs tr).1 = false) :
    toolRuns (rotateBuckets env dir workPath b degs tr).2 <+:
      toolRuns tr ++ (degs.filter (fun d => decide (b.get d ≠ []))).map
        (fun d => ("pdfcpu".toList, rotateArgs workPath (b.get d) d)) :=
  (rotateBuckets_runs env dir workPath b degs tr).1

theorem rotateBuckets_runs_true {env : Env} {dir workPath : GoString} {b : Buckets}
    {degs : List Int} {tr : List Event}
    (h : (rotateBuckets env dir workPath b degs tr).1 = true) :
    toolRuns (rotateBuckets env dir workPath b degs tr).2 =
      toolRuns tr ++ (degs.filter (fun d => decide (b.get d ≠ []))).map
        (fun d => ("pdfcpu".toList, rotateArgs workPath (b.get d) d)) :=
  (rotateBuckets_runs env dir workPath b degs tr).2 h

theorem organizeRuns_eq (dir order : GoString) (rotations : List OrganizeRotation) :
    organizeRuns dir order rotations =
      (([90, 180, 270] : List Int).filter
          (fun d => decide ((groupRotations rotations).get d ≠ []))).map
        (fun d => ("pdfcpu".toList,
          rotateArgs (Join [dir, "work.pdf".toList]) ((groupRotations rotations).get d) d)) ++
      [("pdfcpu".toList,
        ["collect".toList, "-pages".toList, order, Join [dir, "work.pdf".toList],
          Join [dir, defaultFilename]])] := by
  have e1 := groupRotations_get rotations 90 (Or.inl rfl)
  have e2 := groupRotations_get rotations 180 (Or.inr (Or.inl rfl))
  have e3 := groupRotations_get rotations 270 (Or.inr (Or.inr rfl))
  unfold organizeRuns
  simp only [List.filter_cons, List.filter_nil, e1, e2, e3]
  split_ifs <;> simp [rotateArgs, e1, e2, e3]

theorem sortInts_sorted (l : List Int) : List.Sorted (fun a b => a ≤ b) (sortInts l) :=
  List.sorted_insertionSort _ l

theorem sortInts_perm (l : List Int) : (sortInts l).Perm l :=
  List.perm_insertionSort _ l

theorem handleOrganize_runs (env : Env) (r : Request) (header : FileHeader)
    (rotations : List OrganizeRotation)
    (hm : r.Method = "POST".toList) (hp : r.multipartOk = true)
    (hf : r.FormFile "file".toList = some header)
    (ho : TrimSpace (r.FormValue "order".toList) ≠ [])
    (hraw : TrimSpace (r.FormValue "rotations".toList) ≠ [])
    (hrot : env.unmarshalRotations (TrimSpace (r.FormValue "rotations".toList)) =
      some rotations) :
    runsWithin (handleOrganize env r)
      (organizeRuns (Join [baseWorkDir, env.NewString []])
        (TrimSpace (r.FormValue "order".toList)) rotations) := by
  rw [organizeRuns_eq]
  unfold handleOrganize
  rw [if_neg (by simp [hm]), if_neg (by simp [hp]), hf]
  simp only
  rw [if_neg ho]
  simp only [newJobDir_eq, saveUploadedFile, osReadFile, osWriteFile, organizeCollect,
    runCommand, hrot, if_pos hraw]
  repeat' split
  all_goals (try simp only [Prod.mk.injEq, Option.ite_none_right_eq_some, ite_eq_right_iff,
    Option.some.injEq] at *)
  all_goals (try simp only [Prod.ext_iff] at *)
  all_goals (try casesm* _ ∧ _)
  all_goals subst_vars
  all_goals first
    | (simp [runsWithin, toolRuns, toolRuns_append, errorJSON]; done)
    | (have h := rotateBuckets_runs_false (by assumption)
       simp only [runsWithin, toolRuns_append, toolRuns, errorJSON]
       refine ⟨?_, fun h5 => by simp at h5⟩
       exact h.trans (List.prefix_append _ _))
    | (have h := rotateBuckets_runs_true (by assumption)
       simp only [runsWithin, toolRuns_append, toolRuns, errorJSON, h]
       simp [toolRuns])

theorem mem_rotationPages (rotations : List OrganizeRotation) (d p : Int) :
    p ∈ rotationPages rotations d ↔
      ∃ rot ∈ rotations, rot.PageNumber = p ∧ 0 < rot.PageNumber ∧ rot.Degrees % 360 = d := by
  simp [rotationPages]
  constructor
  · rintro ⟨rot, ⟨h1, h2, h3⟩, h4⟩
    exact ⟨rot, h1, h4, h2, h3⟩
  · rintro ⟨rot, h1, h4, h2, h3⟩
    exact ⟨rot, ⟨h1, h2, h3⟩, h4⟩

/-- Claim C13. For an organize request (a `POST` with a parseable body, a
`file` part and an `order`) whose `rotations` value parses to the list
`rotations`: the pages of the bucket of 90, 180 or 270 degrees are the page
numbers of the entries with a positive page number whose angle modulo 360 is
that angle, and no other entry is used; the tool runs are an initial part of
the list made of one `pdfcpu rotate` for each non-empty bucket, in the order
90, 180, 270, with the sorted pages joined by commas as its `-pages` argument,
followed by the single `pdfcpu collect` whose `-pages` argument is the trimmed
`order` value; and they are the whole list when the answer is 200. -/
theorem handleOrganize_rotations (env : Env) (r : Request) (header : FileHeader)
    (rotations : List OrganizeRotation)
    (hm : r.Method = "POST".toList) (hp : r.multipartOk = true)
    (hf : r.FormFile "file".toList = some header)
    (ho : TrimSpace (r.FormValue "order".toList) ≠ [])
    (hraw : TrimSpace (r.FormValue "rotations".toList) ≠ [])
    (hrot : env.unmarshalRotations (TrimSpace (r.FormValue "rotations".toList)) =
      some rotations) :
    (toolRuns (handleOrganize env r).2 <+:
        organizeRuns (Join [baseWorkDir, env.NewString []])
          (TrimSpace (r.FormValue "order".toList)) rotations ∧
      ((handleOrganize env r).1.status = 200 →
        toolRuns (handleOrganize env r).2 =
          organizeRuns (Join [baseWorkDir, env.NewString []])
            (TrimSpace (r.FormValue "order".toList)) rotations)) ∧
    (∀ d, d = 90 ∨ d = 180 ∨ d = 270 →
      (groupRotations rotations).get d = rotationPages rotations d) ∧
    (∀ d p, p ∈ rotationPages rotations d ↔
      ∃ rot ∈ rotations, rot.PageNumber = p ∧ 0 < rot.PageNumber ∧ rot.Degrees % 360 = d) ∧
    ∀ d, List.Sorted (fun a b => a ≤ b) (sortInts (rotationPages rotations d)) ∧
      (sortInts (rotationPages rotations d)).Perm (rotationPages rotations d) :=
  ⟨handleOrganize_runs env r header rotations hm hp hf ho hraw hrot,
    groupRotations_get rotations, mem_rotationPages rotations,
    fun _ => ⟨sortInts_sorted _, sortInts_perm _⟩⟩

theorem handleOrganize_rotations_witness :
    toolRuns (handleOrganize mixedRotationsEnv
        (uploadRequest [("order".toList, " 2,1 ".toList), ("rotations".toList, "x".toList)])).2 =
      organizeRuns (Join [baseWorkDir, mixedRotationsEnv.NewString []])
        (TrimSpace ((uploadRequest [("order".toList, " 2,1 ".toList),
          ("rotations".toList, "x".toList)]).FormValue "order".toList))
        [⟨3, 90⟩, ⟨1, 450⟩, ⟨2, -90⟩, ⟨0, 90⟩, ⟨5, 45⟩] ∧
    organizeRuns (Join [baseWorkDir, sampleJob]) "2,1".toList
        [⟨3, 90⟩, ⟨1, 450⟩, ⟨2, -90⟩, ⟨0, 90⟩, ⟨5, 45⟩] =
      [("pdfcpu".toList, ["rotate".toList, "-pages".toList, "1,3".toList,
          Join [baseWorkDir, sampleJob, "work.pdf".toList], "-90".toList]),
        ("pdfcpu".toList, ["rotate".toList, "-pages".toList, "2".toList,
          Join [baseWorkDir, sampleJob, "work.pdf".toList], "-270".toList]),
        ("pdfcpu".toList, ["collect".toList, "-pages".toList, "2,1".toList,
          Join [baseWorkDir, sampleJob, "work.pdf".toList],
          Join [baseWorkDir, sampleJob, "output.pdf".toList]])] :=
  ⟨(handleOrganize_rotations mixedRotationsEnv
      (uploadRequest [("order".toList, " 2,1 ".toList), ("rotations".toList, "x".toList)])
      ⟨"a.pdf".toList, 0⟩ _ rfl rfl rfl (by decide) (by decide) rfl).1.2 (by decide),
    by decide⟩

/-- Claim C14, failing input. For the request to rotate page 1 by 90 degrees
the organize handler runs `pdfcpu rotate` with the angle argument `-90`, while
the rotate handler passes `90` for 90 degrees; for every bucket angle `d` the
angle argument of the organize handler is the decimal form of `d` with a minus
sign in front. -/
theorem handleOrganize_angle_argument :
    toolRuns (handleOrganize rotationsEnv
        (uploadRequest [("order".toList, "1".toList),
          ("rotations".toList, "[\x7b\x22pageNumber\x22:1,\x22degrees\x22:90\x7d]".toList)])).2 =
      [("pdfcpu".toList, ["rotate".toList, "-pages".toList, "1".toList,
          Join [baseWorkDir, sampleJob, "work.pdf".toList], "-90".toList]),
        ("pdfcpu".toList, ["collect".toList, "-pages".toList, "1".toList,
          Join [baseWorkDir, sampleJob, "work.pdf".toList],
          Join [baseWorkDir, sampleJob, "output.pdf".toList]])] ∧
    toolRuns (handleRotate (okEnv fun _ => none)
        (uploadRequest [("degrees".toList, "90".toList)])).2 =
      [("pdfcpu".toList, ["rotate".toList, Join [baseWorkDir, sampleJob, "input.pdf".toList],
          "90".toList, Join [baseWorkDir, sampleJob, "output.pdf".toList]])] ∧
    ∀ (workPath : GoString) (pages : List Int) (d : Int),
      (rotateArgs workPath pages d).getLast? = some ('-' :: Itoa d) := by
  refine ⟨by decide, by decide, fun _ _ _ => rfl⟩


/-! ## The page-numbering operation -/

theorem ite_clamp (lo hi n : Int) :
    (if hi < (if n < lo then lo else n) then hi else (if n < lo then lo else n)) =
      clampInt lo hi n := by
  unfold clampInt
  simp only [min_def, max_def]
  split_ifs <;> omega

theorem choosePagePath_runs (env : Env) (tr : List Event) (pagesDir : GoString) (i : Int) :
    toolRuns (choosePagePath env tr pagesDir i).2 = toolRuns tr ∧
      (choosePagePath env tr pagesDir i).1 ∈ pageFileCandidates pagesDir i := by
  simp only [choosePagePath, osStat, pageFileCandidates]
  repeat' split
  all_goals (try simp only [Prod.mk.injEq] at *)
  all_goals (try casesm* _ ∧ _)
  all_goals subst_vars
  all_goals simp [toolRuns_append, toolRuns]

theorem stampPages_runs (env : Env) (dir pagesDir desc : GoString) (startAt : Int) :
    ∀ (k : Nat) (i : Int) (tr : List Event) (stamped : List GoString),
      ∃ pages : List GoString, pages.length ≤ k ∧ pagesChosen pagesDir i pages ∧
        toolRuns (stampPages env dir pagesDir desc startAt k i tr stamped).2 =
          toolRuns tr ++ stampRuns dir desc startAt i pages ∧
        ∀ st, (stampPages env dir pagesDir desc startAt k i tr stamped).1 = some st →
          pages.length = k ∧ st = stamped ++ stampedPaths dir i k := by
  intro k
  induction k with
  | zero =>
    intro i tr stamped
    refine ⟨[], le_refl _, trivial, by simp [stampPages, stampRuns], ?_⟩
    intro st h
    simp only [stampPages, Option.some.injEq] at h
    simp [stampedPaths, h]
  | succ k ih =>
    intro i tr stamped
    obtain ⟨hc1, hc2⟩ := choosePagePath_runs env tr pagesDir i
    rw [stampPages]
    rcases hcp : choosePagePath env tr pagesDir i with ⟨pagePath, tr1⟩
    rw [hcp] at hc1 hc2
    simp only at hc1 hc2 ⊢
    simp only [runCommand]
    cases (env.Run tr1 dir "pdfcpu".toList
        ["stamp".toList, "add".toList, "-mode".toList, "text".toList, "--".toList,
          Itoa (wrapInt (startAt + (i - 1))), desc, pagePath,
          Join [dir, "stamped-".toList ++ fmt04d i ++ ".pdf".toList]]).isSome with
    | false =>
      refine ⟨[pagePath], by simp, ⟨hc2, trivial⟩, ?_, fun st h => by cases h⟩
      simp only [toolRuns_append, toolRuns, hc1, stampRuns, stampedPath]
    | true =>
      obtain ⟨pages, h1, h2, h3, h4⟩ := ih (i + 1)
        (tr1 ++ [Event.run dir "pdfcpu".toList
          ["stamp".toList, "add".toList, "-mode".toList, "text".toList, "--".toList,
            Itoa (wrapInt (startAt + (i - 1))), desc, pagePath,
            Join [dir, "stamped-".toList ++ fmt04d i ++ ".pdf".toList]]])
        (stamped ++ [Join [dir, "stamped-".toList ++ fmt04d i ++ ".pdf".toList]])
      refine ⟨pagePath :: pages, by simpa using h1, ⟨hc2, h2⟩, ?_, ?_⟩
      · simp only
        rw [h3]
        simp only [toolRuns_append, toolRuns, hc1, stampRuns, stampedPath, List.append_assoc,
          List.singleton_append]
      · intro st hst
        obtain ⟨h5, h6⟩ := h4 st hst
        refine ⟨by simp [h5], ?_⟩
        rw [h6]
        simp [stampedPaths, stampedPath]

theorem stampedName_plain {i : Int} (hi : 0 ≤ i) :
    plainName ("stamped-".toList ++ fmt04d i ++ ".pdf".toList) := by
  refine ⟨by simp, ?_, by simp⟩
  intro h
  simp only [List.mem_append] at h
  rcases h with (h | h) | h
  · revert h
    decide
  · exact digit_ne (fmt04d_digits hi _ h) (by decide) rfl
  · revert h
    decide

theorem stampedPath_injective (dir : GoString) (hdir : dir ≠ []) {i j : Int} (hi : 0 ≤ i)
    (hj : 0 ≤ j) (h : stampedPath dir i = stampedPath dir j) : i = j := by
  obtain ⟨pre, hpre⟩ := Join_plain dir hdir
  unfold stampedPath at h
  rw [hpre _ (stampedName_plain hi), hpre _ (stampedName_plain hj)] at h
  have h2 := List.append_cancel_left h
  have h3 := List.append_cancel_right h2
  have h4 := List.append_cancel_left h3
  exact fmt04d_injective hi hj h4

theorem mem_stampedPaths (dir : GoString) :
    ∀ (k : Nat) (i : Int) (p : GoString), p ∈ stampedPaths dir i k →
      ∃ j, i ≤ j ∧ p = stampedPath dir j := by
  intro k
  induction k with
  | zero => intro i p h; cases h
  | succ k ih =>
    intro i p h
    rw [stampedPaths] at h
    rcases List.mem_cons.1 h with h | h
    · exact ⟨i, le_refl _, h⟩
    · obtain ⟨j, hj, hp⟩ := ih (i + 1) p h
      exact ⟨j, by omega, hp⟩

theorem stampedPaths_nodup (dir : GoString) (hdir : dir ≠ []) :
    ∀ (k : Nat) (i : Int), 0 ≤ i → (stampedPaths dir i k).Nodup := by
  intro k
  induction k with
  | zero => intro i _; exact List.nodup_nil
  | succ k ih =>
    intro i hi
    rw [stampedPaths, List.nodup_cons]
    refine ⟨fun h => ?_, ih (i + 1) (by omega)⟩
    obtain ⟨j, hj, hp⟩ := mem_stampedPaths dir k (i + 1) _ h
    have := stampedPath_injective dir hdir hi (by omega) hp
    omega

theorem stampedPaths_length (dir : GoString) :
    ∀ (k : Nat) (i : Int), (stampedPaths dir i k).length = k := by
  intro k
  induction k with
  | zero => intro i; rfl
  | succ k ih => intro i; simp [stampedPaths, ih]

theorem Join_base_ne_nil (c : GoString) : Join [baseWorkDir, c] ≠ [] := by
  have h : Join [baseWorkDir, c] = Clean (joinSep [baseWorkDir, c]) := rfl
  rw [h]
  exact Clean_ne_nil _

theorem stampPages_runs_some {env : Env} {dir pagesDir desc : GoString} {startAt : Int}
    {k : Nat} {i : Int} {tr : List Event} {stamped out : List GoString}
    (h : (stampPages env dir pagesDir desc startAt k i tr stamped).1 = some out) :
    ∃ pages : List GoString, pages.length = k ∧ pagesChosen pagesDir i pages ∧
      toolRuns (stampPages env dir pagesDir desc startAt k i tr stamped).2 =
        toolRuns tr ++ stampRuns dir desc startAt i pages ∧
      out = stamped ++ stampedPaths dir i k := by
  obtain ⟨pages, _, h2, h3, h4⟩ := stampPages_runs env dir pagesDir desc startAt k i tr stamped
  exact ⟨pages, (h4 out h).1, h2, h3, (h4 out h).2⟩

theorem stampPages_runs_none {env : Env} {dir pagesDir desc : GoString} {startAt : Int}
    {k : Nat} {i : Int} {tr : List Event} {stamped : List GoString}
    (_h : (stampPages env dir pagesDir desc startAt k i tr stamped).1 = none) :
    ∃ pages : List GoString, pages.length ≤ k ∧ pagesChosen pagesDir i pages ∧
      toolRuns (stampPages env dir pagesDir desc startAt k i tr stamped).2 =
        toolRuns tr ++ stampRuns dir desc startAt i pages := by
  obtain ⟨pages, h1, h2, h3, _⟩ := stampPages_runs env dir pagesDir desc startAt k i tr stamped
  exact ⟨pages, h1, h2, h3⟩

theorem handlePageNumbers_runs (env : Env) (r : Request) (header : FileHeader) (total : Int)
    (hm : r.Method = "POST".toList) (hp : r.multipartOk = true)
    (hf : r.FormFile "file".toList = some header)
    (hcount : (pageCountPDF env
      ([] ++ [Event.newUUID (env.NewString [])] ++
        [Event.mkdirAll (Join [baseWorkDir, env.NewString []]) 0o755] ++
        [Event.saveUpload header
          (Join [Join [baseWorkDir, env.NewString []], "input.pdf".toList])])
      (Join [baseWorkDir, env.NewString []])
      (Join [Join [baseWorkDir, env.NewString []], "input.pdf".toList])).1 = PageCount.ok total) :
    ∃ pages : List GoString, pages.length ≤ total.toNat ∧
      pagesChosen (Join [Join [baseWorkDir, env.NewString []], "pages".toList]) 1 pages ∧
      (((handlePageNumbers env r).1.status = 200 → pages.length = total.toNat) ∧
        runsWithin (handlePageNumbers env r)
          (pageNumberRuns (Join [baseWorkDir, env.NewString []])
            (pageNumberDesc
              (if TrimSpace (r.FormValue "position".toList) = [] then "bc".toList
                else TrimSpace (r.FormValue "position".toList))
              (clampInt 6 72 (parseIntDefault (r.FormValue "fontSize".toList) 10))
              (clampOpacity
                (parseFloatDefault env.readFloat (r.FormValue "opacity".toList) F64.c095)))
            (max (parseIntDefault (r.FormValue "startAt".toList) 1) 1) pages total.toNat)) := by
  have hs : (if parseIntDefault (r.FormValue "startAt".toList) 1 < 1 then 1
      else parseIntDefault (r.FormValue "startAt".toList) 1) =
      max (parseIntDefault (r.FormValue "startAt".toList) 1) 1 := by
    simp only [max_def]
    split_ifs <;> omega
  unfold handlePageNumbers
  rw [if_neg (by simp [hm]), if_neg (by simp [hp]), hf]
  simp only [ite_clamp, hs, pageNumberDesc]
  generalize (if TrimSpace (r.FormValue "position".toList) = [] then "bc".toList
    else TrimSpace (r.FormValue "position".toList)) = pos
  generalize "pos:".toList ++ pos ++ ", points:".toList ++
    Itoa (clampInt 6 72 (parseIntDefault (r.FormValue "fontSize".toList) 10)) ++
    ", scale:1 abs, rot:0, op:".toList ++
    fmtF2 (clampOpacity
      (parseFloatDefault env.readFloat (r.FormValue "opacity".toList) F64.c095)) ++
    ", fillc:.2 .2 .2".toList = desc
  generalize max (parseIntDefault (r.FormValue "startAt".toList) 1) 1 = s
  simp only [newJobDir_eq, saveUploadedFile, osMkdirAll, runCommand]
  repeat' split
  all_goals (try simp only [Prod.mk.injEq, Option.ite_none_right_eq_some, ite_eq_right_iff,
    Option.some.injEq] at *)
  all_goals (try simp only [Prod.ext_iff] at *)
  all_goals (try casesm* _ ∧ _)
  all_goals (try simp_all only [PageCount.ok.injEq, reduceCtorEq])
  all_goals subst_vars
  all_goals first
    | (have hx := stampPages_runs_some (by assumption)
       obtain ⟨pages, h1, h2, h3, h4⟩ := hx
       refine ⟨pages, le_of_eq h1, h2, fun _ => h1, ?_⟩
       simp only [runsWithin, toolRuns_append]
       rw [h3]
       simp [toolRuns_append, toolRuns, h4, pageCountPDF_snd, pageNumberRuns, errorJSON])
    | (have hx := stampPages_runs_none (by assumption)
       obtain ⟨pages, h1, h2, h3⟩ := hx
       refine ⟨pages, h1, h2, fun h => absurd h (by simp [errorJSON]), ?_⟩
       simp only [runsWithin, toolRuns_append]
       rw [h3]
       simp [toolRuns_append, toolRuns, pageCountPDF_snd, pageNumberRuns, errorJSON])
    | (refine ⟨[], Nat.zero_le _, trivial, fun h => absurd h (by simp [errorJSON]), ?_⟩
       simp [runsWithin, toolRuns_append, toolRuns, pageCountPDF_snd, pageNumberRuns,
         errorJSON, stampRuns])

theorem wrapInt_label {s i : Int} (hs : 1 ≤ s) (hi : 1 ≤ i) (h : s + (i - 1) < 2 ^ 63) :
    wrapInt (s + (i - 1)) = s + (i - 1) :=
  wrapInt_of_range (by omega) h

/-- Claim C12, counterexample. For `startAt = 9223372036854775807` and a
document of two pages, the second stamp carries the label
`-9223372036854775808`, not the decimal form of `startAt + 1`. -/
theorem handlePageNumbers_label_wraps :
    toolRuns (handlePageNumbers twoPagesEnv
        (uploadRequest [("startAt".toList, "9223372036854775807".toList)])).2 =
      [("pdfcpu".toList, ["info".toList, Join [baseWorkDir, sampleJob, "input.pdf".toList]]),
        ("pdfcpu".toList, ["extract".toList, "-mode".toList, "page".toList,
          Join [baseWorkDir, sampleJob, "input.pdf".toList],
          Join [baseWorkDir, sampleJob, "pages".toList]]),
        ("pdfcpu".toList, ["stamp".toList, "add".toList, "-mode".toList, "text".toList,
          "--".toList, "9223372036854775807".toList,
          "pos:bc, points:10, scale:1 abs, rot:0, op:0.95, fillc:.2 .2 .2".toList,
          Join [baseWorkDir, sampleJob, "pages/page_1.pdf".toList],
          Join [baseWorkDir, sampleJob, "stamped-0001.pdf".toList]]),
        ("pdfcpu".toList, ["stamp".toList, "add".toList, "-mode".toList, "text".toList,
          "--".toList, "-9223372036854775808".toList,
          "pos:bc, points:10, scale:1 abs, rot:0, op:0.95, fillc:.2 .2 .2".toList,
          Join [baseWorkDir, sampleJob, "pages/page_2.pdf".toList],
          Join [baseWorkDir, sampleJob, "stamped-0002.pdf".toList]]),
        ("pdfcpu".toList, ["merge".toList, Join [baseWorkDir, sampleJob, "output.pdf".toList],
          Join [baseWorkDir, sampleJob, "stamped-0001.pdf".toList],
          Join [baseWorkDir, sampleJob, "stamped-0002.pdf".toList]])] ∧
    Itoa (max (parseIntDefault "9223372036854775807".toList 1) 1 + 2 - 1) =
      "9223372036854775808".toList := by
  refine ⟨by decide, by decide⟩

/-- Claim C12, amended. For a page-numbering request (a `POST` with a
parseable body and a `file` part) whose page count is reported as `total`, and
with `s = max(startAt, 1)`: the tool runs are an initial part of the list made
of the page count, the split into pages, one stamp for each page `i` from 1 on
and the merge, and they are the whole list when the answer is 200. The stamp
of page `i` reads one of the two candidate files of page `i`, writes
`stamped-<i>.pdf` with `i` printed in at least four digits, and carries the
label of `s + i - 1` computed in 64 bits, which is its decimal form as long as
`s + i - 1` is below `2 ^ 63`. With the answer 200 there are exactly
`max(total, 0)` stamps, and the merge lists the stamped files of the pages 1
to `total` in this order, which are pairwise different files. -/
theorem handlePageNumbers_stamps (env : Env) (r : Request) (header : FileHeader) (total : Int)
    (hm : r.Method = "POST".toList) (hp : r.multipartOk = true)
    (hf : r.FormFile "file".toList = some header)
    (hcount : (pageCountPDF env
      [Event.newUUID (env.NewString []),
        Event.mkdirAll (Join [baseWorkDir, env.NewString []]) 0o755,
        Event.saveUpload header
          (Join [Join [baseWorkDir, env.NewString []], "input.pdf".toList])]
      (Join [baseWorkDir, env.NewString []])
      (Join [Join [baseWorkDir, env.NewString []], "input.pdf".toList])).1 = PageCount.ok total) :
    (∃ pages : List GoString, pages.length ≤ total.toNat ∧
      pagesChosen (Join [Join [baseWorkDir, env.NewString []], "pages".toList]) 1 pages ∧
      ((handlePageNumbers env r).1.status = 200 → pages.length = total.toNat) ∧
      toolRuns (handlePageNumbers env r).2 <+:
        pageNumberRuns (Join [baseWorkDir, env.NewString []])
          (pageNumberDesc
            (if TrimSpace (r.FormValue "position".toList) = [] then "bc".toList
              else TrimSpace (r.FormValue "position".toList))
            (clampInt 6 72 (parseIntDefault (r.FormValue "fontSize".toList) 10))
            (clampOpacity
              (parseFloatDefault env.readFloat (r.FormValue "opacity".toList) F64.c095)))
          (max (parseIntDefault (r.FormValue "startAt".toList) 1) 1) pages total.toNat ∧
      ((handlePageNumbers env r).1.status = 200 →
        toolRuns (handlePageNumbers env r).2 =
          pageNumberRuns (Join [baseWorkDir, env.NewString []])
            (pageNumberDesc
              (if TrimSpace (r.FormValue "position".toList) = [] then "bc".toList
                else TrimSpace (r.FormValue "position".toList))
              (clampInt 6 72 (parseIntDefault (r.FormValue "fontSize".toList) 10))
              (clampOpacity
                (parseFloatDefault env.readFloat (r.FormValue "opacity".toList) F64.c095)))
            (max (parseIntDefault (r.FormValue "startAt".toList) 1) 1) pages total.toNat)) ∧
    (stampedPaths (Join [baseWorkDir, env.NewString []]) 1 total.toNat).Nodup ∧
    (stampedPaths (Join [baseWorkDir, env.NewString []]) 1 total.toNat).length = total.toNat ∧
    ∀ i : Int, 1 ≤ i →
      max (parseIntDefault (r.FormValue "startAt".toList) 1) 1 + (i - 1) < 2 ^ 63 →
      Itoa (wrapInt (max (parseIntDefault (r.FormValue "startAt".toList) 1) 1 + (i - 1))) =
        Itoa (max (parseIntDefault (r.FormValue "startAt".toList) 1) 1 + (i - 1)) := by
  obtain ⟨pages, h1, h2, h3, h4, h5⟩ :=
    handlePageNumbers_runs env r header total hm hp hf (by simpa using hcount)
  refine ⟨⟨pages, h1, h2, h3, h4, h5⟩,
    stampedPaths_nodup _ (Join_base_ne_nil _) _ 1 (by omega), stampedPaths_length _ _ _, ?_⟩
  intro i hi hlt
  rw [wrapInt_label (le_max_right _ _) hi hlt]

theorem handlePageNumbers_stamps_witness :
    (handlePageNumbers twoPagesEnv (uploadRequest [("startAt".toList, "5".toList)])).1.status
      = 200 ∧
    toolRuns (handlePageNumbers twoPagesEnv (uploadRequest [("startAt".toList, "5".toList)])).2 =
      pageNumberRuns (Join [baseWorkDir, sampleJob])
        "pos:bc, points:10, scale:1 abs, rot:0, op:0.95, fillc:.2 .2 .2".toList 5
        [Join [baseWorkDir, sampleJob, "pages/page_1.pdf".toList],
          Join [baseWorkDir, sampleJob, "pages/page_2.pdf".toList]] 2 ∧
    (stampedPaths (Join [baseWorkDir, twoPagesEnv.NewString []]) 1 (2 : Int).toNat).Nodup :=
  ⟨by decide, by decide,
    (handlePageNumbers_stamps twoPagesEnv (uploadRequest [("startAt".toList, "5".toList)])
      ⟨"a.pdf".toList, 0⟩ 2 rfl rfl rfl (by decide)).2.1⟩

/-! ## The font size -/

theorem clampInt_bounds (lo hi n : Int) (h : lo ≤ hi) :
    lo ≤ clampInt lo hi n ∧ clampInt lo hi n ≤ hi := by
  unfold clampInt
  simp only [min_def, max_def]
  split_ifs <;> omega

theorem clampInt_of_mem (lo hi n : Int) (h1 : lo ≤ n) (h2 : n ≤ hi) : clampInt lo hi n = n := by
  unfold clampInt
  simp only [min_def, max_def]
  split_ifs <;> omega

theorem stampRuns_desc (dir desc : GoString) (s : Int) (pages : List GoString) :
    ∀ i : Int, ∀ x ∈ stampRuns dir desc s i pages, x.2.get? 6 = some desc := by
  induction pages with
  | nil => intro i x hx; cases hx
  | cons p ps ih =>
    intro i x hx
    rw [stampRuns] at hx
    rcases List.mem_cons.1 hx with rfl | hx
    · rfl
    · exact ih _ x hx

theorem stampPages_desc (env : Env) (dir pagesDir desc : GoString) (s : Int) (k : Nat) (i : Int)
    (tr : List Event) (stamped : List GoString) :
    (∀ x ∈ toolRuns (stampPages env dir pagesDir desc s k i tr stamped).2,
      x.2.head? = some "stamp".toList → x.2.get? 6 = some desc) ↔
    ∀ x ∈ toolRuns tr, x.2.head? = some "stamp".toList → x.2.get? 6 = some desc := by
  obtain ⟨pages, -, -, h3, -⟩ := stampPages_runs env dir pagesDir desc s k i tr stamped
  rw [h3]
  constructor
  · intro h x hx
    exact h x (List.mem_append_left _ hx)
  · intro h x hx
    rcases List.mem_append.1 hx with h1 | h1
    · exact h x h1
    · exact fun _ => stampRuns_desc dir desc s pages i x h1

theorem handleWatermark_desc (env : Env) (r : Request) :
    ∀ x ∈ toolRuns (handleWatermark env r).2,
      x.2.get? 6 = some (watermarkDesc
        (if TrimSpace (r.FormValue "position".toList) = [] then "c".toList
          else TrimSpace (r.FormValue "position".toList))
        (parseIntDefault (r.FormValue "rotation".toList) 45)
        (clampInt 8 200 (parseIntDefault (r.FormValue "fontSize".toList) 48))
        (clampOpacity
          (parseFloatDefault env.readFloat (r.FormValue "opacity".toList) F64.quarter))) := by
  unfold handleWatermark
  simp only [ite_clamp, watermarkDesc]
  generalize (if TrimSpace (r.FormValue "position".toList) = [] then "c".toList
    else TrimSpace (r.FormValue "position".toList)) = pos
  generalize "pos:".toList ++ pos ++ ", rot:".toList ++
    Itoa (parseIntDefault (r.FormValue "rotation".toList) 45) ++ ", points:".toList ++
    Itoa (clampInt 8 200 (parseIntDefault (r.FormValue "fontSize".toList) 48)) ++
    ", op:".toList ++
    fmtF2 (clampOpacity
      (parseFloatDefault env.readFloat (r.FormValue "opacity".toList) F64.quarter)) ++
    ", c:.9 .9 .9".toList = desc
  simp only [newJobDir_eq, saveUploadedFile, runCommand]
  repeat' split
  all_goals (try simp only [Prod.mk.injEq, Option.ite_none_right_eq_some, ite_eq_right_iff,
    Option.some.injEq] at *)
  all_goals (try casesm* _ ∧ _)
  all_goals subst_vars
  all_goals simp [toolRuns_append, toolRuns]

theorem handlePageNumbers_desc (env : Env) (r : Request) :
    ∀ x ∈ toolRuns (handlePageNumbers env r).2, x.2.head? = some "stamp".toList →
      x.2.get? 6 = some (pageNumberDesc
        (if TrimSpace (r.FormValue "position".toList) = [] then "bc".toList
          else TrimSpace (r.FormValue "position".toList))
        (clampInt 6 72 (parseIntDefault (r.FormValue "fontSize".toList) 10))
        (clampOpacity
          (parseFloatDefault env.readFloat (r.FormValue "opacity".toList) F64.c095))) := by
  unfold handlePageNumbers
  simp only [ite_clamp, pageNumberDesc]
  generalize (if TrimSpace (r.FormValue "position".toList) = [] then "bc".toList
    else TrimSpace (r.FormValue "position".toList)) = pos
  generalize "pos:".toList ++ pos ++ ", points:".toList ++
    Itoa (clampInt 6 72 (parseIntDefault (r.FormValue "fontSize".toList) 10)) ++
    ", scale:1 abs, rot:0, op:".toList ++
    fmtF2 (clampOpacity
      (parseFloatDefault env.readFloat (r.FormValue "opacity".toList) F64.c095)) ++
    ", fillc:.2 .2 .2".toList = desc
  simp only [newJobDir_eq, saveUploadedFile, osMkdirAll, runCommand]
  repeat' split
  all_goals (try simp only [Prod.mk.injEq, Option.ite_none_right_eq_some, ite_eq_right_iff,
    Option.some.injEq] at *)
  all_goals (try simp only [Prod.ext_iff] at *)
  all_goals (try casesm* _ ∧ _)
  all_goals subst_vars
  all_goals (try simp only [toolRuns_append, List.forall_mem_append, stampPages_desc,
    pageCountPDF_snd])
  all_goals simp [toolRuns_append, toolRuns]

/-- Claim C11. The font size used is the clamp `min(max(n, lo), hi)` of the
parsed `fontSize` value `n`, with the bounds 8 and 200 in the watermark
operation and 6 and 72 in the page-numbering operation: every stamp run
carries the description string built with the clamped size. The clamped size
always lies within the bounds, hence from 6 to 200, and a value within the
bounds is used unchanged. -/
theorem fontSize_clamped (env : Env) (r : Request) :
    (∀ x ∈ toolRuns (handleWatermark env r).2,
      x.2.get? 6 = some (watermarkDesc
        (if TrimSpace (r.FormValue "position".toList) = [] then "c".toList
          else TrimSpace (r.FormValue "position".toList))
        (parseIntDefault (r.FormValue "rotation".toList) 45)
        (clampInt 8 200 (parseIntDefault (r.FormValue "fontSize".toList) 48))
        (clampOpacity
          (parseFloatDefault env.readFloat (r.FormValue "opacity".toList) F64.quarter)))) ∧
    (∀ x ∈ toolRuns (handlePageNumbers env r).2, x.2.head? = some "stamp".toList →
      x.2.get? 6 = some (pageNumberDesc
        (if TrimSpace (r.FormValue "position".toList) = [] then "bc".toList
          else TrimSpace (r.FormValue "position".toList))
        (clampInt 6 72 (parseIntDefault (r.FormValue "fontSize".toList) 10))
        (clampOpacity
          (parseFloatDefault env.readFloat (r.FormValue "opacity".toList) F64.c095)))) ∧
    (∀ n : Int, (8 ≤ clampInt 8 200 n ∧ clampInt 8 200 n ≤ 200) ∧
      (6 ≤ clampInt 6 72 n ∧ clampInt 6 72 n ≤ 72)) ∧
    (∀ lo hi n : Int, lo ≤ n → n ≤ hi → clampInt lo hi n = n) ∧
    ∀ lo hi n : Int, clampInt lo hi n = min (max n lo) hi :=
  ⟨handleWatermark_desc env r, handlePageNumbers_desc env r,
    fun n => ⟨clampInt_bounds 8 200 n (by norm_num), clampInt_bounds 6 72 n (by norm_num)⟩,
    clampInt_of_mem, fun _ _ _ => rfl⟩

set_option maxRecDepth 100000 in
theorem fontSize_clamped_witness :
    (("pdfcpu".toList,
        ["stamp".toList, "add".toList, "-mode".toList, "text".toList, "--".toList,
          "x".toList, "pos:c, rot:45, points:200, op:0.25, c:.9 .9 .9".toList,
          Join [baseWorkDir, sampleJob, "input.pdf".toList],
          Join [baseWorkDir, sampleJob, "output.pdf".toList]]) ∈
      toolRuns (handleWatermark (okEnv fun _ => none)
        (uploadRequest [("text".toList, "x".toList), ("fontSize".toList, "500".toList)])).2) ∧
    (["stamp".toList, "add".toList, "-mode".toList, "text".toList, "--".toList,
        "x".toList, "pos:c, rot:45, points:200, op:0.25, c:.9 .9 .9".toList,
        Join [baseWorkDir, sampleJob, "input.pdf".toList],
        Join [baseWorkDir, sampleJob, "output.pdf".toList]].get? 6 =
      some (watermarkDesc "c".toList 45 (clampInt 8 200 500) F64.quarter)) ∧
    clampInt 8 200 500 = 200 ∧ clampInt 6 72 3 = 6 ∧ clampInt 6 72 12 = 12 :=
  ⟨by decide,
    (fontSize_clamped (okEnv fun _ => none)
      (uploadRequest [("text".toList, "x".toList), ("fontSize".toList, "500".toList)])).1
      ("pdfcpu".toList,
        ["stamp".toList, "add".toList, "-mode".toList, "text".toList, "--".toList,
          "x".toList, "pos:c, rot:45, points:200, op:0.25, c:.9 .9 .9".toList,
          Join [baseWorkDir, sampleJob, "input.pdf".toList],
          Join [baseWorkDir, sampleJob, "output.pdf".toList]]) (by decide),
    by decide, by decide, by decide⟩

/-! ## The mode of the job directory -/

/-- Claim C21, counterexample. The mode that `newJobDir` passes to
`os.MkdirAll` is `0o755`, which grants read and execute to group and to
others, so it is not an owner-only mode. -/
theorem newJobDir_mode_not_owner_only :
    (newJobDir (okEnv fun _ => none) []).2 =
      [Event.newUUID sampleJob, Event.mkdirAll (Join [baseWorkDir, sampleJob]) 0o755] ∧
    ownerOnly 0o755 = false ∧ 0o755 / 8 % 8 = 5 ∧ 0o755 % 8 = 5 := by
  decide

/-- Claim C21, amended. In every environment `newJobDir` draws one identifier
and makes one call of `os.MkdirAll`, for the directory of that identifier
under the work root, with mode `0o755`: all bits for the owner, read and
execute for group and others. -/
theorem newJobDir_mode (env : Env) (tr : List Event) :
    (newJobDir env tr).2 =
      tr ++ [Event.newUUID (env.NewString tr),
        Event.mkdirAll (Join [baseWorkDir, env.NewString tr]) 0o755] ∧
    0o755 = 7 * 64 + 5 * 8 + 5 := by
  refine ⟨?_, by decide⟩
  simp only [newJobDir]
  split <;> simp

/-! ## Reading an integer with a default -/

theorem digitVal_eq (c : Char) :
    digitVal c = if c.isDigit = true then some (c.toNat - 48) else none := by
  unfold digitVal Char.isDigit
  by_cases h : '0' ≤ c ∧ c ≤ '9'
  · rw [if_pos h, if_pos]
    have h1 : ('0' : Char).val ≤ c.val := h.1
    have h2 : c.val ≤ ('9' : Char).val := h.2
    simp only [Bool.and_eq_true, decide_eq_true_eq, ge_iff_le]
    exact ⟨h1, h2⟩
  · rw [if_neg h, if_neg]
    intro hc
    simp only [Bool.and_eq_true, decide_eq_true_eq, ge_iff_le] at hc
    exact h ⟨hc.1, hc.2⟩

theorem parseDigits_eq_foldl (ds : List Char) :
    ∀ acc : Nat, parseDigits ds acc =
      if ds.all Char.isDigit = true then
        some (ds.foldl (fun a c => 10 * a + (c.toNat - 48)) acc)
      else none := by
  induction ds with
  | nil => intro acc; rfl
  | cons c t ih =>
    intro acc
    rw [parseDigits, digitVal_eq]
    by_cases hc : c.isDigit = true
    · simp only [hc, if_true, List.all_cons, Bool.true_and, List.foldl_cons]
      rw [ih, Nat.mul_comm]
    · simp only [hc, List.all_cons, Bool.false_and]
      rfl

/-- The function `Atoi` reads the decimal forms of the values of `int`. -/
theorem Atoi_eq_decimalValue (s : GoString) :
    Atoi s = (decimalValue s).bind
      (fun n => if -(2 : Int) ^ 63 ≤ n ∧ n ≤ 2 ^ 63 - 1 then some n else none) := by
  unfold Atoi decimalValue
  simp only [parseDigits_eq_foldl]
  rcases s with _ | ⟨c, t⟩
  · simp
  · by_cases h1 : c = '-'
    · subst h1
      by_cases ht : t = []
      · subst ht; simp
      · by_cases hd : t.all Char.isDigit = true
        · simp [ht, hd]
        · simp [ht, hd]
    · by_cases h2 : c = '+'
      · subst h2
        by_cases ht : t = []
        · subst ht; simp
        · by_cases hd : t.all Char.isDigit = true
          · simp [ht, hd]
          · simp [ht, hd]
      · by_cases hd : (c :: t).all Char.isDigit = true
        · simp [h1, h2, hd]
        · simp [h1, h2, hd]

theorem Atoi_Itoa_neg {n : Int} (h0 : n < 0) (h : -(2 : Int) ^ 63 ≤ n) :
    Atoi (Itoa n) = some n := by
  unfold Itoa
  rw [if_pos h0]
  unfold Atoi
  have hne := natItoa_ne_nil n.natAbs
  simp only [List.head?_cons, true_or, if_true, List.tail_cons, hne, if_false,
    parseDigits_natItoa_zero, decide_True]
  rw [if_pos (by omega)]
  congr 1
  omega

theorem Atoi_Itoa_range {n : Int} (h0 : -(2 : Int) ^ 63 ≤ n) (h : n ≤ 2 ^ 63 - 1) :
    Atoi (Itoa n) = some n := by
  by_cases hn : n < 0
  · exact Atoi_Itoa_neg hn h0
  · exact Atoi_Itoa (by omega) (by omega)

theorem Itoa_ne_nil (n : Int) : Itoa n ≠ [] := by
  unfold Itoa
  split
  · simp
  · exact natItoa_ne_nil _

theorem TrimSpace_spaces (s : GoString) (h : ∀ c ∈ s, isSpace c = true) : TrimSpace s = [] := by
  unfold TrimSpace
  have : s.dropWhile isSpace = [] := List.dropWhile_eq_nil_iff.2 h
  rw [this]
  rfl

/-- Claim C27. For every text `s` and default `d`: when `s` without the
surrounding white space is a decimal form (optional sign, digits) of an
integer `n` that is a value of the 64-bit `int`, `parseIntDefault s d` is `n`,
in particular when it is the decimal form that `Itoa` prints for `n`; in every
other case, among them the empty text and the texts of white space only, the
result is `d`. The result is a function of `s` and `d` alone. -/
theorem parseIntDefault_spec (s : GoString) (d : Int) :
    (∀ n : Int, decimalValue (TrimSpace s) = some n → -(2 : Int) ^ 63 ≤ n → n ≤ 2 ^ 63 - 1 →
      parseIntDefault s d = n) ∧
    ((∀ n : Int, decimalValue (TrimSpace s) = some n → ¬ (-(2 : Int) ^ 63 ≤ n ∧ n ≤ 2 ^ 63 - 1)) →
      parseIntDefault s d = d) ∧
    (∀ n : Int, TrimSpace s = Itoa n → -(2 : Int) ^ 63 ≤ n → n ≤ 2 ^ 63 - 1 →
      parseIntDefault s d = n) ∧
    ((∀ c ∈ s, isSpace c = true) → parseIntDefault s d = d) := by
  refine ⟨?_, ?_, ?_, ?_⟩
  · intro n hn h1 h2
    unfold parseIntDefault
    simp only [Atoi_eq_decimalValue, hn, Option.some_bind, if_pos (And.intro h1 h2)]
    split
    · rename_i he
      rw [he] at hn
      cases hn
    · rfl
  · intro hn
    unfold parseIntDefault
    simp only [Atoi_eq_decimalValue]
    split
    · rfl
    · cases hv : decimalValue (TrimSpace s) with
      | none => rfl
      | some n => simp only [Option.some_bind, if_neg (hn n hv)]
  · intro n hs h1 h2
    unfold parseIntDefault
    simp only [hs, Atoi_Itoa_range h1 h2, if_neg (Itoa_ne_nil n)]
  · intro hs
    unfold parseIntDefault
    simp only [TrimSpace_spaces s hs, if_true]

theorem parseIntDefault_spec_witness :
    parseIntDefault " -42\t".toList 7 = -42 ∧ parseIntDefault "4x2".toList 7 = 7 ∧
    parseIntDefault "150\n".toList 7 = 150 ∧ parseIntDefault "  ".toList 7 = 7 :=
  ⟨(parseIntDefault_spec " -42\t".toList 7).1 (-42) (by decide) (by decide) (by decide),
    (parseIntDefault_spec "4x2".toList 7).2.1 (fun n h => by
      rw [show decimalValue (TrimSpace "4x2".toList) = none from by decide] at h
      cases h),
    (parseIntDefault_spec "150\n".toList 7).2.2.1 150 (by decide) (by decide) (by decide),
    (parseIntDefault_spec "  ".toList 7).2.2.2 (by decide)⟩

/-! ## The merge operation -/

theorem mergeInputs_succ (dir : GoString) (i k : Nat) :
    mergeInputs dir i (k + 1) = mergeInput dir i :: mergeInputs dir (i + 1) k := by
  simp [mergeInputs, List.range'_succ]

theorem saveInputs_trace (env : Env) (dir : GoString) :
    ∀ (files : List FileHeader) (i : Nat) (tr : List Event) (acc : List GoString),
      (∃ m, (saveInputs env dir (fun i _ => "input_".toList ++ natItoa i ++ ".pdf".toList)
          files i tr acc).2 =
        tr ++ (List.zipWith Event.saveUpload files (mergeInputs dir i files.length)).take m) ∧
      (∀ paths, (saveInputs env dir (fun i _ => "input_".toList ++ natItoa i ++ ".pdf".toList)
          files i tr acc).1 = some paths →
        paths = acc ++ mergeInputs dir i files.length ∧
        (saveInputs env dir (fun i _ => "input_".toList ++ natItoa i ++ ".pdf".toList)
          files i tr acc).2 =
          tr ++ List.zipWith Event.saveUpload files (mergeInputs dir i files.length)) ∧
      ((∀ t fh p, env.saveUpload t fh p = true) →
        (saveInputs env dir (fun i _ => "input_".toList ++ natItoa i ++ ".pdf".toList)
          files i tr acc).1 ≠ none) := by
  intro files
  induction files with
  | nil =>
    intro i tr acc
    refine ⟨⟨0, by simp [saveInputs]⟩, ?_, ?_⟩
    · intro paths h
      simp only [saveInputs, Option.some.injEq] at h
      simp [saveInputs, mergeInputs, h.symm]
    · intro _
      simp [saveInputs]
  | cons fh rest ih =>
    intro i tr acc
    simp only [saveInputs, saveUploadedFile, List.length_cons, mergeInputs_succ,
      List.zipWith_cons_cons]
    cases hs : env.saveUpload tr fh
        (Join [dir, "input_".toList ++ natItoa i ++ ".pdf".toList]) with
    | false =>
      refine ⟨⟨1, by simp [mergeInput]⟩, ?_, ?_⟩
      · intro paths h
        cases h
      · intro hall
        rw [hall] at hs
        cases hs
    | true =>
      obtain ⟨⟨m, h1⟩, h2, h3⟩ := ih (i + 1)
        (tr ++ [Event.saveUpload fh (Join [dir, "input_".toList ++ natItoa i ++ ".pdf".toList])])
        (acc ++ [Join [dir, "input_".toList ++ natItoa i ++ ".pdf".toList]])
      refine ⟨⟨m + 1, ?_⟩, ?_, ?_⟩
      · simp only [h1]
        simp [mergeInput]
      · intro paths h
        obtain ⟨h4, h5⟩ := h2 paths h
        refine ⟨?_, ?_⟩
        · rw [h4]
          simp [mergeInput]
        · simp only [h5]
          simp [mergeInput]
      · exact h3

theorem inputName_plain (i : Nat) :
    plainName ("input_".toList ++ natItoa i ++ ".pdf".toList) := by
  refine ⟨by simp, ?_, by simp⟩
  intro h
  simp only [List.mem_append] at h
  rcases h with (h | h) | h
  · revert h
    decide
  · exact digit_ne (natItoa_digits i _ h) (by decide) rfl
  · revert h
    decide

theorem mergeInput_injective (dir : GoString) (hdir : dir ≠ []) {i j : Nat}
    (h : mergeInput dir i = mergeInput dir j) : i = j := by
  obtain ⟨pre, hpre⟩ := Join_plain dir hdir
  unfold mergeInput at h
  rw [hpre _ (inputName_plain i), hpre _ (inputName_plain j)] at h
  have h2 := List.append_cancel_left h
  have h3 := List.append_cancel_right h2
  have h4 := List.append_cancel_left h3
  exact natItoa_injective h4

theorem mergeInputs_nodup (dir : GoString) (hdir : dir ≠ []) (i k : Nat) :
    (mergeInputs dir i k).Nodup := by
  unfold mergeInputs
  refine List.Nodup.map_on ?_ (List.nodup_range' i k)
  intro a _ b _ h
  exact mergeInput_injective dir hdir h

theorem mergeCalls_prefix (id dir outName : GoString) (files : List FileHeader) (m : Nat) :
    [Event.newUUID id, Event.mkdirAll dir 0o755] ++
        (List.zipWith Event.saveUpload files (mergeInputs dir 0 files.length)).take m <+:
      mergeCalls id dir outName files := by
  unfold mergeCalls
  rw [List.append_assoc]
  exact (List.prefix_append_right_inj _).2
    ((List.take_prefix _ _).trans (List.prefix_append _ _))

theorem handleMerge_trace (env : Env) (r : Request) (hm : r.Method = "POST".toList)
    (hp : r.multipartOk = true) (hk : 1 ≤ (r.File "files".toList).length) :
    (handleMerge env r).2 <+:
      mergeCalls (env.NewString []) (Join [baseWorkDir, env.NewString []])
        (if r.FormValue "outputFilename".toList = [] then defaultFilename
          else r.FormValue "outputFilename".toList) (r.File "files".toList) ∧
    ((handleMerge env r).1.status = 200 →
      (handleMerge env r).2 =
        mergeCalls (env.NewString []) (Join [baseWorkDir, env.NewString []])
          (if r.FormValue "outputFilename".toList = [] then defaultFilename
            else r.FormValue "outputFilename".toList) (r.File "files".toList)) ∧
    ((∀ t p, env.MkdirAll t p = true) → (∀ t fh p, env.saveUpload t fh p = true) →
      (handleMerge env r).2 =
        mergeCalls (env.NewString []) (Join [baseWorkDir, env.NewString []])
          (if r.FormValue "outputFilename".toList = [] then defaultFilename
            else r.FormValue "outputFilename".toList) (r.File "files".toList)) := by
  have hk0 : (r.File "files".toList).length ≠ 0 := by omega
  obtain ⟨⟨m, h1⟩, h2, h3⟩ := saveInputs_trace env (Join [baseWorkDir, env.NewString []])
    (r.File "files".toList) 0
    [Event.newUUID (env.NewString []),
      Event.mkdirAll (Join [baseWorkDir, env.NewString []]) 0o755] []
  have hpre := mergeCalls_prefix (env.NewString []) (Join [baseWorkDir, env.NewString []])
    (if r.FormValue "outputFilename".toList = [] then defaultFilename
      else r.FormValue "outputFilename".toList) (r.File "files".toList)
  unfold handleMerge
  simp only [hm, hp, hk0, newJobDir_eq, runCommand, ne_eq, not_true_eq_false, if_false,
    Bool.true_eq_false, List.nil_append, List.singleton_append]
  by_cases hmk : env.MkdirAll [Event.newUUID (env.NewString [])]
      (Join [baseWorkDir, env.NewString []]) = true
  case neg =>
    simp only [hmk, if_false]
    refine ⟨?_, ?_, ?_⟩
    · simpa using hpre 0
    · simp [errorJSON]
    · intro hall
      exact absurd (hall _ _) hmk
  case pos =>
    simp only [hmk, if_true]
    rcases hS : saveInputs env (Join [baseWorkDir, env.NewString []])
        (fun i _ => "input_".toList ++ natItoa i ++ ".pdf".toList) (r.File "files".toList) 0
        [Event.newUUID (env.NewString []),
          Event.mkdirAll (Join [baseWorkDir, env.NewString []]) 0o755] [] with ⟨o, tr1⟩
    rw [hS] at h1 h2 h3
    cases o with
    | none =>
      simp only at h1
      refine ⟨?_, ?_, ?_⟩
      · simp only [h1]
        exact hpre m
      · simp [errorJSON]
      · intro _ hall
        exact absurd rfl (h3 hall)
    | some paths =>
      obtain ⟨h4, h5⟩ := h2 paths rfl
      simp only [List.nil_append] at h4
      simp only at h5
      subst h4
      subst h5
      have hfull : ∀ b : Bool,
          (match (b, [Event.newUUID (env.NewString []),
              Event.mkdirAll (Join [baseWorkDir, env.NewString []]) 0o755] ++
              List.zipWith Event.saveUpload (r.File "files".toList)
                (mergeInputs (Join [baseWorkDir, env.NewString []]) 0
                  (r.File "files".toList).length) ++
              [Event.run (Join [baseWorkDir, env.NewString []]) "pdfcpu".toList
                (["merge".toList, Join [Join [baseWorkDir, env.NewString []],
                    if r.FormValue "outputFilename".toList = [] then defaultFilename
                    else r.FormValue "outputFilename".toList]] ++
                  mergeInputs (Join [baseWorkDir, env.NewString []]) 0
                    (r.File "files".toList).length)]) with
            | (false, tr) => (errorJSON 500 "failed to merge PDFs".toList, tr)
            | (true, tr) =>
              ((⟨200, Body.downloadUrl (buildDownloadURL r (env.NewString [])
                (if r.FormValue "outputFilename".toList = [] then defaultFilename
                  else r.FormValue "outputFilename".toList))⟩ : Response), tr)).2 =
            mergeCalls (env.NewString []) (Join [baseWorkDir, env.NewString []])
              (if r.FormValue "outputFilename".toList = [] then defaultFilename
                else r.FormValue "outputFilename".toList) (r.File "files".toList) := by
        intro b
        cases b <;> rfl
      refine ⟨?_, ?_, ?_⟩
      · rw [hfull]
      · intro _
        rw [hfull]
      · intro _ _
        rw [hfull]

/-- Claim C24. For a merge request with at least one uploaded file, the calls
of the handler are an initial part of: the creation of the job directory, the
save of the upload number `i` (from 0, in upload order) as `input_i.pdf` in
the job directory, and one run of `pdfcpu` with the arguments `merge`, the
output path, and the saved paths `input_0.pdf`, ..., in upload order. They are
all of these calls when the answer is 200, and also when the directory can be
made and every save succeeds. The saved paths are pairwise different and as
many as the uploads. -/
theorem handleMerge_inputs (env : Env) (r : Request) (hm : r.Method = "POST".toList)
    (hp : r.multipartOk = true) (hk : 1 ≤ (r.File "files".toList).length) :
    (handleMerge env r).2 <+:
      mergeCalls (env.NewString []) (Join [baseWorkDir, env.NewString []])
        (if r.FormValue "outputFilename".toList = [] then defaultFilename
          else r.FormValue "outputFilename".toList) (r.File "files".toList) ∧
    ((handleMerge env r).1.status = 200 →
      (handleMerge env r).2 =
        mergeCalls (env.NewString []) (Join [baseWorkDir, env.NewString []])
          (if r.FormValue "outputFilename".toList = [] then defaultFilename
            else r.FormValue "outputFilename".toList) (r.File "files".toList)) ∧
    ((∀ t p, env.MkdirAll t p = true) → (∀ t fh p, env.saveUpload t fh p = true) →
      (handleMerge env r).2 =
        mergeCalls (env.NewString []) (Join [baseWorkDir, env.NewString []])
          (if r.FormValue "outputFilename".toList = [] then defaultFilename
            else r.FormValue "outputFilename".toList) (r.File "files".toList)) ∧
    (mergeInputs (Join [baseWorkDir, env.NewString []]) 0 (r.File "files".toList).length).Nodup ∧
    (mergeInputs (Join [baseWorkDir, env.NewString []]) 0
      (r.File "files".toList).length).length = (r.File "files".toList).length := by
  obtain ⟨h1, h2, h3⟩ := handleMerge_trace env r hm hp hk
  exact ⟨h1, h2, h3, mergeInputs_nodup _ (Join_base_ne_nil _) _ _, by simp [mergeInputs]⟩

theorem handleMerge_inputs_witness :
    (handleMerge (okEnv fun _ => none)
        (postRequest [] [("files".toList, [⟨"a.pdf".toList, 0⟩, ⟨"b.pdf".toList, 1⟩])])).2 =
      [Event.newUUID sampleJob, Event.mkdirAll (Join [baseWorkDir, sampleJob]) 0o755,
        Event.saveUpload ⟨"a.pdf".toList, 0⟩ (Join [baseWorkDir, sampleJob, "input_0.pdf".toList]),
        Event.saveUpload ⟨"b.pdf".toList, 1⟩ (Join [baseWorkDir, sampleJob, "input_1.pdf".toList]),
        Event.run (Join [baseWorkDir, sampleJob]) "pdfcpu".toList
          ["merge".toList, Join [baseWorkDir, sampleJob, defaultFilename],
            Join [baseWorkDir, sampleJob, "input_0.pdf".toList],
            Join [baseWorkDir, sampleJob, "input_1.pdf".toList]]] :=
  ((handleMerge_inputs (okEnv fun _ => none)
    (postRequest [] [("files".toList, [⟨"a.pdf".toList, 0⟩, ⟨"b.pdf".toList, 1⟩])])
    rfl rfl (by decide)).2.1 (by decide)).trans (by decide)

/-! ## Page counts below one -/

/-- Claim C28, failing input. When `pdfcpu info` prints `Pages: 0`,
`pageCountPDF` returns 0 without error, while `pageCountPoppler` rejects the
same line; `handlePageNumbers` then stamps no page and runs `pdfcpu merge`
with the output path alone, and answers 200. When the line is `Pages: -3`,
`pageCountPDF` returns -3 and both handlers that use it panic. -/
theorem pageCountPDF_zero :
    (pageCountPDF zeroPagesEnv [] [] "in.pdf".toList).1 = PageCount.ok 0 ∧
    (pageCountPoppler zeroPagesEnv [] [] "in.pdf".toList).1 = PageCount.couldNotParse ∧
    toolRuns (handlePageNumbers zeroPagesEnv (uploadRequest [])).2 =
      [("pdfcpu".toList, ["info".toList, Join [baseWorkDir, sampleJob, "input.pdf".toList]]),
        ("pdfcpu".toList, ["extract".toList, "-mode".toList, "page".toList,
          Join [baseWorkDir, sampleJob, "input.pdf".toList],
          Join [baseWorkDir, sampleJob, "pages".toList]]),
        ("pdfcpu".toList, ["merge".toList, Join [baseWorkDir, sampleJob, defaultFilename]])] ∧
    (handlePageNumbers zeroPagesEnv (uploadRequest [])).1.status = 200 ∧
    (handlePreview zeroPagesEnv (uploadRequest [])).1 = ⟨200, Body.pages []⟩ ∧
    (pageCountPDF negativePagesEnv [] [] "in.pdf".toList).1 = PageCount.ok (-3) ∧
    (handlePageNumbers negativePagesEnv (uploadRequest [])).1 = ⟨0, Body.noResponse⟩ ∧
    (handlePreview negativePagesEnv (uploadRequest [])).1 = ⟨0, Body.noResponse⟩ := by
  decide

/-! ## The page size line -/

/-- Claim C29, failing input. For the line `Page size:      612 x` the split
has the four fields `Page`, `size:`, `612` and `x`; the length check
`len(parts) >= 4` passes and the index expression `parts[4]` is out of range:
the handler panics and sends no response. -/
theorem handleAddHeaderFooter_index_out_of_range :
    Fields "Page size:      612 x".toList =
      ["Page".toList, "size:".toList, "612".toList, "x".toList] ∧
    parsePageSize shortPageSizeEnv "Page size:      612 x".toList
      (F64.fin false 612 0, F64.fin false 792 0) = none ∧
    (handleAddHeaderFooter shortPageSizeEnv headerRequest).1 = ⟨0, Body.noResponse⟩ ∧
    (handleAddHeaderFooter shortPageSizeEnv headerRequest).2.getLast? =
      some (Event.execOutput (Join [baseWorkDir, sampleJob]) "pdfinfo".toList
        [Join [baseWorkDir, sampleJob, "input.pdf".toList]]) := by
  decide

/-! ## The message of the compare operation -/

/-- Claim C30, failing input. When `diff` does not run to a zero exit status
and prints nothing, the compare handler writes the text `No differences found
between the two PDF files.` to the artifact and answers 200. -/
theorem handleComparePDFs_message_on_failure :
    diffFailsEnv.Output [] [] "diff".toList [] = (false, []) ∧
    failedExec diffFailsEnv []
      (handleComparePDFs diffFailsEnv
        (postRequest [] [("file1".toList, [⟨"a.pdf".toList, 0⟩]),
          ("file2".toList, [⟨"b.pdf".toList, 1⟩])])).2 = true ∧
    Event.writeFile (Join [baseWorkDir, sampleJob, "differences.txt".toList])
        "No differences found between the two PDF files.\n".toList 0o644 ∈
      (handleComparePDFs diffFailsEnv
        (postRequest [] [("file1".toList, [⟨"a.pdf".toList, 0⟩]),
          ("file2".toList, [⟨"b.pdf".toList, 1⟩])])).2 ∧
    (handleComparePDFs diffFailsEnv
        (postRequest [] [("file1".toList, [⟨"a.pdf".toList, 0⟩]),
          ("file2".toList, [⟨"b.pdf".toList, 1⟩])])).1.status = 200 := by
  decide

/-! ## The PDF-to-JPG operation -/

theorem popplerLines_pos (lines : List GoString) (n : Int)
    (h : popplerLines lines = PageCount.ok n) : 1 ≤ n := by
  induction lines with
  | nil => cases h
  | cons l rest ih =>
    rw [popplerLines] at h
    simp only at h
    split at h
    · split at h
      · split at h
        · split at h
          · simp only [PageCount.ok.injEq] at h
            omega
          · exact ih h
        · exact ih h
      · exact ih h
    · exact ih h

theorem pageCountPoppler_pos {env : Env} {tr : List Event} {dir inPath : GoString} {n : Int}
    (h : (pageCountPoppler env tr dir inPath).1 = PageCount.ok n) : 1 ≤ n := by
  simp only [pageCountPoppler, runCommandOutput] at h
  split at h
  · simp_all
  · rename_i out tr1 heq
    simp only [Prod.mk.injEq] at heq
    exact popplerLines_pos _ n h

theorem handlePDFToJPG_outcome (env : Env) (r : Request) (hdr : FileHeader)
    (hf : r.FormFile "file".toList = some hdr) :
    jpgOutcome env r hdr (clampInt 72 600 (parseIntDefault (r.FormValue "dpi".toList) 150))
      (handlePDFToJPG env r) := by
  unfold handlePDFToJPG
  simp only [ite_clamp, hf]
  generalize clampInt 72 600 (parseIntDefault (r.FormValue "dpi".toList) 150) = res
  simp only [newJobDir_eq, saveUploadedFile, osMkdirAll, runCommand, filepathGlob, osRename,
    zipDirectory]
  repeat' split
  all_goals (try simp only [Prod.mk.injEq, Option.ite_none_right_eq_some, ite_eq_right_iff,
    Option.some.injEq] at *)
  all_goals (try simp only [Prod.ext_iff] at *)
  all_goals (try casesm* _ ∧ _)
  all_goals subst_vars
  all_goals (try simp only [pageCountPoppler_snd] at *)
  all_goals (try have hpos := pageCountPoppler_pos (by assumption))
  all_goals simp_all [jpgOutcome, errorJSON]
  all_goals (try refine ⟨?_, ?_⟩)
  all_goals (try (rintro d n a (⟨_, h1, _⟩ | ⟨_, _, h2⟩) hn))
  all_goals (try simp_all)
  all_goals first
    | exact ⟨1, le_refl _, rfl, le_refl _⟩
    | exact ⟨_, by assumption, rfl, by assumption⟩

/-- Claim C26. For a PDF-to-JPG request with a file part: every run of the
renderer `pdftoppm` gets as resolution the clamp to the range from 72 to 600
of the parsed `dpi` value, 150 when the value is absent or blank; and an
answer 200 advertises, for the page count `n` found (always at least 1), the
single image `<base>.jpg` when `n` is 1 and the archive `<base>_images.zip`
when `n` is greater than 1, where `<base>` is `baseNameWithoutExt` of the
uploaded file name. -/
theorem handlePDFToJPG_artifact (env : Env) (r : Request) (hdr : FileHeader)
    (hf : r.FormFile "file".toList = some hdr) :
    jpgOutcome env r hdr (clampInt 72 600 (parseIntDefault (r.FormValue "dpi".toList) 150))
      (handlePDFToJPG env r) ∧
    72 ≤ clampInt 72 600 (parseIntDefault (r.FormValue "dpi".toList) 150) ∧
    clampInt 72 600 (parseIntDefault (r.FormValue "dpi".toList) 150) ≤ 600 ∧
    ((∀ c ∈ r.FormValue "dpi".toList, isSpace c = true) →
      clampInt 72 600 (parseIntDefault (r.FormValue "dpi".toList) 150) = 150) := by
  refine ⟨handlePDFToJPG_outcome env r hdr hf, (clampInt_bounds 72 600 _ (by decide)).1,
    (clampInt_bounds 72 600 _ (by decide)).2, ?_⟩
  intro h
  unfold parseIntDefault
  simp only [TrimSpace_spaces _ h, if_true]
  decide

theorem handlePDFToJPG_artifact_witness :
    jpgOutcome onePageEnv (uploadRequest [("dpi".toList, "1200".toList)]) ⟨"a.pdf".toList, 0⟩ 600
      (handlePDFToJPG onePageEnv (uploadRequest [("dpi".toList, "1200".toList)])) ∧
    (handlePDFToJPG onePageEnv (uploadRequest [("dpi".toList, "1200".toList)])).1 =
      ⟨200, Body.downloadUrl
        ("http://pdf.example/downloads/3b241101-e2bb-4255-8caf-4136c566a962/a.jpg".toList)⟩ ∧
    (handlePDFToJPG twoPagesEnv (uploadRequest [])).1 =
      ⟨200, Body.downloadUrl
        ("http://pdf.example/downloads/3b241101-e2bb-4255-8caf-4136c566a962/a_images.zip".toList)⟩ :=
  ⟨(handlePDFToJPG_artifact onePageEnv (uploadRequest [("dpi".toList, "1200".toList)])
      ⟨"a.pdf".toList, 0⟩ rfl).1,
    by decide, by decide⟩

/-! ## Thumbnails rendered on request -/

theorem decimalValue_of_Atoi {s : GoString} {n : Int} (h : Atoi s = some n) :
    decimalValue s = some n ∧ -(2 : Int) ^ 63 ≤ n ∧ n ≤ 2 ^ 63 - 1 := by
  rw [Atoi_eq_decimalValue] at h
  cases hd : decimalValue s with
  | none => rw [hd] at h; cases h
  | some m =>
    rw [hd, Option.some_bind] at h
    split at h
    · rename_i hr
      cases h
      exact ⟨rfl, hr⟩
    · cases h

theorem Atoi_of_decimalValue {s : GoString} {n : Int} (h : decimalValue s = some n)
    (h1 : -(2 : Int) ^ 63 ≤ n) (h2 : n ≤ 2 ^ 63 - 1) : Atoi s = some n := by
  rw [Atoi_eq_decimalValue, h, Option.some_bind, if_pos ⟨h1, h2⟩]

theorem getLast?_digits {ds : List Char} (h1 : ds ≠ []) (h2 : ds.all Char.isDigit = true) :
    ∃ c, ds.getLast? = some c ∧ c.isDigit = true :=
  ⟨ds.getLast h1, List.getLast?_eq_getLast _ h1,
    List.all_eq_true.1 h2 _ (List.getLast_mem h1)⟩

theorem decimalValue_last {s : GoString} {n : Int} (h : decimalValue s = some n) :
    ∃ c, s.getLast? = some c ∧ c.isDigit = true := by
  unfold decimalValue at h
  split at h
  · simp only at h
    split at h
    · rename_i hc
      obtain ⟨d, hd1, hd2⟩ := getLast?_digits hc.1 hc.2
      exact ⟨d, by rw [getLast?_cons_of_ne_nil _ hc.1]; exact hd1, hd2⟩
    · cases h
  · simp only at h
    split at h
    · rename_i hc
      obtain ⟨d, hd1, hd2⟩ := getLast?_digits hc.1 hc.2
      exact ⟨d, by rw [getLast?_cons_of_ne_nil _ hc.1]; exact hd1, hd2⟩
    · cases h
  · simp only at h
    split at h
    · rename_i hc
      exact getLast?_digits hc.1 hc.2
    · cases h

theorem toLowerRune_digit {c : Char} (h : c.isDigit = true) : toLowerRune c = c := by
  unfold Char.isDigit at h
  simp only [Bool.and_eq_true, decide_eq_true_eq, ge_iff_le] at h
  have h1 : 48 ≤ c.toNat := by
    have := h.1
    exact this
  have h2 : c.toNat ≤ 57 := by
    have := h.2
    exact this
  unfold toLowerRune lowerASCII
  rw [if_neg (by omega), if_neg (by omega), if_neg]
  intro hA
  have h3 : ('A' : Char).toNat ≤ c.toNat := hA.1
  have h4 : ('A' : Char).toNat = 65 := rfl
  omega

theorem ToLower_png : ToLower ".png".toList = ".png".toList := by decide

theorem ToLower_append (a b : GoString) : ToLower (a ++ b) = ToLower a ++ ToLower b := by
  unfold ToLower
  exact List.map_append _ _ _

theorem HasSuffix_append (a suf : GoString) : HasSuffix (a ++ suf) suf = true := by
  unfold HasSuffix
  rw [List.isSuffixOf_iff_suffix]
  exact List.suffix_append _ _

theorem TrimPrefix_append (pre rest : GoString) : TrimPrefix (pre ++ rest) pre = rest := by
  unfold TrimPrefix
  rw [if_pos (HasPrefix_append pre rest)]
  exact List.drop_left' rfl

theorem TrimSuffix_append (a suf : GoString) : TrimSuffix (a ++ suf) suf = a := by
  unfold TrimSuffix
  rw [if_pos (HasSuffix_append a suf)]
  simp

theorem eq_append_of_HasPrefix {s pre : GoString} (h : HasPrefix s pre = true) :
    s = pre ++ s.drop pre.length := by
  unfold HasPrefix at h
  rw [List.isPrefixOf_iff_prefix] at h
  obtain ⟨t, rfl⟩ := h
  simp

theorem eq_append_of_HasSuffix {s suf : GoString} (h : HasSuffix s suf = true) :
    s = s.take (s.length - suf.length) ++ suf := by
  unfold HasSuffix at h
  rw [List.isSuffixOf_iff_suffix] at h
  obtain ⟨t, rfl⟩ := h
  simp

theorem getLast?_of_HasSuffix_png {s : GoString} (h : HasSuffix s ".png".toList = true) :
    s.getLast? = some 'g' := by
  rw [eq_append_of_HasSuffix h]
  simp

theorem getLast?_ToLower (s : GoString) : (ToLower s).getLast? = s.getLast?.map toLowerRune := by
  unfold ToLower
  induction s using List.reverseRecOn with
  | nil => rfl
  | append_singleton l x _ => simp

theorem headD_of_head? {α : Type} {l : List α} {a d : α} (h : l.head? = some a) :
    l.headD d = a := by
  cases l with
  | nil => cases h
  | cons b t => simpa using h

theorem getLastD_of_getLast? {α : Type} {l : List α} {a d : α} (h : l.getLast? = some a) :
    l.getLastD d = a := by
  rw [List.getLastD_eq_getLast?, h]
  rfl

/-- The test `lazyPage` of the code accepts exactly the paths of the
lazy-render shape whose page number is a value of the 64-bit `int`. -/
theorem lazyPage_iff (clean jobID : GoString) (n : Int) :
    lazyPage clean = some (jobID, n) ↔ lazyShape clean jobID n ∧ n ≤ 2 ^ 63 - 1 := by
  constructor
  · intro h
    unfold lazyPage at h
    simp only at h
    split at h
    · rename_i hparts
      split at h
      · rename_i hfile
        split at h
        · rename_i m hm
          split at h
          · rename_i hpos
            simp only [Option.some.injEq, Prod.mk.injEq] at h
            obtain ⟨hj, rfl⟩ := h
            have hne : Split clean Separator ≠ [] := by
              intro h0
              rw [h0] at hparts
              simp at hparts
            have hlast : (Split clean Separator).getLast? =
                some ((Split clean Separator).getLastD []) := by
              rw [List.getLastD_eq_getLast?, List.getLast?_eq_getLast _ hne]
              rfl
            have hhead : (Split clean Separator).head? = some jobID := by
              rw [← hj]
              cases hs : Split clean Separator with
              | nil => exact absurd hs hne
              | cons a t => rfl
            generalize (Split clean Separator).getLastD [] = file at hfile hm hlast
            have hfe := eq_append_of_HasPrefix hfile.1
            generalize file.drop "page-".toList.length = rest at hfe
            subst hfe
            rw [TrimPrefix_append] at hm
            by_cases hsuf : HasSuffix rest ".png".toList = true
            · have hre := eq_append_of_HasSuffix hsuf
              generalize rest.take (rest.length - ".png".toList.length) = numeral at hre
              subst hre
              rw [TrimSuffix_append] at hm
              obtain ⟨hd, _, hr⟩ := decimalValue_of_Atoi hm
              exact ⟨⟨hparts.1, hparts.2, hhead, hpos, numeral, hd,
                by rw [hlast, List.append_assoc]⟩, hr⟩
            · exfalso
              have hts : TrimSuffix rest ".png".toList = rest := by
                unfold TrimSuffix
                rw [if_neg hsuf]
              rw [hts] at hm
              obtain ⟨hd, _, _⟩ := decimalValue_of_Atoi hm
              obtain ⟨c, hc1, hc2⟩ := decimalValue_last hd
              have hrne : rest ≠ [] := by
                intro h0
                rw [h0] at hc1
                cases hc1
              have h1 := getLast?_of_HasSuffix_png hfile.2
              rw [getLast?_ToLower, List.getLast?_append_of_ne_nil _ hrne, hc1, Option.map_some',
                toLowerRune_digit hc2] at h1
              simp only [Option.some.injEq] at h1
              rw [h1] at hc2
              revert hc2
              decide
          · cases h
        · cases h
      · cases h
    · cases h
  · rintro ⟨⟨h1, h2, h3, h4, numeral, h5, h6⟩, h7⟩
    unfold lazyPage
    simp only
    rw [if_pos ⟨h1, h2⟩, headD_of_head? h3, getLastD_of_getLast? h6]
    have hp : HasPrefix ("page-".toList ++ numeral ++ ".png".toList) "page-".toList = true := by
      rw [List.append_assoc]
      exact HasPrefix_append _ _
    have hs : HasSuffix (ToLower ("page-".toList ++ numeral ++ ".png".toList))
        ".png".toList = true := by
      rw [ToLower_append, ToLower_png]
      exact HasSuffix_append _ _
    rw [if_pos ⟨hp, hs⟩, List.append_assoc, TrimPrefix_append, TrimSuffix_append,
      Atoi_of_decimalValue h5 (by omega) h7]
    simp only
    rw [if_pos h4]

/-- Claim C23, counterexample. The path `j/previews/page-9223372036854775808.png`
has the lazy-render shape, with the positive integer `2 ^ 63` as page number,
and its file is absent; the number is not a value of the 64-bit `int`, so the
answer is 404 and the rendering tool is not run. -/
theorem servePreview_page_out_of_range :
    lazyShape
      (Clean (TrimPrefix "/previews/j/previews/page-9223372036854775808.png".toList
        "/previews/".toList)) "j".toList (2 ^ 63) ∧
    missingOrDir (missingEnv.Stat []
      (Join [baseWorkDir, "j/previews/page-9223372036854775808.png".toList])) = true ∧
    (servePreview missingEnv
      (getRequest "/previews/j/previews/page-9223372036854775808.png".toList)).1 =
        httpError "file not found".toList 404 ∧
    toolRuns (servePreview missingEnv
      (getRequest "/previews/j/previews/page-9223372036854775808.png".toList)).2 = [] :=
  ⟨⟨by decide, by decide, by decide, by decide, "9223372036854775808".toList, by decide,
    by decide⟩, by decide, by decide, by decide⟩

/-- Claim C23, amended. For a preview request that passes the traversal guard
and whose resolved file is absent or a directory: if the cleaned path does not
have the lazy-render shape with a page number below `2 ^ 63`, the answer is
404 and no tool is run; if it has that shape, for job `jobID` and page `n`
below `2 ^ 63`, the only tool run is one run of `pdftoppm` with first page and
last page `n`, the answer is 500 when that run fails, 404 when it succeeds and
the file is still absent or a directory, and the file otherwise. -/
theorem servePreview_lazy (env : Env) (r : Request)
    (hguard : Contains (Clean (TrimPrefix r.URLPath "/previews/".toList)) "..".toList = false)
    (hmiss : missingOrDir (env.Stat []
      (Join [baseWorkDir, Clean (TrimPrefix r.URLPath "/previews/".toList)])) = true) :
    ((∀ jobID n, lazyShape (Clean (TrimPrefix r.URLPath "/previews/".toList)) jobID n →
        2 ^ 63 ≤ n) →
      (servePreview env r).1 = httpError "file not found".toList 404 ∧
      toolRuns (servePreview env r).2 = []) ∧
    (∀ jobID n, lazyShape (Clean (TrimPrefix r.URLPath "/previews/".toList)) jobID n →
      n ≤ 2 ^ 63 - 1 →
      toolRuns (servePreview env r).2 = [lazyRun jobID n] ∧
      (env.Run
          [Event.stat (Join [baseWorkDir, Clean (TrimPrefix r.URLPath "/previews/".toList)]),
            Event.mkdirAll (Join [Join [baseWorkDir, jobID], "previews".toList]) 0o755]
          (Join [baseWorkDir, jobID]) (lazyRun jobID n).1 (lazyRun jobID n).2 = none →
        (servePreview env r).1 = httpError "failed to render preview".toList 500) ∧
      (env.Run
          [Event.stat (Join [baseWorkDir, Clean (TrimPrefix r.URLPath "/previews/".toList)]),
            Event.mkdirAll (Join [Join [baseWorkDir, jobID], "previews".toList]) 0o755]
          (Join [baseWorkDir, jobID]) (lazyRun jobID n).1 (lazyRun jobID n).2 ≠ none →
        (servePreview env r).1 =
          if missingOrDir (env.Stat
            [Event.stat (Join [baseWorkDir, Clean (TrimPrefix r.URLPath "/previews/".toList)]),
              Event.mkdirAll (Join [Join [baseWorkDir, jobID], "previews".toList]) 0o755,
              Event.run (Join [baseWorkDir, jobID]) (lazyRun jobID n).1 (lazyRun jobID n).2]
            (Join [baseWorkDir, Clean (TrimPrefix r.URLPath "/previews/".toList)])) = true
          then httpError "file not found".toList 404
          else ⟨200, Body.file
            (Join [baseWorkDir, Clean (TrimPrefix r.URLPath "/previews/".toList)]) none⟩)) := by
  unfold servePreview
  simp only []
  generalize Clean (TrimPrefix r.URLPath "/previews/".toList) = clean at hguard hmiss ⊢
  constructor
  · intro hno
    have hlp : lazyPage clean = none := by
      cases h : lazyPage clean with
      | none => rfl
      | some p =>
        obtain ⟨j, n⟩ := p
        have := (lazyPage_iff clean j n).1 h
        have := hno j n this.1
        omega
    simp only [hguard, osStat, hmiss, hlp, if_true, if_false, Bool.false_eq_true]
    constructor <;> trivial
  · intro jobID n hshape hn
    have hlp : lazyPage clean = some (jobID, n) := (lazyPage_iff clean jobID n).2 ⟨hshape, hn⟩
    simp only [hguard, osStat, hmiss, hlp, runCommandOutput, lazyRun, if_true, if_false,
      Bool.false_eq_true, List.nil_append, List.cons_append, List.singleton_append]
    generalize env.Run _ _ _ _ = res
    cases res with
    | none => exact ⟨by simp [toolRuns], fun _ => rfl, fun h => absurd rfl h⟩
    | some out =>
      simp only
      refine ⟨?_, fun h => (by cases h), fun _ => ?_⟩
      · split <;> simp [toolRuns]
      · split <;> rfl

theorem servePreview_lazy_witness :
    toolRuns (servePreview missingEnv (getRequest "/previews/j/previews/page-3.png".toList)).2 =
      [lazyRun "j".toList 3] ∧
    (servePreview missingEnv (getRequest "/previews/j/previews/page-3.png".toList)).1 =
      httpError "file not found".toList 404 :=
  have h := (servePreview_lazy missingEnv (getRequest "/previews/j/previews/page-3.png".toList)
    (by decide) (by decide)).2 "j".toList 3
    ⟨by decide, by decide, by decide, by decide, "3".toList, by decide, by decide⟩ (by decide)
  ⟨h.1, (h.2.2 (by decide)).trans (by decide)⟩

/-! ## The page references of a preview -/

theorem cleanLoop_sep (fuel : Nat) (rest out : List Char) (dd : Nat) :
    cleanLoop false (fuel + 1) (Separator :: rest) out dd = cleanLoop false fuel rest out dd := by
  rw [cleanLoop]
  simp

theorem cleanLoop_seg (fuel : Nat) (seg rest out : List Char) (dd : Nat) (hseg : plainName seg)
    (hrest : rest = [] ∨ ∃ m, rest = Separator :: m) :
    cleanLoop false (fuel + 1) (seg ++ rest) out dd =
      cleanLoop false fuel rest
        ((if out.length ≠ 0 then out ++ [Separator] else out) ++ seg) dd := by
  obtain ⟨hne, hsep, hdot⟩ := hseg
  have htake : (seg ++ rest).takeWhile (fun x => x != Separator) = seg := by
    rcases hrest with rfl | ⟨m, rfl⟩
    · rw [List.append_nil, takeWhile_plain hsep]
    · rw [takeWhile_append_sep, takeWhile_plain hsep]
  have hdrop : (seg ++ rest).dropWhile (fun x => x != Separator) = rest := by
    rcases hrest with rfl | ⟨m, rfl⟩
    · rw [List.append_nil, dropWhile_plain hsep]
    · rw [dropWhile_append_sep, dropWhile_plain hsep, List.nil_append]
  cases seg with
  | nil => exact absurd rfl hne
  | cons c t =>
    have hc1 : c ≠ Separator := fun he => hsep (by simp [he])
    have hc2 : c ≠ '.' := fun he => hdot (by simp [he])
    rw [List.cons_append] at htake hdrop ⊢
    rw [cleanLoop]
    simp only [hc1, hc2, false_and, if_false, htake, hdrop, Bool.false_eq_true, true_and,
      false_or]

/-- Cleaning a relative path of three plain segments leaves it unchanged. -/
theorem Clean_three {a b c : GoString} (ha : plainName a) (hb : plainName b)
    (hc : plainName c) :
    Clean (a ++ Separator :: (b ++ Separator :: c)) = a ++ Separator :: (b ++ Separator :: c) := by
  have hane : a ≠ [] := ha.1
  have hbne : b ≠ [] := hb.1
  have hcne : c ≠ [] := hc.1
  have hhead : ¬ (a ++ Separator :: (b ++ Separator :: c)).head? = some Separator := by
    cases a with
    | nil => exact absurd rfl hane
    | cons x t =>
      intro h
      simp only [List.cons_append, List.head?_cons, Option.some.injEq] at h
      exact ha.2.1 (by simp [h])
  have hlen : ∃ k, (a ++ Separator :: (b ++ Separator :: c)).length = k + 5 := by
    refine ⟨a.length + b.length + c.length - 3, ?_⟩
    have h1 := List.length_pos.2 hane
    have h2 := List.length_pos.2 hbne
    have h3 := List.length_pos.2 hcne
    simp only [List.length_append, List.length_cons]
    omega
  obtain ⟨k, hk⟩ := hlen
  unfold Clean
  rw [if_neg (by simp)]
  simp only [hhead, decide_False, Bool.false_eq_true, if_false, hk]
  have hloop : cleanLoop false (k + 5) (a ++ Separator :: (b ++ Separator :: c)) [] 0 =
      a ++ Separator :: (b ++ Separator :: c) := by
    rw [cleanLoop_seg (k + 4) a _ [] 0 ha (Or.inr ⟨_, rfl⟩), cleanLoop_sep,
      cleanLoop_seg (k + 2) b _ _ 0 hb (Or.inr ⟨_, rfl⟩), cleanLoop_sep]
    have hc' := cleanLoop_seg k c [] ((if ([] ++ a : List Char).length ≠ 0 then
      ([] ++ a : List Char) ++ [Separator] else ([] ++ a : List Char)) ++ b) 0 hc (Or.inl rfl)
    simp only [List.append_nil] at hc'
    have hal : (([] : List Char) ++ a).length ≠ 0 := by
      simp only [List.nil_append]
      exact fun h => hane (List.length_eq_zero.1 h)
    simp only [List.length_nil, ne_eq, not_true_eq_false, if_false] at hc' ⊢
    rw [hc', cleanLoop_nil]
    simp [hal, hane]
  rw [hloop, if_neg (by simp)]

theorem Split_three {a b c : GoString} (ha : Separator ∉ a) (hb : Separator ∉ b)
    (hc : Separator ∉ c) :
    Split (a ++ Separator :: (b ++ Separator :: c)) Separator = [a, b, c] := by
  have h : ([Separator].intercalate [a, b, c]).splitOn Separator = [a, b, c] :=
    List.splitOn_intercalate [a, b, c] Separator
      (by
        intro l hl
        simp only [List.mem_cons, List.mem_singleton, List.not_mem_nil, or_false] at hl
        rcases hl with rfl | rfl | rfl <;> assumption)
      (by simp)
  unfold Split
  rw [← h]
  simp [List.intercalate]

theorem pageName_plain (i : Int) : plainName ("page-".toList ++ Itoa i ++ ".png".toList) := by
  refine ⟨by simp, ?_, by simp⟩
  intro h
  simp only [List.mem_append] at h
  rcases h with (h | h) | h
  · revert h
    decide
  · unfold Itoa at h
    split at h
    · rcases List.mem_cons.1 h with h | h
      · revert h
        decide
      · exact digit_ne (natItoa_digits _ _ h) (by decide) rfl
    · exact digit_ne (natItoa_digits _ _ h) (by decide) rfl
  · revert h
    decide

theorem Join_previews (i : Int) :
    Join ["previews".toList, "page-".toList ++ Itoa i ++ ".png".toList] =
      "previews/".toList ++ ("page-".toList ++ Itoa i ++ ".png".toList) := by
  obtain ⟨pre, hpre⟩ := Join_plain "previews".toList (by decide)
  have hx : plainName "x".toList := ⟨by decide, by decide, by decide⟩
  have h1 : Join ["previews".toList, "x".toList] = "previews/".toList ++ "x".toList := by decide
  rw [hpre _ hx] at h1
  have h2 : pre = "previews/".toList := List.append_cancel_right h1
  rw [hpre _ (pageName_plain i), h2]

theorem previewPages_eq (r : Request) (jobID : GoString) :
    ∀ (k : Nat) (i : Int), previewPages r jobID k i =
      (List.range k).map
        (fun (j : Nat) => (i + (j : Int), inferBaseURL r ++ previewPath jobID (i + (j : Int)))) := by
  intro k
  induction k with
  | zero => intro i; rfl
  | succ k ih =>
    intro i
    rw [previewPages, ih, List.range_succ_eq_map, List.map_cons, List.map_map]
    congr 1
    · simp only [Nat.cast_zero, add_zero, buildPreviewURL, Join_previews, previewPath]
      simp
    · apply List.map_congr_left
      intro j _
      simp only [Function.comp, Nat.succ_eq_add_one, Nat.cast_add, Nat.cast_one]
      rw [show i + 1 + (j : Int) = i + ((j : Int) + 1) by ring]

theorem previewPages_refs (r : Request) (jobID : GoString) (k : Nat) :
    previewPages r jobID k 1 = previewRefs (inferBaseURL r) jobID k := by
  rw [previewPages_eq]
  unfold previewRefs
  apply List.map_congr_left
  intro j _
  rw [show (1 : Int) + (j : Int) = (j : Int) + 1 by ring]

theorem jobName_plain {s : GoString} (h : jobName s) : plainName s := by
  refine ⟨h.1, h.2.1, ?_⟩
  intro hh
  cases s with
  | nil => cases hh
  | cons c t =>
    simp only [List.head?_cons, Option.some.injEq] at hh
    exact h.2.2 (by simp [hh])

theorem Itoa_no_dot (i : Int) : '.' ∉ Itoa i := by
  intro h
  unfold Itoa at h
  split at h
  · rcases List.mem_cons.1 h with h | h
    · revert h
      decide
    · exact digit_ne (natItoa_digits _ _ h) (by decide) rfl
  · exact digit_ne (natItoa_digits _ _ h) (by decide) rfl

theorem noDotDot_of_count {s : GoString} (h : s.count '.' ≤ 1) : Contains s "..".toList = false := by
  rw [Bool.eq_false_iff]
  intro hc
  rw [Contains_iff_sub] at hc
  have := hc.sublist.count_le '.'
  have h2 : ("..".toList).count '.' = 2 := by decide
  omega

theorem previewPath_clean {jobID : GoString} (hj : jobName jobID) (i : Int) :
    Clean (TrimPrefix (previewPath jobID i) "/previews/".toList) =
      jobID ++ Separator :: ("previews".toList ++
        Separator :: ("page-".toList ++ Itoa i ++ ".png".toList)) := by
  have h1 : previewPath jobID i = "/previews/".toList ++
      (jobID ++ Separator :: ("previews".toList ++
        Separator :: ("page-".toList ++ Itoa i ++ ".png".toList))) := by
    simp [previewPath, Separator]
  rw [h1, TrimPrefix_append,
    Clean_three (jobName_plain hj) ⟨by decide, by decide, by decide⟩ (pageName_plain i)]

theorem previewPath_lazy {jobID : GoString} (hj : jobName jobID) {i : Int} (h1 : 1 ≤ i)
    (h2 : i ≤ 2 ^ 63 - 1) :
    Contains (Clean (TrimPrefix (previewPath jobID i) "/previews/".toList)) "..".toList = false ∧
    lazyShape (Clean (TrimPrefix (previewPath jobID i) "/previews/".toList)) jobID i := by
  rw [previewPath_clean hj]
  constructor
  · apply noDotDot_of_count
    have ha : jobID.count '.' = 0 := List.count_eq_zero_of_not_mem hj.2.2
    have hb : (Itoa i).count '.' = 0 := List.count_eq_zero_of_not_mem (Itoa_no_dot i)
    simp [List.count_append, List.count_cons, ha, hb, Separator]
  · have hs := Split_three hj.2.1 (show Separator ∉ "previews".toList by decide)
      (pageName_plain i).2.1
    refine ⟨?_, ?_, ?_, by omega, Itoa i, (decimalValue_of_Atoi (Atoi_Itoa_range (by omega) h2)).1,
      ?_⟩
    all_goals rw [hs]
    all_goals simp

theorem servePreview_runs_of_lazyPage (env : Env) (r : Request) (jobID : GoString) (n : Int)
    (hguard : Contains (Clean (TrimPrefix r.URLPath "/previews/".toList)) "..".toList = false)
    (hmiss : missingOrDir (env.Stat []
      (Join [baseWorkDir, Clean (TrimPrefix r.URLPath "/previews/".toList)])) = true)
    (hlp : lazyPage (Clean (TrimPrefix r.URLPath "/previews/".toList)) = some (jobID, n)) :
    toolRuns (servePreview env r).2 = [lazyRun jobID n] := by
  unfold servePreview
  simp only [hguard, osStat, hmiss, hlp, runCommandOutput, lazyRun, if_true, if_false,
    Bool.false_eq_true, List.nil_append, List.cons_append, List.singleton_append]
  generalize env.Run _ _ _ _ = res
  cases res with
  | none => simp [toolRuns]
  | some out =>
    simp only
    split <;> simp [toolRuns]

theorem makeslicePanics_preview (n : Int) :
    makeslicePanics 24 n = false ↔ 0 ≤ n ∧ n ≤ maxPreviewPages := by
  simp only [makeslicePanics, maxAlloc, maxPreviewPages, Bool.or_eq_false_iff,
    decide_eq_false_iff_not, not_lt]
  norm_num
  intro _
  omega

theorem previewAnswer_fst (r : Request) (jobID dir inPath : GoString) (total : Int)
    (tr : List Event) :
    (previewAnswer r jobID dir inPath total tr).1 =
      if makeslicePanics 24 total = true then ⟨0, Body.noResponse⟩
      else ⟨200, Body.pages (previewRefs (inferBaseURL r) jobID total.toNat)⟩ := by
  unfold previewAnswer
  split <;> simp [previewPages_refs]

theorem handlePreview_fst (env : Env) (r : Request) (hdr : FileHeader)
    (hm : r.Method = "POST".toList) (hp : r.multipartOk = true)
    (hf : r.FormFile "file".toList = some hdr) (hprep : previewPrepared env hdr) (total : Int)
    (hN : previewCount env hdr = some total) :
    (handlePreview env r).1 =
      if makeslicePanics 24 total = true then ⟨0, Body.noResponse⟩
      else ⟨200, Body.pages (previewRefs (inferBaseURL r) (env.NewString []) total.toNat)⟩ := by
  obtain ⟨h1, h2, h3⟩ := hprep
  unfold previewCount at hN
  unfold handlePreview
  rw [if_neg (by simp [hm]), if_neg (by simp [hp]), hf]
  simp only [newJobDir, List.nil_append, List.cons_append, List.singleton_append, h1, if_true,
    saveUploadedFile, h2, osMkdirAll, h3] at hN ⊢
  split
  · rename_i t tr hpc
    rw [hpc] at hN
    simp only [Option.some.injEq] at hN
    subst hN
    exact previewAnswer_fst _ _ _ _ _ _
  · rename_i c tr hne hpc
    have htr := pageCountPoppler_snd env
      [Event.newUUID (env.NewString []),
        Event.mkdirAll (Join [baseWorkDir, env.NewString []]) 0o755,
        Event.saveUpload hdr (Join [Join [baseWorkDir, env.NewString []], "input.pdf".toList]),
        Event.mkdirAll (Join [Join [baseWorkDir, env.NewString []], "previews".toList]) 0o755]
      (Join [baseWorkDir, env.NewString []])
      (Join [Join [baseWorkDir, env.NewString []], "input.pdf".toList])
    rw [hpc] at hN htr
    simp only [List.cons_append, List.nil_append] at htr
    subst htr
    cases c with
    | ok n => exact (hne n rfl).elim
    | toolFailed =>
      simp only at hN
      split
      · rename_i t2 tr2 hpc2
        rw [hpc2] at hN
        simp only [Option.some.injEq] at hN
        subst hN
        exact previewAnswer_fst _ _ _ _ _ _
      · rename_i c2 tr2 hne2 hpc2
        rw [hpc2] at hN
        cases c2 with
        | ok n => exact (hne2 n rfl).elim
        | toolFailed => simp at hN
        | couldNotParse => simp at hN
    | couldNotParse =>
      simp only at hN
      split
      · rename_i t2 tr2 hpc2
        rw [hpc2] at hN
        simp only [Option.some.injEq] at hN
        subst hN
        exact previewAnswer_fst _ _ _ _ _ _
      · rename_i c2 tr2 hne2 hpc2
        rw [hpc2] at hN
        cases c2 with
        | ok n => exact (hne2 n rfl).elim
        | toolFailed => simp at hN
        | couldNotParse => simp at hN

theorem handlePreview_outcome (env : Env) (r : Request) (hdr : FileHeader)
    (hf : r.FormFile "file".toList = some hdr) :
    previewOutcome env r hdr (handlePreview env r) := by
  unfold handlePreview
  simp only [hf, newJobDir_eq, saveUploadedFile, osMkdirAll, previewAnswer, previewPages_refs]
  repeat' split
  all_goals (try simp only [Prod.mk.injEq, Option.ite_none_right_eq_some, ite_eq_right_iff,
    Option.some.injEq] at *)
  all_goals (try simp only [Prod.ext_iff] at *)
  all_goals (try casesm* _ ∧ _)
  all_goals subst_vars
  all_goals (try simp only [pageCountPoppler_snd, pageCountPDF_snd] at *)
  all_goals simp_all [previewOutcome, errorJSON, previewCount, makeslicePanics_preview]

/-- Claim C22, counterexample. When `pdfinfo` reports 100000000000000 pages
for the upload, the preview request has this page count, and `handlePreview`
sends no response and no entry at all: `make([]previewPage, 0, total)` panics,
the capacity being more than `maxAlloc / 24`. The same happens for the page
count -3 that `pdfcpu info` can report. -/
theorem handlePreview_count_out_of_range :
    previewPrepared hugePagesEnv ⟨"a.pdf".toList, 0⟩ ∧
    previewCount hugePagesEnv ⟨"a.pdf".toList, 0⟩ = some 100000000000000 ∧
    (handlePreview hugePagesEnv (uploadRequest [])).1 = ⟨0, Body.noResponse⟩ ∧
    previewPrepared negativePagesEnv ⟨"a.pdf".toList, 0⟩ ∧
    previewCount negativePagesEnv ⟨"a.pdf".toList, 0⟩ = some (-3) ∧
    (handlePreview negativePagesEnv (uploadRequest [])).1 = ⟨0, Body.noResponse⟩ :=
  ⟨⟨rfl, rfl, rfl⟩, by decide, by decide, ⟨rfl, rfl, rfl⟩, by decide, by decide⟩

/-- Claim C22, amended. Take a preview request (a `POST` with a parseable body
and a `file` part) whose job directory, saved upload and previews directory
can be made and whose page count is `N`. If `N` is from 0 to
`maxPreviewPages`, the answer is 200 with exactly `N` page references, with
the page numbers 1, 2, ..., `N` in ascending order, the one of page `i` with
the URL `base/previews/<jobID>/previews/page-<i>.png`; for any other `N` the
handler panics and sends no response. An answer 200 always comes with such a
page count and these references. For a job identifier without separator and
dot and every page `i` from 1 to the largest `int`, the path of that URL
passes the traversal guard of `servePreview`, has the lazy-render shape and is
parsed to the job `jobID` and the page `i`; when the image is absent,
`servePreview` renders exactly that page. -/
theorem handlePreview_pages (env : Env) (r : Request) (hdr : FileHeader)
    (hm : r.Method = "POST".toList) (hp : r.multipartOk = true)
    (hf : r.FormFile "file".toList = some hdr) :
    (previewPrepared env hdr → ∀ N : Int, previewCount env hdr = some N →
      (0 ≤ N → N ≤ maxPreviewPages →
        (handlePreview env r).1 =
          ⟨200, Body.pages (previewRefs (inferBaseURL r) (env.NewString []) N.toNat)⟩) ∧
      (¬ (0 ≤ N ∧ N ≤ maxPreviewPages) →
        (handlePreview env r).1 = ⟨0, Body.noResponse⟩)) ∧
    previewOutcome env r hdr (handlePreview env r) ∧
    (∀ k : Nat, (previewRefs (inferBaseURL r) (env.NewString []) k).length = k ∧
      (previewRefs (inferBaseURL r) (env.NewString []) k).map Prod.fst =
        (List.range k).map (fun (j : Nat) => (j : Int) + 1) ∧
      ∀ j, j < k → (previewRefs (inferBaseURL r) (env.NewString []) k).get? j =
        some ((j : Int) + 1, inferBaseURL r ++ "/previews/".toList ++ env.NewString [] ++
          "/previews/page-".toList ++ Itoa ((j : Int) + 1) ++ ".png".toList)) ∧
    (jobName (env.NewString []) → ∀ i : Int, 1 ≤ i → i ≤ 2 ^ 63 - 1 →
      Contains (Clean (TrimPrefix (previewPath (env.NewString []) i) "/previews/".toList))
        "..".toList = false ∧
      lazyShape (Clean (TrimPrefix (previewPath (env.NewString []) i) "/previews/".toList))
        (env.NewString []) i ∧
      lazyPage (Clean (TrimPrefix (previewPath (env.NewString []) i) "/previews/".toList)) =
        some (env.NewString [], i) ∧
      ∀ (env2 : Env) (r2 : Request), r2.URLPath = previewPath (env.NewString []) i →
        missingOrDir (env2.Stat [] (Join [baseWorkDir,
          Clean (TrimPrefix r2.URLPath "/previews/".toList)])) = true →
        toolRuns (servePreview env2 r2).2 = [lazyRun (env.NewString []) i]) := by
  refine ⟨?_, handlePreview_outcome env r hdr hf, fun k => ⟨?_, ?_, ?_⟩, ?_⟩
  · intro hprep N hN
    have h := handlePreview_fst env r hdr hm hp hf hprep N hN
    constructor
    · intro h0 h1
      rw [h, if_neg]
      rw [(makeslicePanics_preview N).2 ⟨h0, h1⟩]
      simp
    · intro hout
      rw [h, if_pos]
      cases hc : makeslicePanics 24 N
      · exact absurd ((makeslicePanics_preview N).1 hc) hout
      · rfl
  · simp [previewRefs]
  · simp [previewRefs, List.map_map, Function.comp]
  · intro j hj
    simp [previewRefs, List.get?_eq_getElem?, hj, previewPath, List.append_assoc]
  · intro hj i h1 h2
    obtain ⟨hg, hs⟩ := previewPath_lazy hj h1 h2
    have hl := (lazyPage_iff _ _ _).2 ⟨hs, h2⟩
    refine ⟨hg, hs, hl, ?_⟩
    intro env2 r2 hp hmiss
    rw [hp] at hmiss
    exact servePreview_runs_of_lazyPage env2 r2 _ i (by rw [hp]; exact hg)
      (by rw [hp]; exact hmiss) (by rw [hp]; exact hl)

theorem handlePreview_pages_witness :
    (handlePreview twoPagesEnv (uploadRequest [])).1 =
      ⟨200, Body.pages
        [(1, ("http://pdf.example/previews/3b241101-e2bb-4255-8caf-4136c566a962/" ++
            "previews/page-1.png").toList),
          (2, ("http://pdf.example/previews/3b241101-e2bb-4255-8caf-4136c566a962/" ++
            "previews/page-2.png").toList)]⟩ ∧
    lazyPage (Clean (TrimPrefix (previewPath sampleJob 2) "/previews/".toList)) =
      some (sampleJob, 2) ∧
    toolRuns (servePreview missingEnv (getRequest (previewPath sampleJob 2))).2 =
      [lazyRun sampleJob 2] :=
  have h := handlePreview_pages twoPagesEnv (uploadRequest []) ⟨"a.pdf".toList, 0⟩ rfl rfl rfl
  have h1 := (h.1 ⟨rfl, rfl, rfl⟩ 2 (by decide)).1 (by decide) (by decide)
  have h2 := h.2.2.2 ⟨by decide, by decide, by decide⟩ 2 (by decide) (by decide)
  ⟨h1.trans (by decide), h2.2.2.1, h2.2.2.2 missingEnv (getRequest (previewPath sampleJob 2)) rfl
    (by decide)⟩

/-! ## The redaction operation -/

theorem mem_eraseDups_loop (x : Int) :
    ∀ (as bs : List Int), x ∈ List.eraseDups.loop as bs ↔ x ∈ as ∨ x ∈ bs := by
  intro as
  induction as with
  | nil => intro bs; simp [List.eraseDups.loop]
  | cons a as ih =>
    intro bs
    rw [List.eraseDups.loop]
    split
    · rename_i hel
      rw [ih]
      have ha : a ∈ bs := by simpa using hel
      constructor
      · rintro (h | h)
        · exact Or.inl (List.mem_cons_of_mem _ h)
        · exact Or.inr h
      · rintro (h | h)
        · rcases List.mem_cons.1 h with rfl | h
          · exact Or.inr ha
          · exact Or.inl h
        · exact Or.inr h
    · rw [ih]
      simp only [List.mem_cons]
      tauto

theorem mem_eraseDups {x : Int} {l : List Int} (h : x ∈ l) : x ∈ l.eraseDups := by
  unfold List.eraseDups
  exact (mem_eraseDups_loop x l []).2 (Or.inl h)

theorem redactPages_subset (env : Env) (dir : GoString) (redactions : List RedactionArea)
    (pngFiles : List GoString) (pages : List Int) :
    ∀ (tr : List Event), ∀ e ∈ tr, e ∈ (redactPages env dir redactions pngFiles pages tr).2 := by
  induction pages with
  | nil => intro tr e he; exact he
  | cons p rest ih =>
    intro tr e he
    simp only [redactPages, runCommandOutput, runCommand, osRename]
    repeat' split
    all_goals (try simp only [Prod.mk.injEq] at *)
    all_goals (try casesm* _ ∧ _)
    all_goals subst_vars
    all_goals first
      | exact ih _ e he
      | exact ih _ e (by simp [he])
      | simp [he]

theorem drawArgs_eq (env : Env) (png : GoString) (w h : Int) (areas : List RedactionArea) :
    [png, "-fill".toList, "black".toList] ++
      (areas.map (drawCommand env w h)).flatMap (fun cmd => ["-draw".toList, cmd]) ++
      [png ++ ".tmp.png".toList] = drawArgs env png w h areas := by
  unfold drawArgs
  congr 2
  induction areas with
  | nil => rfl
  | cons a t ih => simp only [List.map_cons, List.flatMap_cons, ih]

theorem draw_infix (env : Env) (png : GoString) (w h : Int) {areas : List RedactionArea}
    {area : RedactionArea} (ha : area ∈ areas) :
    ["-draw".toList, drawCommand env w h area] <:+: drawArgs env png w h areas := by
  unfold drawArgs
  rw [List.append_assoc]
  refine List.IsInfix.trans ?_ (List.infix_append' _ _ _)
  induction areas with
  | nil => cases ha
  | cons a t ih =>
    rw [List.flatMap_cons]
    rcases List.mem_cons.1 ha with rfl | h
    · exact (List.prefix_append _ _).isInfix
    · exact (ih h).trans (List.suffix_append _ _).isInfix

theorem redactPages_draws (env : Env) (dir : GoString) (redactions : List RedactionArea)
    (pngFiles : List GoString) (pages : List Int) :
    ∀ (tr : List Event), (redactPages env dir redactions pngFiles pages tr).1 = none →
      ∀ p ∈ pages, ∀ png, findPagePNG env pngFiles p = some png →
        ∃ w h : Int,
          Event.run dir "convert".toList
            (drawArgs env png w h (redactions.filter (fun rd => rd.Page = p))) ∈
              (redactPages env dir redactions pngFiles pages tr).2 ∧
          Event.rename (png ++ ".tmp.png".toList) png ∈
            (redactPages env dir redactions pngFiles pages tr).2 := by
  induction pages with
  | nil => intro tr _ p hp; cases hp
  | cons q rest ih =>
    intro tr hnone p hp png hpng
    simp only [redactPages, runCommandOutput, runCommand, osRename, drawArgs_eq] at hnone ⊢
    cases hq : findPagePNG env pngFiles q with
    | none =>
      simp only [hq] at hnone ⊢
      rcases List.mem_cons.1 hp with rfl | hrest
      · rw [hq] at hpng
        cases hpng
      · exact ih tr hnone p hrest png hpng
    | some pq =>
      simp only [hq] at hnone ⊢
      generalize env.Run tr dir "identify".toList ["-format".toList, "%w %h".toList, pq] = idr
        at hnone ⊢
      cases idr with
      | none => simp at hnone
      | some dims =>
        simp only at hnone ⊢
        generalize env.scanDims (TrimSpace dims) = sd at hnone ⊢
        cases sd with
        | none => simp at hnone
        | some wh =>
          obtain ⟨w, h⟩ := wh
          simp only at hnone ⊢
          generalize (env.Run _ dir "convert".toList _).isSome = cr at hnone ⊢
          cases cr with
          | false => simp at hnone
          | true =>
            simp only at hnone ⊢
            generalize env.Rename _ _ _ = rr at hnone ⊢
            cases rr with
            | false => simp at hnone
            | true =>
              simp only at hnone ⊢
              rcases List.mem_cons.1 hp with rfl | hrest
              · rw [hq] at hpng
                cases hpng
                exact ⟨w, h, redactPages_subset _ _ _ _ _ _ _ (by simp),
                  redactPages_subset _ _ _ _ _ _ _ (by simp)⟩
              · exact ih _ hnone p hrest png hpng

theorem handleRedactPDF_outcome (env : Env) (r : Request)
    (hmap : ∀ tr keys, ∀ k ∈ keys, k ∈ env.mapOrder tr keys) :
    (handleRedactPDF env r).1.status = 200 → redactOutcome env r (handleRedactPDF env r) := by
  unfold handleRedactPDF
  simp only [newJobDir_eq, saveUploadedFile, runCommand, filepathGlob]
  repeat' split
  all_goals (try simp only [Prod.mk.injEq, Option.ite_none_right_eq_some, ite_eq_right_iff,
    Option.some.injEq] at *)
  all_goals (try simp only [Prod.ext_iff] at *)
  all_goals (try casesm* _ ∧ _)
  all_goals subst_vars
  all_goals first
    | (intro h200
       simp [errorJSON] at h200)
    | (intro h200
       have hr := (redactPages_resp _ _ _ _ _ _ _ (by assumption)).1
       rw [hr] at h200
       cases h200)
    | skip
  rename_i hnone _ _
  intro _
  simp only [List.nil_append, List.append_assoc, List.cons_append, List.singleton_append] at *
  refine ⟨_, _, _, by assumption, by assumption, by assumption, ?_⟩
  intro area ha png hpng
  obtain ⟨w, h, h1, h2⟩ := redactPages_draws _ _ _ _ _ _ hnone area.Page
    (hmap _ _ _ (mem_eraseDups (List.mem_map_of_mem (fun rd => rd.Page) ha))) png hpng
  refine ⟨w, h, ?_, ?_, draw_infix _ _ _ _ (by simp [ha])⟩
  · simp only [List.mem_append, List.mem_cons]
    tauto
  · simp only [List.mem_append, List.mem_cons]
    tauto

/-- Claim C25, counterexample. The request names an area on page 7 of a
document that was rendered to the single image `page-1.png`: the handler skips
the page, runs no draw command at all, and answers 200. -/
theorem handleRedactPDF_skips_page :
    skippedPageEnv.unmarshalRedactions [] =
      some [⟨7, F64.fin false 0 0, F64.fin false 0 0, F64.fin false 0 0, F64.fin false 0 0⟩] ∧
    (handleRedactPDF skippedPageEnv
      (uploadRequest [("redactions".toList, "[7]".toList)])).1.status = 200 ∧
    (∀ x ∈ toolRuns (handleRedactPDF skippedPageEnv
        (uploadRequest [("redactions".toList, "[7]".toList)])).2, "-draw".toList ∉ x.2) ∧
    toolRuns (handleRedactPDF skippedPageEnv
        (uploadRequest [("redactions".toList, "[7]".toList)])).2 =
      [("pdftoppm".toList, ["-png".toList, "-r".toList, "300".toList,
          Join [baseWorkDir, sampleJob, "input.pdf".toList],
          Join [baseWorkDir, sampleJob, "page".toList]]),
        ("convert".toList, ["/app/work/job/page-1.png".toList,
          Join [baseWorkDir, sampleJob, "temp_redacted.pdf".toList]]),
        ("qpdf".toList, ["--warning-exit-0".toList, "--linearize".toList,
          "--compress-streams=y".toList, "--object-streams=disable".toList,
          Join [baseWorkDir, sampleJob, "temp_redacted.pdf".toList],
          Join [baseWorkDir, sampleJob, "a_redacted.pdf".toList]])] := by
  decide

/-- Claim C25, amended. When the loop over the pages with redactions visits
every such page and the redaction request is answered with 200, every area of
the request whose page has a rendered image was drawn: the calls contain a
`convert` run that draws all areas of that page as black rectangles on the
image, the given area among them, and the rename that replaces the image by
the result. An area whose page has no rendered image is skipped. -/
theorem handleRedactPDF_draws (env : Env) (r : Request)
    (hmap : ∀ tr keys, ∀ k ∈ keys, k ∈ env.mapOrder tr keys)
    (h200 : (handleRedactPDF env r).1.status = 200) :
    redactOutcome env r (handleRedactPDF env r) :=
  handleRedactPDF_outcome env r hmap h200

theorem handleRedactPDF_draws_witness :
    (handleRedactPDF drawnPageEnv
      (uploadRequest [("redactions".toList, "[1]".toList)])).1.status = 200 ∧
    redactOutcome drawnPageEnv (uploadRequest [("redactions".toList, "[1]".toList)])
      (handleRedactPDF drawnPageEnv (uploadRequest [("redactions".toList, "[1]".toList)])) ∧
    Event.run (Join [baseWorkDir, sampleJob]) "convert".toList
        ["/app/work/job/page-1.png".toList, "-fill".toList, "black".toList, "-draw".toList,
          "rectangle 0,0 0,0".toList, "/app/work/job/page-1.png.tmp.png".toList] ∈
      (handleRedactPDF drawnPageEnv (uploadRequest [("redactions".toList, "[1]".toList)])).2 :=
  ⟨by decide,
    handleRedactPDF_draws drawnPageEnv (uploadRequest [("redactions".toList, "[1]".toList)])
      (fun _ _ _ h => h) (by decide),
    by decide⟩

end PdfBackend
